import Mathlib

/-!
Verification of hal_pru_generic: task list, shared-memory allocator and step generator.

A shallow embedding of the host side of the PRU driver
(`src/hal/hal_pru_generic.c`, `src/hal/stepgen.c`, `src/hal/hal_pru_generic.h`,
`src/asm/pru_tasks.h`).

Conventions of the embedding

* `rtapi_u8`, `rtapi_u16`, `rtapi_u32`, `rtapi_u64`, `pru_addr_t` are `Nat`, reduced
  explicitly where the C code can leave the range of the type.
* `rtapi_s32`, `rtapi_s64`, `int` are `Int`.
* `double` / `hal_float_t` are exact rationals (`Rat`): no rounding. The division of
  `update_stepgen` whose divisor the code does not keep away from zero (`physical_maxvel`)
  is modelled with its infinities (`xdouble`); elsewhere a division by zero gives 0 in
  `Rat` and statements about quotients assume a non-zero divisor. The constant `1e-6` that
  `hpg_stepgen_read` compares with is the `double` value (`double_1e_6`).
* `int` arithmetic that overflows (undefined in C) wraps to 32 bits in the model.
* A pointer to a `pru_task_t` is the index of the object in a store of task objects;
  the null pointer is `none`.
-/

namespace HalPruGeneric

/-! ## Machine integers -/

/-- Conversion to `rtapi_u32`: the value modulo 2^32. -/
def toU32 (x : Int) : Nat := (x % 4294967296).toNat

/-- Conversion to `rtapi_s32` / `int`: the two's complement reading of the low 32 bits. -/
def toS32 (x : Int) : Int := (x + 2147483648) % 4294967296 - 2147483648

/-- Conversion to `rtapi_u64`: the value modulo 2^64. -/
def toU64 (x : Int) : Nat := (x % 18446744073709551616).toNat

/-- The value of an `rtapi_u64` word read as a signed 64-bit integer. -/
def asS64 (x : Nat) : Int :=
  if x % 18446744073709551616 < 9223372036854775808 then ((x % 18446744073709551616 : Nat) : Int)
  else ((x % 18446744073709551616 : Nat) : Int) - 18446744073709551616

/-- `INT32_MIN` of hal_pru_generic.h. -/
def INT32_MIN : Int := -2147483647 - 1

/-- `INT32_MAX` of hal_pru_generic.h. -/
def INT32_MAX : Int := 2147483647

/-- `UINT32_MAX` of hal_pru_generic.h. -/
def UINT32_MAX : Int := 4294967295

/-! ## Task list manager (hal_pru_generic.c, `pru_task_add`) -/

/-- The host-side link record `pru_task_t`. -/
structure pru_task_t where
  addr : Nat
  next : Nat
deriving DecidableEq, Repr

/-- The fields of `hal_pru_generic_t` that `pru_task_add` reads and writes:
`head` is `pru_stat.task.hdr.addr`, `last_task` the pointer to the last task
(`none` for the null pointer) and `tasks` the store of `pru_task_t` objects that
task pointers point into. -/
structure TaskList where
  head : Nat
  last_task : Option Nat
  tasks : List pru_task_t
deriving DecidableEq, Repr

/-- Read `p->addr`. -/
def taskAddr (ts : List pru_task_t) (p : Nat) : Nat :=
  match ts[p]? with
  | some t => t.addr
  | none => 0

/-- Store `p->next = v`. -/
def setNext (ts : List pru_task_t) (p : Nat) (v : Nat) : List pru_task_t :=
  match ts[p]? with
  | some t => ts.set p { t with next := v }
  | none => ts

/-- `pru_task_add(hpg, task)`. -/
def pru_task_add (hpg : TaskList) (task : Nat) : TaskList :=
  match hpg.last_task with
  | none =>
    -- This is the first task
    let head := taskAddr hpg.tasks task
    let ts := setNext hpg.tasks task (taskAddr hpg.tasks task)
    { head := head, last_task := some task, tasks := ts }
  | some last =>
    -- Add this task to the end of the task list
    let ts1 := setNext hpg.tasks task hpg.head
    let ts2 := setNext ts1 last (taskAddr ts1 task)
    { head := hpg.head, last_task := some task, tasks := ts2 }

/-- The state before any task is added: the instance memory is zeroed (`memset`), then each
descriptor gets its address; `last_task` is null. -/
def emptyTaskList (addrs : List Nat) : TaskList :=
  { head := 0, last_task := none, tasks := addrs.map fun a => { addr := a, next := 0 } }

/-- Append the descriptors `0, 1, ..., n-1` of the store in this order. -/
def addTasks (hpg : TaskList) (n : Nat) : TaskList :=
  (List.range n).foldl pru_task_add hpg

/-- One hop of the coprocessor: the `next` field of the descriptor whose address is `a`. -/
def nextOf (ts : List pru_task_t) (a : Nat) : Option Nat :=
  (ts.find? fun t => t.addr == a).map fun t => t.next

/-- Follow `next` for `k` hops starting at address `a`. -/
def hops (ts : List pru_task_t) : Nat → Nat → Option Nat
  | 0, a => some a
  | k + 1, a => (hops ts k a).bind (nextOf ts)

/-! ## Shared memory allocator (hal_pru_generic.c, `pru_malloc`, `pru_init`) -/

/-- `PRU_DATA_START` of pru_tasks.h. -/
def PRU_DATA_START : Nat := 0

/-- `sizeof(PRU_statics_t)`: the 8-byte task header followed by the 32-bit period. -/
def sizeof_PRU_statics_t : Nat := 12

/-- The fields of `hal_pru_generic_t` used by the allocator. -/
structure Allocator where
  pru_stat_addr : Nat
  pru_data_free : Nat
deriving DecidableEq, Repr

/-- The memory reservation of `pru_init` (the statics block at the start of data memory). -/
def pru_init (hpg : Allocator) : Allocator :=
  let pru_stat_addr := PRU_DATA_START
  { hpg with pru_stat_addr := pru_stat_addr,
             pru_data_free := (pru_stat_addr + sizeof_PRU_statics_t) % 4294967296 }

/-- The rounded length `len32` of `pru_malloc` for `0 <= len`: `len & ~0x03`, plus 4 when
`len % 4 != 0`. -/
def len32 (len : Nat) : Nat :=
  let l := len &&& 0xFFFFFFFC
  if len % 4 ≠ 0 then l + 4 else l

/-- `pru_malloc(hpg, len)` for `0 <= len`: the returned address and the new state. -/
def pru_malloc (hpg : Allocator) (len : Nat) : Nat × Allocator :=
  let a := hpg.pru_data_free
  (a, { hpg with pru_data_free := (hpg.pru_data_free + len32 len) % 4294967296 })

/-- Serve a sequence of requests in order; the returned addresses, in order, and the final
state. -/
def mallocs (hpg : Allocator) : List Nat → List Nat × Allocator
  | [] => ([], hpg)
  | len :: rest =>
    let r := pru_malloc hpg len
    let rs := mallocs r.2 rest
    (r.1 :: rs.1, rs.2)



/-! ## Floating point conversions

`double` values are exact rationals. A conversion from `double` to an integer type
truncates toward zero; for a value outside the target range (undefined in C) the model
follows the ARM host of the driver, whose conversion instruction saturates. -/

/-- Truncation toward zero. -/
def truncQ (x : Rat) : Int := if 0 ≤ x then ⌊x⌋ else ⌈x⌉

/-- `ceil` of math.h. -/
def ceilQ (x : Rat) : Rat := ((⌈x⌉ : Int) : Rat)

/-- Conversion `double -> rtapi_s32`. -/
def double_to_s32 (x : Rat) : Int :=
  let t := truncQ x
  if t < -2147483648 then -2147483648 else if 2147483647 < t then 2147483647 else t

/-- Conversion `double -> rtapi_u32`. -/
def double_to_u32 (x : Rat) : Nat :=
  let t := truncQ x
  if t < 0 then 0 else if 4294967295 < t then 4294967295 else t.toNat

/-- Conversion `double -> rtapi_u16`: through a 32-bit integer, of which the low 16 bits
are kept. -/
def double_to_u16 (x : Rat) : Nat := ((double_to_s32 x) % 65536).toNat

/-- `f_period_s`: `(double)(l_period_ns * 1e-9)`. -/
def f_period_s (l_period_ns : Int) : Rat := (l_period_ns : Rat) * (1 / 1000000000)

/-! ## Task structures shared with the coprocessor (pru_tasks.h) -/

/-- `eMODE_STEP_DIR` of `pru_task_mode_t`. -/
def eMODE_STEP_DIR : Nat := 4

/-- `eMODE_STEP_PHASE` of `pru_task_mode_t`. -/
def eMODE_STEP_PHASE : Nat := 9

/-- `PRU_task_stepgen_t`. The task header is kept as its four bytes and the next address;
each union is kept as its 16- or 32-bit member (`stepspace` for `stepspace | pin.c, pin.d`,
`dirsetup` for `dirsetup | reserved0`, `lut` for `lut | step.resvd2, step.resvd3, step.inv`)
and the byte members are read and written through the little-endian accessors below. -/
structure PRU_task_stepgen_t where
  mode : Nat
  len : Nat
  dataX : Nat
  dataY : Nat
  addr : Nat
  rate : Int
  steplen : Nat
  dirhold : Nat
  stepspace : Nat
  dirsetup : Nat
  accum : Nat
  pos : Nat
  reserved1 : Nat
  lut : Nat
deriving DecidableEq, Repr

/-- `task.raw.dword[0]`: the bytes mode, len, dataX, dataY read as one 32-bit word. -/
def task_dword0 (p : PRU_task_stepgen_t) : Nat :=
  p.mode % 256 + (p.len % 256) * 256 + (p.dataX % 256) * 65536 + (p.dataY % 256) * 16777216

/-- Store to `task.raw.dword[0]`. -/
def set_task_dword0 (p : PRU_task_stepgen_t) (v : Nat) : PRU_task_stepgen_t :=
  { p with mode := v % 256, len := v / 256 % 256, dataX := v / 65536 % 256,
           dataY := v / 16777216 % 256 }

/-- Read `pin.c`, the low byte of the `stepspace` union. -/
def pin_c (p : PRU_task_stepgen_t) : Nat := p.stepspace % 256

/-- Read `pin.d`, the high byte of the `stepspace` union. -/
def pin_d (p : PRU_task_stepgen_t) : Nat := p.stepspace / 256 % 256

/-- Store to `pin.c`. -/
def set_pin_c (p : PRU_task_stepgen_t) (v : Nat) : PRU_task_stepgen_t :=
  { p with stepspace := v % 256 + (p.stepspace / 256 % 256) * 256 }

/-- Store to `pin.d`. -/
def set_pin_d (p : PRU_task_stepgen_t) (v : Nat) : PRU_task_stepgen_t :=
  { p with stepspace := p.stepspace % 256 + (v % 256) * 256 }

/-- Read `step.inv`, the top byte of the `lut` union. -/
def step_inv (p : PRU_task_stepgen_t) : Nat := p.lut / 16777216 % 256

/-- Store to `step.inv`. -/
def set_step_inv (p : PRU_task_stepgen_t) (v : Nat) : PRU_task_stepgen_t :=
  { p with lut := p.lut % 16777216 + (v % 256) * 16777216 }

/-- Store to `step.resvd2`, the low 16 bits of the `lut` union. -/
def set_step_resvd2 (p : PRU_task_stepgen_t) (v : Nat) : PRU_task_stepgen_t :=
  { p with lut := v % 65536 + (p.lut % 4294967296 / 65536) * 65536 }

/-- Store to `step.resvd3`, bits 16..23 of the `lut` union. -/
def set_step_resvd3 (p : PRU_task_stepgen_t) (v : Nat) : PRU_task_stepgen_t :=
  { p with lut := p.lut % 65536 + (v % 256) * 65536 + (p.lut / 16777216 % 256) * 16777216 }

/-- The places of a step generator descriptor in shared memory that the host stores to. -/
inductive pru_field where
  | dword0
  | rate
  | steplen
  | dirhold
  | stepspace
  | dirsetup
  | pin_c
  | pin_d
  | lut
  | step_inv
deriving DecidableEq, Repr

/-- One store through the `pru` pointer into shared memory: a single member (the value as
an unsigned word) or the whole descriptor (`*pru = instance->pru`). -/
inductive pru_write where
  | field (f : pru_field) (v : Nat)
  | whole (p : PRU_task_stepgen_t)
deriving DecidableEq, Repr

/-- The descriptor after the store of one member. -/
def set_field (f : pru_field) (v : Nat) (p : PRU_task_stepgen_t) : PRU_task_stepgen_t :=
  match f with
  | .dword0 => set_task_dword0 p v
  | .rate => { p with rate := toS32 v }
  | .steplen => { p with steplen := v % 65536 }
  | .dirhold => { p with dirhold := v % 65536 }
  | .stepspace => { p with stepspace := v % 65536 }
  | .dirsetup => { p with dirsetup := v % 65536 }
  | .pin_c => set_pin_c p v
  | .pin_d => set_pin_d p v
  | .lut => { p with lut := v % 4294967296 }
  | .step_inv => set_step_inv p v

/-- The shared-memory descriptor after one store. -/
def apply_write (p : PRU_task_stepgen_t) (w : pru_write) : PRU_task_stepgen_t :=
  match w with
  | .field f v => set_field f v p
  | .whole q => q

/-- The values stored to member `f` by single-member stores, in order. -/
def writes_to (f : pru_field) (log : List pru_write) : List Nat :=
  log.filterMap fun w =>
    match w with
    | .field g v => if g = f then some v else none
    | .whole _ => none

/-! ## Step generator instance (hal_pru_generic.h) -/

/-- The HAL pins of a step generator (`hal.pin`); a pin is the value it points to. -/
structure stepgen_pin_t where
  position_cmd : Rat
  velocity_cmd : Rat
  counts : Int
  position_fb : Rat
  velocity_fb : Rat
  enable : Nat
  control_type : Nat
  dbg_ff_vel : Rat
  dbg_vel_error : Rat
  dbg_s_to_match : Rat
  dbg_err_at_match : Rat
  dbg_step_rate : Int
  dbg_pos_minus_prev_cmd : Rat
  test1 : Int
  test2 : Int
  test3 : Int
deriving DecidableEq, Repr

/-- The HAL parameters of a step generator (`hal.param`). The anonymous union of the
`dir` and `phase` structs is kept as its five 32-bit slots, named after both members
that share the slot; `stepinv` is the low byte of the last slot. -/
structure stepgen_param_t where
  position_scale : Rat
  maxvel : Rat
  maxaccel : Rat
  steplen : Nat
  dirhold : Nat
  stepspace_pin_a : Nat
  dirsetup_pin_b : Nat
  steppin_pin_c : Nat
  dirpin_pin_d : Nat
  stepinv_type : Nat
deriving DecidableEq, Repr

/-- Read `hal.param.dir.stepspace`. -/
def dir_stepspace (p : stepgen_param_t) : Nat := p.stepspace_pin_a

/-- Read `hal.param.dir.dirsetup`. -/
def dir_dirsetup (p : stepgen_param_t) : Nat := p.dirsetup_pin_b

/-- Read `hal.param.dir.steppin`. -/
def dir_steppin (p : stepgen_param_t) : Nat := p.steppin_pin_c

/-- Read `hal.param.dir.dirpin`. -/
def dir_dirpin (p : stepgen_param_t) : Nat := p.dirpin_pin_d

/-- Read `hal.param.dir.stepinv` (a `hal_bit_t`, one byte). -/
def dir_stepinv (p : stepgen_param_t) : Nat := p.stepinv_type % 256

/-- Read `hal.param.phase.pin_a`. -/
def phase_pin_a (p : stepgen_param_t) : Nat := p.stepspace_pin_a

/-- Read `hal.param.phase.pin_b`. -/
def phase_pin_b (p : stepgen_param_t) : Nat := p.dirsetup_pin_b

/-- Read `hal.param.phase.pin_c`. -/
def phase_pin_c (p : stepgen_param_t) : Nat := p.steppin_pin_c

/-- Read `hal.param.phase.pin_d`. -/
def phase_pin_d (p : stepgen_param_t) : Nat := p.dirpin_pin_d

/-- Read `hal.param.phase.type`. -/
def phase_type (p : stepgen_param_t) : Nat := p.stepinv_type

/-- The function `stepgen_updateclass` points to. -/
inductive updateclass_t where
  | stepdir
  | stepphase
deriving DecidableEq, Repr

/-- `hpg_stepgen_instance_t`. -/
structure hpg_stepgen_instance_t where
  pru : PRU_task_stepgen_t
  task : pru_task_t
  pin : stepgen_pin_t
  param : stepgen_param_t
  stepgen_updateclass : updateclass_t
  old_position_cmd : Rat
  prev_accumulator : Nat
  subcounts : Nat
  written_steplen : Nat
  written_stepspace : Nat
  written_dirsetup : Nat
  written_dirhold : Nat
  written_task : Nat
  written_phase : Nat
deriving DecidableEq, Repr

/-- The part of `hal_pru_generic_t` the step generator functions use: `config.pru_period`
and the array `stepgen.instance` (`stepgen.num_instances` is its length). -/
structure hal_pru_generic_t where
  pru_period : Int
  stepgen : List hpg_stepgen_instance_t
deriving DecidableEq, Repr

/-- `ns2periods(hpg, ns)`. -/
def ns2periods (pru_period : Int) (ns : Nat) : Nat :=
  double_to_u16 (ceilQ ((ns : Rat) / (pru_period : Rat)))

/-! ## Reading the accumulator (stepgen.c, `hpg_stepgen_read`) -/

/-- The 16.16 value `acc` built from the accumulator and the step counter. -/
def acc_of (accum pos : Nat) : Nat :=
  ((accum >>> 11) &&& 0x0000FFFF) ||| ((pos <<< 16) % 4294967296)

/-- The corrected `acc_delta` for the new reading `acc` and the previous one. -/
def acc_delta (acc prev_accumulator : Nat) : Int :=
  let d : Int := (acc : Int) - (prev_accumulator : Int)
  if d > INT32_MAX then d - UINT32_MAX
  else if d < INT32_MIN then d + UINT32_MAX
  else d

/-- The `double` constant `1e-6` of `hpg_stepgen_read`: the double nearest to `10^-6`, which is
`4722366482869645 / 2^72` and lies just below `10^-6`. -/
def double_1e_6 : Rat := 4722366482869645 / 4722366482869645213696

/-- The sanitised `position_scale` of `hpg_stepgen_read`. -/
def sanitize_position_scale (position_scale : Rat) : Rat :=
  if |position_scale| < double_1e_6 then
    if position_scale ≥ 0 then 1 else -1
  else position_scale

/-- The body of the loop of `hpg_stepgen_read` for one instance, after the retry loop has
obtained the 64-bit value `x` (accumulator in the low, step counter in the high 32 bits). -/
def hpg_stepgen_read_instance (x : Int) (s : hpg_stepgen_instance_t) :
    hpg_stepgen_instance_t :=
  -- Update internal state
  let accum := toU32 x
  let pos := toU32 (x / 4294967296)
  let acc := acc_of accum pos
  -- those tricky users are always trying to get us to divide by zero
  let position_scale := sanitize_position_scale s.param.position_scale
  let subcounts := toU64 ((s.subcounts : Int) + acc_delta acc s.prev_accumulator)
  { s with
    pru := { s.pru with accum := accum, pos := pos },
    param := { s.param with position_scale := position_scale },
    subcounts := subcounts,
    pin := { s.pin with
      test1 := toS32 accum,
      test2 := toS32 pos,
      test3 := toS32 acc,
      counts := toS32 ((subcounts / 65536 : Nat) : Int),
      position_fb := ((subcounts : Rat) / 65536) / position_scale },
    prev_accumulator := acc }

/-- `hpg_stepgen_read`: `reads i` is the 64-bit value the retry loop ends with for
instance `i`. -/
def hpg_stepgen_read (hpg : hal_pru_generic_t) (reads : Nat → Int) : hal_pru_generic_t :=
  let instances := List.zipWith (fun i s => hpg_stepgen_read_instance (reads i) s)
    (List.range hpg.stepgen.length) hpg.stepgen
  { hpg with stepgen := instances }

/-! ## Position and velocity control (stepgen.c) -/

/-- The matching acceleration chosen by `hpg_stepgen_instance_position_control`. -/
def match_accel_of (velocity_error maxaccel T : Rat) : Rat :=
  if velocity_error > 0 then
    if maxaccel = 0 then -velocity_error / T else -maxaccel
  else if velocity_error < 0 then
    if maxaccel = 0 then velocity_error / T else maxaccel
  else 0

/-- `hpg_stepgen_instance_position_control`: the new instance state (debug pins and
`old_position_cmd`) and the value stored through `new_vel`. -/
def hpg_stepgen_instance_position_control (l_period_ns : Int) (s : hpg_stepgen_instance_t) :
    hpg_stepgen_instance_t × Rat :=
  let T := f_period_s l_period_ns
  let dbg_pos_minus_prev_cmd := s.pin.position_fb - s.old_position_cmd
  -- calculate feed-forward velocity in machine units per second
  let ff_vel := (s.pin.position_cmd - s.old_position_cmd) / T
  let velocity_error := s.pin.velocity_fb - ff_vel
  let match_accel := match_accel_of velocity_error s.param.maxaccel T
  let seconds_to_vel_match := if match_accel = 0 then 0 else -velocity_error / match_accel
  -- compute expected position at the time of velocity match
  let avg_v := (ff_vel + s.pin.velocity_fb) * (1 / 2)
  let position_at_match := s.pin.position_fb + avg_v * (seconds_to_vel_match + T)
  let position_cmd_at_match := s.pin.position_cmd + ff_vel * seconds_to_vel_match
  let error_at_match := position_at_match - position_cmd_at_match
  let velocity_cmd :=
    if seconds_to_vel_match < T then
      -- we can match velocity in one period
      let v := ff_vel - (1 / 2 * error_at_match / T)
      if s.param.maxaccel > 0 then
        if v > s.pin.velocity_fb + s.param.maxaccel * T then
          s.pin.velocity_fb + s.param.maxaccel * T
        else if v < s.pin.velocity_fb - s.param.maxaccel * T then
          s.pin.velocity_fb - s.param.maxaccel * T
        else v
      else v
    else
      -- we are going to have to work for more than one period to match velocity
      let dv := -2 * match_accel * T
      let dp := dv * seconds_to_vel_match
      let match_accel2 :=
        if |error_at_match + dp * 2| < |error_at_match| then -match_accel else match_accel
      s.pin.velocity_fb + match_accel2 * T
  let pin := { s.pin with
    dbg_pos_minus_prev_cmd := dbg_pos_minus_prev_cmd,
    dbg_ff_vel := ff_vel,
    dbg_vel_error := velocity_error,
    dbg_s_to_match := seconds_to_vel_match,
    dbg_err_at_match := error_at_match }
  ({ s with pin := pin, old_position_cmd := s.pin.position_cmd }, velocity_cmd)

/-- `min_ns_per_step` of `update_stepgen`: an `int` product converted to `double`. For a mode
other than step/dir and step/phase the C variable is left uninitialised; the model reads 0
(`hpg_stepgen_init` assigns no other mode). -/
def min_ns_per_step (pru_period : Int) (s : hpg_stepgen_instance_t) : Rat :=
  if s.pru.mode = eMODE_STEP_DIR then
    ((toS32 (((s.pru.steplen + s.pru.stepspace : Nat) : Int) * pru_period) : Int) : Rat)
  else if s.pru.mode = eMODE_STEP_PHASE then
    ((toS32 ((s.pru.steplen : Int) * pru_period) : Int) : Rat)
  else 0

/-- A `double` that may be infinite. The doubles of the model are exact rationals; a division
by zero gives an infinity, which `update_stepgen` produces for `physical_maxvel` when
`min_ns_per_step` or `position_scale` is 0. -/
inductive xdouble where
  | neg_inf
  | fin (x : Rat)
  | pos_inf
deriving DecidableEq, Repr

/-- The value of a `double` as stored in a member of the instance. The members hold exact
rationals, which have no infinity: an infinity reads as 0 here. `update_stepgen` stores an
infinity only when `physical_maxvel` is minus infinity, that is for a wrapped, negative
`min_ns_per_step` together with `position_scale == 0`; in the C code the `maxvel` parameter
and `velocity_fb` are then minus infinity and the rate is converted from a NaN. -/
def xdouble.val : xdouble → Rat
  | .fin x => x
  | _ => 0

/-- `max_steps_per_s = 1.0e9 / min_ns_per_step` of `update_stepgen`: plus infinity when
`min_ns_per_step` is 0. -/
def max_steps_per_s (pru_period : Int) (s : hpg_stepgen_instance_t) : xdouble :=
  if min_ns_per_step pru_period s = 0 then .pos_inf
  else .fin (1000000000 / min_ns_per_step pru_period s)

/-- `physical_maxvel = max_steps_per_s / fabs(position_scale)` of `update_stepgen`
(`force_precision` leaves a `double` as it is). Dividing a finite `max_steps_per_s`, which is
never 0, by a zero `position_scale` gives the infinity of its sign. -/
def physical_maxvel (pru_period : Int) (s : hpg_stepgen_instance_t) : xdouble :=
  match max_steps_per_s pru_period s with
  | .fin x =>
    if |s.param.position_scale| = 0 then (if x < 0 then .neg_inf else .pos_inf)
    else .fin (x / |s.param.position_scale|)
  | v => v

/-- The `maxvel` parameter after the sanity checks of `update_stepgen`: folded to its absolute
value, then replaced by `physical_maxvel` when it is above it (never for plus infinity). -/
def sanitize_maxvel (maxvel : Rat) (physical_maxvel : xdouble) : Rat :=
  let m := if maxvel < 0 then |maxvel| else maxvel
  match physical_maxvel with
  | .pos_inf => m
  | .fin p => if m > p then p else m
  | .neg_inf => xdouble.val .neg_inf

/-- The `maxaccel` parameter after the sanity check of `update_stepgen`. -/
def sanitize_maxaccel (maxaccel : Rat) : Rat :=
  if maxaccel < 0 then |maxaccel| else maxaccel

/-- Velocity-mode selection of `update_stepgen`. -/
def velocity_control (l_period_ns : Int) (s : hpg_stepgen_instance_t) : Rat :=
  let T := f_period_s l_period_ns
  let new_vel := s.pin.velocity_cmd
  if s.param.maxaccel > 0 then
    if (new_vel - s.pin.velocity_fb) / T > s.param.maxaccel then
      s.pin.velocity_fb + s.param.maxaccel * T
    else if (new_vel - s.pin.velocity_fb) / T < -s.param.maxaccel then
      s.pin.velocity_fb - s.param.maxaccel * T
    else new_vel
  else new_vel

/-- Clip velocity to maxvel: `if (new_vel > maxvel) new_vel = maxvel; else if
(new_vel < -maxvel) new_vel = -maxvel;`. Neither comparison holds for `maxvel` plus
infinity; the first holds for minus infinity. -/
def clip_velocity (new_vel : Rat) (maxvel : xdouble) : Rat :=
  match maxvel with
  | .pos_inf => new_vel
  | .fin m =>
    if new_vel > m then m
    else if new_vel < -m then -m
    else new_vel
  | .neg_inf => xdouble.val .neg_inf

/-- The `rtapi_s32` rate computed from the commanded steps per second. -/
def rate_of_steps_per_sec (pru_period : Int) (steps_per_sec_cmd : Rat) : Int :=
  double_to_s32 (steps_per_sec_cmd * 134217728 * (pru_period : Rat) * (1 / 1000000000))

/-- The rate clamp at the end of `update_stepgen`. The constants `0x80000000` and
`0xFC000001` are unsigned, so the `rtapi_s32` rate is compared with them as a 32-bit
unsigned word; `0x03FFFFFF` is an `int` and compared signed. -/
def clip_rate (rate : Int) : Int :=
  if toU32 rate < 0x80000000 ∧ rate > 0x03FFFFFF then 0x03FFFFFF
  else if toU32 rate ≥ 0x80000000 ∧ toU32 rate < 0xFC000001 then toS32 0xFC000001
  else rate

/-- `update_stepgen` for one instance. -/
def update_stepgen (pru_period : Int) (l_period_ns : Int) (s : hpg_stepgen_instance_t) :
    hpg_stepgen_instance_t :=
  -- first sanity-check our maxaccel and maxvel params
  let phys := physical_maxvel pru_period s
  let maxvel_param := sanitize_maxvel s.param.maxvel phys
  let maxvel := if maxvel_param = 0 then phys else xdouble.fin maxvel_param
  let maxaccel_param := sanitize_maxaccel s.param.maxaccel
  let s1 := { s with param := { s.param with maxvel := maxvel_param, maxaccel := maxaccel_param } }
  -- select the new velocity we want
  let r := if s1.pin.control_type = 0 then hpg_stepgen_instance_position_control l_period_ns s1
    else (s1, velocity_control l_period_ns s1)
  let s2 := r.1
  -- clip velocity to maxvel
  let new_vel := clip_velocity r.2 maxvel
  let steps_per_sec_cmd := new_vel * s2.param.position_scale
  -- clip rate just to be safe...should be limited by code above
  let rate := clip_rate (rate_of_steps_per_sec pru_period steps_per_sec_cmd)
  { s2 with
    pin := { s2.pin with velocity_fb := new_vel, dbg_step_rate := rate },
    pru := { s2.pru with rate := rate } }

/-! ## Step pattern table (stepgen.c, `create_lut`) -/

/-- `MAX_CYCLE`. -/
def MAX_CYCLE : Nat := 8

/-- The table `master_lut`; row `t` belongs to step type `t + 5`. -/
def master_lut : List (List Nat) :=
  [[1, 2, 4, 8, 1, 2, 4, 8],
   [3, 6, 12, 9, 3, 6, 12, 9],
   [1, 7, 14, 8, 1, 7, 14, 8],
   [5, 6, 10, 9, 5, 6, 10, 9],
   [1, 3, 2, 6, 4, 12, 8, 9],
   [1, 5, 7, 6, 14, 10, 8, 9],
   [5, 1, 9, 8, 10, 2, 6, 4]]

/-- The table row index `type` that `create_lut` uses, after its range check
(`type` is unsigned: `phase.type - 5` wraps, and `type < 0` never holds). -/
def create_lut_row (s : hpg_stepgen_instance_t) : Nat :=
  let type := (phase_type s.param % 4294967296 + 4294967296 - 5) % 4294967296
  if type > master_lut.length then 1 else type

/-- Read `master_lut[type][j]`. A read past the end of the table (undefined in C) gives 0
in the model. -/
def master_lut_at (type j : Nat) : Nat := (master_lut.getD type []).getD j 0

/-- `create_lut(instance)`, the effect on the instance: the step type parameter is reset to
6 when it was out of range. -/
def create_lut_instance (s : hpg_stepgen_instance_t) : hpg_stepgen_instance_t :=
  let type := (phase_type s.param % 4294967296 + 4294967296 - 5) % 4294967296
  if type > master_lut.length then
    { s with param := { s.param with stepinv_type := 1 + 5 } }
  else s

/-- `create_lut(instance)`, the returned word: the eight patterns of the row, pattern 7 in
the top nibble and pattern 0 in the lowest. -/
def create_lut (s : hpg_stepgen_instance_t) : Nat :=
  (List.range MAX_CYCLE).reverse.foldl
    (fun ret j => ((ret <<< 4) % 4294967296) ||| master_lut_at (create_lut_row s) j) 0

/-! ## Change-tracked update (stepgen.c, `hpg_stepgen_update`)

Every function returns the new instance together with the stores it makes through the
`pru` pointer into the shared-memory descriptor of the instance, in program order. -/

/-- `hpg_stepdir_update`, shadow of the pin bytes:
`if (pru.task.hdr.dataX != dir.steppin) pru.task.hdr.dataX = dir.steppin;` and the same
for `dataY` and `dir.dirpin`. -/
def stepdir_update_pins (s : hpg_stepgen_instance_t) : hpg_stepgen_instance_t :=
  let s1 := if s.pru.dataX ≠ dir_steppin s.param then
      { s with pru := { s.pru with dataX := dir_steppin s.param % 256 } }
    else s
  if s1.pru.dataY ≠ dir_dirpin s1.param then
    { s1 with pru := { s1.pru with dataY := dir_dirpin s1.param % 256 } }
  else s1

/-- `hpg_stepdir_update`, `if (dir.dirsetup != written_dirsetup) { ... }`. -/
def stepdir_update_dirsetup (pru_period : Int) (s : hpg_stepgen_instance_t) :
    hpg_stepgen_instance_t × List pru_write :=
  if dir_dirsetup s.param ≠ s.written_dirsetup then
    let v := ns2periods pru_period (dir_dirsetup s.param)
    ({ s with pru := { s.pru with dirsetup := v }, written_dirsetup := dir_dirsetup s.param },
      [pru_write.field pru_field.dirsetup v])
  else (s, [])

/-- `hpg_stepdir_update`, `if (dir.stepspace != written_stepspace) { ... }`. -/
def stepdir_update_stepspace (pru_period : Int) (s : hpg_stepgen_instance_t) :
    hpg_stepgen_instance_t × List pru_write :=
  if dir_stepspace s.param ≠ s.written_stepspace then
    let v := ns2periods pru_period (dir_stepspace s.param)
    ({ s with pru := { s.pru with stepspace := v }, written_stepspace := dir_stepspace s.param },
      [pru_write.field pru_field.stepspace v])
  else (s, [])

/-- `hpg_stepdir_update`, `if (pru.step.inv != dir.stepinv) { ... }`. -/
def stepdir_update_stepinv (s : hpg_stepgen_instance_t) :
    hpg_stepgen_instance_t × List pru_write :=
  if step_inv s.pru ≠ dir_stepinv s.param then
    let p := set_step_inv s.pru (dir_stepinv s.param)
    ({ s with pru := p }, [pru_write.field pru_field.step_inv (step_inv p)])
  else (s, [])

/-- `hpg_stepdir_update`. -/
def hpg_stepdir_update (pru_period : Int) (s : hpg_stepgen_instance_t) :
    hpg_stepgen_instance_t × List pru_write :=
  let r1 := stepdir_update_dirsetup pru_period (stepdir_update_pins s)
  let r2 := stepdir_update_stepspace pru_period r1.1
  let r3 := stepdir_update_stepinv r2.1
  (r3.1, r1.2 ++ r2.2 ++ r3.2)

/-- `hpg_stepphase_update`, shadow of the pin bytes:
`if (pru.task.hdr.dataX != phase.pin_a) pru.task.hdr.dataX = phase.pin_a;` and the same
for `dataY` and `phase.pin_b`. -/
def stepphase_update_pins (s : hpg_stepgen_instance_t) : hpg_stepgen_instance_t :=
  let s1 := if s.pru.dataX ≠ phase_pin_a s.param then
      { s with pru := { s.pru with dataX := phase_pin_a s.param % 256 } }
    else s
  if s1.pru.dataY ≠ phase_pin_b s1.param then
    { s1 with pru := { s1.pru with dataY := phase_pin_b s1.param % 256 } }
  else s1

/-- `hpg_stepphase_update`, `if (phase.pin_c != pru.pin.c) { ... }`. -/
def stepphase_update_pin_c (s : hpg_stepgen_instance_t) :
    hpg_stepgen_instance_t × List pru_write :=
  if phase_pin_c s.param ≠ pin_c s.pru then
    let p := set_pin_c s.pru (phase_pin_c s.param)
    ({ s with pru := p }, [pru_write.field pru_field.pin_c (pin_c p)])
  else (s, [])

/-- `hpg_stepphase_update`, `if (phase.pin_d != pru.pin.d) { ... }`. -/
def stepphase_update_pin_d (s : hpg_stepgen_instance_t) :
    hpg_stepgen_instance_t × List pru_write :=
  if phase_pin_d s.param ≠ pin_d s.pru then
    let p := set_pin_d s.pru (phase_pin_d s.param)
    ({ s with pru := p }, [pru_write.field pru_field.pin_d (pin_d p)])
  else (s, [])

/-- `hpg_stepphase_update`, `if (phase.type != written_phase) { ... }`. -/
def stepphase_update_lut (s : hpg_stepgen_instance_t) :
    hpg_stepgen_instance_t × List pru_write :=
  if phase_type s.param ≠ s.written_phase then
    let lut := create_lut s
    let s1 := create_lut_instance s
    ({ s1 with pru := { s1.pru with lut := lut }, written_phase := phase_type s1.param },
      [pru_write.field pru_field.lut lut])
  else (s, [])

/-- `hpg_stepphase_update`. -/
def hpg_stepphase_update (s : hpg_stepgen_instance_t) :
    hpg_stepgen_instance_t × List pru_write :=
  let r1 := stepphase_update_pin_c (stepphase_update_pins s)
  let r2 := stepphase_update_pin_d r1.1
  let r3 := stepphase_update_lut r2.1
  (r3.1, r1.2 ++ r2.2 ++ r3.2)

/-- The call through the function pointer `stepgen_updateclass`. -/
def stepgen_updateclass (pru_period : Int) (s : hpg_stepgen_instance_t) :
    hpg_stepgen_instance_t × List pru_write :=
  match s.stepgen_updateclass with
  | .stepdir => hpg_stepdir_update pru_period s
  | .stepphase => hpg_stepphase_update s

/-- `hpg_stepgen_update`, the branch on `enable`: a disabled channel gets rate 0,
`old_position_cmd = position_cmd` and `velocity_fb = 0`; an enabled one runs
`update_stepgen`. -/
def update_enable (pru_period : Int) (l_period_ns : Int) (s : hpg_stepgen_instance_t) :
    hpg_stepgen_instance_t :=
  if s.pin.enable = 0 then
    { s with pru := { s.pru with rate := 0 },
             old_position_cmd := s.pin.position_cmd,
             pin := { s.pin with velocity_fb := 0 } }
  else
    -- call update function
    update_stepgen pru_period l_period_ns s

/-- `hpg_stepgen_update`, `if (param.dirhold != written_dirhold) { ... }`. -/
def update_dirhold (pru_period : Int) (s : hpg_stepgen_instance_t) :
    hpg_stepgen_instance_t × List pru_write :=
  if s.param.dirhold ≠ s.written_dirhold then
    let v := ns2periods pru_period s.param.dirhold
    ({ s with pru := { s.pru with dirhold := v }, written_dirhold := s.param.dirhold },
      [pru_write.field pru_field.dirhold v])
  else (s, [])

/-- `hpg_stepgen_update`, `if (param.steplen != written_steplen) { ... }`. -/
def update_steplen (pru_period : Int) (s : hpg_stepgen_instance_t) :
    hpg_stepgen_instance_t × List pru_write :=
  if s.param.steplen ≠ s.written_steplen then
    let v := ns2periods pru_period s.param.steplen
    ({ s with pru := { s.pru with steplen := v }, written_steplen := s.param.steplen },
      [pru_write.field pru_field.steplen v])
  else (s, [])

/-- `hpg_stepgen_update`, `if (pru.task.raw.dword[0] != written_task) { ... }`. -/
def update_task (s : hpg_stepgen_instance_t) : hpg_stepgen_instance_t × List pru_write :=
  if task_dword0 s.pru ≠ s.written_task then
    ({ s with written_task := task_dword0 s.pru },
      [pru_write.field pru_field.dword0 (task_dword0 s.pru)])
  else (s, [])

/-- The body of the loop of `hpg_stepgen_update` for one instance. -/
def hpg_stepgen_update_instance (pru_period : Int) (l_period_ns : Int)
    (s : hpg_stepgen_instance_t) : hpg_stepgen_instance_t × List pru_write :=
  let s0 := update_enable pru_period l_period_ns s
  -- Update timing parameters if changed
  let r1 := update_dirhold pru_period s0
  let r2 := update_steplen pru_period r1.1
  -- update class specific values
  let r3 := stepgen_updateclass pru_period r2.1
  -- Update control word if changed
  let r4 := update_task r3.1
  -- Send rate update to the PRU
  (r4.1, r1.2 ++ r2.2 ++ r3.2 ++ r4.2 ++ [pru_write.field pru_field.rate (toU32 r4.1.pru.rate)])

/-- `hpg_stepgen_update`: the new state and, for every instance in order, the address of
its descriptor with the stores made into it. -/
def hpg_stepgen_update (hpg : hal_pru_generic_t) (l_period_ns : Int) :
    hal_pru_generic_t × List (Nat × List pru_write) :=
  let rs := hpg.stepgen.map fun s => hpg_stepgen_update_instance hpg.pru_period l_period_ns s
  ({ hpg with stepgen := rs.map fun r => r.1 },
    (hpg.stepgen.zip rs).map fun sr => (sr.1.task.addr, sr.2.2))

/-- `hpg_stepgen_force_write`, the members set for every mode: `len = 0`,
`addr = task.next`, `rate = 0`, `steplen` and `dirhold` from their parameters. -/
def force_write_common (pru_period : Int) (s : hpg_stepgen_instance_t) : PRU_task_stepgen_t :=
  { s.pru with
    len := 0,
    addr := s.task.next,
    rate := 0,
    steplen := ns2periods pru_period s.param.steplen,
    dirhold := ns2periods pru_period s.param.dirhold }

/-- `hpg_stepgen_force_write`, the branch `mode == eMODE_STEP_DIR`. -/
def force_write_stepdir (pru_period : Int) (s : hpg_stepgen_instance_t) :
    hpg_stepgen_instance_t :=
  let p1 := { force_write_common pru_period s with
    dataX := dir_steppin s.param % 256,
    dataY := dir_dirpin s.param % 256,
    stepspace := ns2periods pru_period (dir_stepspace s.param),
    dirsetup := ns2periods pru_period (dir_dirsetup s.param) }
  { s with pru := set_step_inv (set_step_resvd3 (set_step_resvd2 p1 0) 0) 0 }

/-- `hpg_stepgen_force_write`, the branch `mode == eMODE_STEP_PHASE`, up to the call of
`create_lut`. -/
def force_write_stepphase_pins (pru_period : Int) (s : hpg_stepgen_instance_t) :
    hpg_stepgen_instance_t :=
  let p1 := { force_write_common pru_period s with
    dataX := phase_pin_a s.param % 256,
    dataY := phase_pin_b s.param % 256 }
  let p2 := set_pin_d (set_pin_c p1 (phase_pin_c s.param)) (phase_pin_d s.param)
  { s with pru := { p2 with dirsetup := 0 } }

/-- `hpg_stepgen_force_write`, the branch `mode == eMODE_STEP_PHASE`. -/
def force_write_stepphase (pru_period : Int) (s : hpg_stepgen_instance_t) :
    hpg_stepgen_instance_t :=
  let s0 := force_write_stepphase_pins pru_period s
  let s1 := create_lut_instance s0
  { s1 with pru := { s1.pru with lut := create_lut s0 } }

/-- The host shadow after the assignments of `hpg_stepgen_force_write`, before the copy. -/
def force_write_shadow (pru_period : Int) (s : hpg_stepgen_instance_t) :
    hpg_stepgen_instance_t :=
  let r1 :=
    if s.pru.mode = eMODE_STEP_DIR then force_write_stepdir pru_period s
    else if s.pru.mode = eMODE_STEP_PHASE then force_write_stepphase pru_period s
    else { s with pru := force_write_common pru_period s }
  { r1 with pru := { r1.pru with accum := 0, pos := 0, reserved1 := 0 } }

/-- The body of the loop of `hpg_stepgen_force_write` for one instance: the new instance
and the store of the whole descriptor (`*pru = instance->pru`). -/
def hpg_stepgen_force_write_instance (pru_period : Int) (s : hpg_stepgen_instance_t) :
    hpg_stepgen_instance_t × List pru_write :=
  (force_write_shadow pru_period s, [pru_write.whole (force_write_shadow pru_period s).pru])

/-- `hpg_stepgen_force_write`. -/
def hpg_stepgen_force_write (hpg : hal_pru_generic_t) :
    hal_pru_generic_t × List (Nat × List pru_write) :=
  let rs := hpg.stepgen.map fun s => hpg_stepgen_force_write_instance hpg.pru_period s
  ({ hpg with stepgen := rs.map fun r => r.1 },
    (hpg.stepgen.zip rs).map fun sr => (sr.1.task.addr, sr.2.2))

/-! ## Channel creation (stepgen.c, `hpg_stepgen_init`, `export_stepgen`) -/

/-- `DEFAULT_DELAY`. -/
def DEFAULT_DELAY : Nat := 1000000

/-- `PRU_DEFAULT_PIN`. -/
def PRU_DEFAULT_PIN : Nat := 17

/-- A zeroed `PRU_task_stepgen_t`. -/
def zero_pru : PRU_task_stepgen_t :=
  { mode := 0, len := 0, dataX := 0, dataY := 0, addr := 0, rate := 0, steplen := 0,
    dirhold := 0, stepspace := 0, dirsetup := 0, accum := 0, pos := 0, reserved1 := 0,
    lut := 0 }

/-- Zeroed pin values. -/
def zero_pin : stepgen_pin_t :=
  { position_cmd := 0, velocity_cmd := 0, counts := 0, position_fb := 0, velocity_fb := 0,
    enable := 0, control_type := 0, dbg_ff_vel := 0, dbg_vel_error := 0, dbg_s_to_match := 0,
    dbg_err_at_match := 0, dbg_step_rate := 0, dbg_pos_minus_prev_cmd := 0, test1 := 0,
    test2 := 0, test3 := 0 }

/-- Zeroed parameters. -/
def zero_param : stepgen_param_t :=
  { position_scale := 0, maxvel := 0, maxaccel := 0, steplen := 0, dirhold := 0,
    stepspace_pin_a := 0, dirsetup_pin_b := 0, steppin_pin_c := 0, dirpin_pin_d := 0,
    stepinv_type := 0 }

/-- The instance as `hpg_stepgen_init` leaves it before `pru_task_add` and `export_stepgen`
for a supported step class: the memory is cleared, the descriptor address is the one
`pru_malloc` returned, the mode and the class functions are set. -/
def hpg_stepgen_init_instance (cls : updateclass_t) (addr : Nat) : hpg_stepgen_instance_t :=
  { pru := { zero_pru with
      mode := match cls with
        | .stepdir => eMODE_STEP_DIR
        | .stepphase => eMODE_STEP_PHASE },
    task := { addr := addr, next := 0 },
    pin := zero_pin,
    param := zero_param,
    stepgen_updateclass := cls,
    old_position_cmd := 0,
    prev_accumulator := 0,
    subcounts := 0,
    written_steplen := 0,
    written_stepspace := 0,
    written_dirsetup := 0,
    written_dirhold := 0,
    written_task := 0,
    written_phase := 0 }

/-- The default delay in coprocessor periods, stored to a `hal_u32_t` parameter. -/
def default_delay_periods (pru_period : Int) : Nat :=
  double_to_u32 (ceilQ ((DEFAULT_DELAY : Rat) / (pru_period : Rat)))

/-- The initialisation made by `export_stepdir` (all HAL parameters are created). -/
def export_stepdir (pru_period : Int) (s : hpg_stepgen_instance_t) : hpg_stepgen_instance_t :=
  { s with param := { s.param with
      stepspace_pin_a := default_delay_periods pru_period,
      dirsetup_pin_b := default_delay_periods pru_period,
      steppin_pin_c := PRU_DEFAULT_PIN,
      dirpin_pin_d := PRU_DEFAULT_PIN,
      stepinv_type := s.param.stepinv_type / 256 * 256 } }

/-- The initialisation made by `export_stepphase` (all HAL parameters are created). -/
def export_stepphase (s : hpg_stepgen_instance_t) : hpg_stepgen_instance_t :=
  { s with param := { s.param with
      stepspace_pin_a := PRU_DEFAULT_PIN,
      dirsetup_pin_b := PRU_DEFAULT_PIN,
      steppin_pin_c := PRU_DEFAULT_PIN,
      dirpin_pin_d := PRU_DEFAULT_PIN,
      stepinv_type := 6 } }

/-- The initialisation made by `export_stepgen` (all HAL pins and parameters are
created), ending with the class specific export function. -/
def export_stepgen (pru_period : Int) (s : hpg_stepgen_instance_t) : hpg_stepgen_instance_t :=
  let s1 := { s with
    pin := { s.pin with
      position_cmd := 0, counts := 0, position_fb := 0, velocity_fb := 0, enable := 0,
      control_type := 0 },
    param := { s.param with
      position_scale := 1, maxvel := 0, maxaccel := 1,
      steplen := default_delay_periods pru_period,
      dirhold := default_delay_periods pru_period },
    subcounts := 0,
    written_steplen := 0,
    written_stepspace := 0,
    written_dirsetup := 0,
    written_dirhold := 0,
    written_task := 0,
    pru := { s.pru with accum := 0 },
    prev_accumulator := 0,
    old_position_cmd := 0 }
  match s1.stepgen_updateclass with
  | .stepdir => export_stepdir pru_period s1
  | .stepphase => export_stepphase s1

/-- A freshly created channel: `hpg_stepgen_init` up to and including `export_stepgen`. -/
def new_channel (pru_period : Int) (cls : updateclass_t) (addr : Nat) :
    hpg_stepgen_instance_t :=
  export_stepgen pru_period (hpg_stepgen_init_instance cls addr)

/-! ## Change tracking state (for the statements about `hpg_stepgen_update`) -/

/-- The change-tracking state of an instance: for every tracked timing field the pending
parameter and the remembered last-written value (`written_*`), the remembered control word,
and the class of the instance. -/
structure tracking_t where
  steplen : Nat
  written_steplen : Nat
  dirhold : Nat
  written_dirhold : Nat
  stepspace : Nat
  written_stepspace : Nat
  dirsetup : Nat
  written_dirsetup : Nat
  written_task : Nat
  cls : updateclass_t
deriving DecidableEq, Repr

/-- The change-tracking state read off an instance. -/
def tracking (s : hpg_stepgen_instance_t) : tracking_t :=
  { steplen := s.param.steplen,
    written_steplen := s.written_steplen,
    dirhold := s.param.dirhold,
    written_dirhold := s.written_dirhold,
    stepspace := dir_stepspace s.param,
    written_stepspace := s.written_stepspace,
    dirsetup := dir_dirsetup s.param,
    written_dirsetup := s.written_dirsetup,
    written_task := s.written_task,
    cls := s.stepgen_updateclass }

/-! ## Parts of `update_stepgen` (for the statements about velocity limiting) -/

/-- The instance after the sanity checks of `update_stepgen` on the `maxvel` and `maxaccel`
parameters, before the new velocity is selected. -/
def update_stepgen_sanitize (pru_period : Int) (s : hpg_stepgen_instance_t) :
    hpg_stepgen_instance_t :=
  { s with param := { s.param with
      maxvel := sanitize_maxvel s.param.maxvel (physical_maxvel pru_period s),
      maxaccel := sanitize_maxaccel s.param.maxaccel } }

/-- The local `maxvel` of `update_stepgen`, the limit the new velocity is clipped to:
`physical_maxvel` when the sanitised parameter is 0, the sanitised parameter otherwise. -/
def update_stepgen_maxvel (pru_period : Int) (s : hpg_stepgen_instance_t) : xdouble :=
  if sanitize_maxvel s.param.maxvel (physical_maxvel pru_period s) = 0 then
    physical_maxvel pru_period s
  else xdouble.fin (sanitize_maxvel s.param.maxvel (physical_maxvel pru_period s))

/-! ## Views of an instance (for the frame statements about `hpg_stepgen_update`) -/

/-- The control-loop side of an instance: the HAL pins, the previous commanded position, the
rate of the host shadow and the scaling and limit parameters. -/
structure control_view_t where
  pin : stepgen_pin_t
  old_position_cmd : Rat
  rate : Int
  position_scale : Rat
  maxvel : Rat
  maxaccel : Rat
deriving DecidableEq, Repr

/-- The control-loop side read off an instance. -/
def control_view (s : hpg_stepgen_instance_t) : control_view_t :=
  { pin := s.pin,
    old_position_cmd := s.old_position_cmd,
    rate := s.pru.rate,
    position_scale := s.param.position_scale,
    maxvel := s.param.maxvel,
    maxaccel := s.param.maxaccel }

/-- The class specific change-tracking state of an instance: the host shadow of the
`stepspace | pin.c, pin.d` and `lut | step` unions, the parameters compared with them
(`dir.steppin | phase.pin_c`, `dir.dirpin | phase.pin_d`, `dir.stepinv | phase.type`) and
the remembered step type. -/
structure class_view_t where
  pru_stepspace : Nat
  pru_lut : Nat
  steppin_pin_c : Nat
  dirpin_pin_d : Nat
  stepinv_type : Nat
  written_phase : Nat
deriving DecidableEq, Repr

/-- The class specific change-tracking state read off an instance. -/
def class_view (s : hpg_stepgen_instance_t) : class_view_t :=
  { pru_stepspace := s.pru.stepspace,
    pru_lut := s.pru.lut,
    steppin_pin_c := s.param.steppin_pin_c,
    dirpin_pin_d := s.param.dirpin_pin_d,
    stepinv_type := s.param.stepinv_type,
    written_phase := s.written_phase }

/-! ## Shared memory -/

/-- The step generator descriptors in coprocessor data memory, by descriptor address. -/
def store_log (mem : Nat → PRU_task_stepgen_t) (addr : Nat) (log : List pru_write) :
    Nat → PRU_task_stepgen_t :=
  fun a => if a = addr then log.foldl apply_write (mem a) else mem a

/-- Shared memory after the stores of one pass over the instances. -/
def store_logs (mem : Nat → PRU_task_stepgen_t) (logs : List (Nat × List pru_write)) :
    Nat → PRU_task_stepgen_t :=
  logs.foldl (fun m al => store_log m al.1 al.2) mem

/-! ## A channel in steady state -/

/-- A disabled step/dir channel (coprocessor period 10000 ns) in which every pending value
equals its remembered last-written value: all delays are 1000000 ns = 100 periods, the step
pin is 17 and the direction pin 18, the control word is `mode | dataX << 16 | dataY << 24`,
and the rate is 0. -/
def idle_channel : hpg_stepgen_instance_t :=
  { pru := { zero_pru with mode := 4, dataX := 17, dataY := 18, addr := 12, steplen := 100, dirhold := 100, stepspace := 100, dirsetup := 100 },
    task := { addr := 12, next := 12 },
    pin := zero_pin,
    param := { zero_param with position_scale := 1, maxaccel := 1, steplen := 1000000, dirhold := 1000000, stepspace_pin_a := 1000000, dirsetup_pin_b := 1000000, steppin_pin_c := 17, dirpin_pin_d := 18 },
    stepgen_updateclass := updateclass_t.stepdir,
    old_position_cmd := 0,
    prev_accumulator := 0,
    subcounts := 0,
    written_steplen := 1000000,
    written_stepspace := 1000000,
    written_dirsetup := 1000000,
    written_dirhold := 1000000,
    written_task := 303104004,
    written_phase := 0 }

/-! ## A new channel, force-written, with `steplen` set to 0 before the first update -/

/-- A step/dir channel as `hpg_stepgen_init` creates it (coprocessor period 10000 ns,
descriptor at address 12), after `hpg_stepgen_force_write`. -/
def forced_channel : hpg_stepgen_instance_t :=
  (hpg_stepgen_force_write_instance 10000 (new_channel 10000 updateclass_t.stepdir 12)).1

/-- Shared memory (zeroed by `pru_init`) after that `hpg_stepgen_force_write`. -/
def forced_memory : Nat → PRU_task_stepgen_t :=
  store_log (fun _ => zero_pru) 12
    (hpg_stepgen_force_write_instance 10000 (new_channel 10000 updateclass_t.stepdir 12)).2

/-- The channel after the `steplen` parameter has been set to 0, before the first update. -/
def zero_steplen_channel : hpg_stepgen_instance_t :=
  { forced_channel with param := { forced_channel.param with steplen := 0 } }

/-! ## Set-up (hal_pru_generic.c: `rtapi_app_main`, `pru_init`, `hpg_wait_init`,
`hpg_wait_force_write`; stepgen.c: `hpg_stepgen_init`)

The functions of this section work on the whole `hal_pru_generic_t`. Calls into the HAL
library (`hal_malloc`, `hal_pin_*_new`, `hal_param_*_new`) are taken to succeed. -/

/-- `eCLASS_STEP_DIR` of `hpg_step_class_t`. -/
def eCLASS_STEP_DIR : Nat := 0

/-- `eCLASS_STEP_PHASE` of `hpg_step_class_t`. -/
def eCLASS_STEP_PHASE : Nat := 1

/-- `eCLASS_NONE` of `hpg_step_class_t`. -/
def eCLASS_NONE : Nat := 2

/-- `eMODE_WAIT` of `pru_task_mode_t`. -/
def eMODE_WAIT : Nat := 1

/-- `sizeof(PRU_task_stepgen_t)`: the 8-byte task header, `rate`, four 16-bit timing
members, `accum`, `pos`, `reserved1` and `lut`. -/
def sizeof_PRU_task_stepgen_t : Nat := 36

/-- `sizeof(PRU_task_wait_t)`: the 8-byte task header. -/
def sizeof_PRU_task_wait_t : Nat := 8

/-- `PRU_statics_t`: the task header (`task.hdr`) and the period. -/
structure PRU_statics_t where
  mode : Nat
  len : Nat
  dataX : Nat
  dataY : Nat
  addr : Nat
  period : Nat
deriving DecidableEq, Repr

/-- `PRU_task_wait_t`: the task header (`task.hdr`). -/
structure PRU_task_wait_t where
  mode : Nat
  len : Nat
  dataX : Nat
  dataY : Nat
  addr : Nat
deriving DecidableEq, Repr

/-- `hpg_wait_t`. -/
structure hpg_wait_t where
  pru : PRU_task_wait_t
  task : pru_task_t
deriving DecidableEq, Repr

/-- What the host has stored at an address of coprocessor data memory: the statics block or
a task descriptor. -/
inductive pru_object where
  | statics (p : PRU_statics_t)
  | stepgen (p : PRU_task_stepgen_t)
  | wait (p : PRU_task_wait_t)
deriving DecidableEq, Repr

/-- The `addr` member of the task header of an object: the address of the next task. -/
def object_addr (o : pru_object) : Nat :=
  match o with
  | .statics p => p.addr
  | .stepgen p => p.addr
  | .wait p => p.addr

/-- The `mode` member of the task header of an object. -/
def object_mode (o : pru_object) : Nat :=
  match o with
  | .statics p => p.mode
  | .stepgen p => p.mode
  | .wait p => p.mode

/-- `hal_pru_generic_t`: the configuration, the busy pin parameter, coprocessor data memory
(`pru_data`, by object address; `none` is memory still zero), the allocator, the statics
shadow, `last_task` and the step generator and wait tasks. A pointer to a `pru_task_t` is
the index of the object in `stepgen` for the task of a step generator instance and the
length of `stepgen` for the task of `wait`. -/
structure hpg_t where
  pru_period : Int
  num_stepgens : Int
  step_class : List Nat
  pru_busy_pin : Nat
  pru_data : Nat → Option pru_object
  pru_data_free : Nat
  pru_stat : PRU_statics_t
  pru_stat_addr : Nat
  last_task : Option Nat
  stepgen : List hpg_stepgen_instance_t
  wait : hpg_wait_t

/-- Store an object at an address of data memory. -/
def store_object (m : Nat → Option pru_object) (a : Nat) (o : pru_object) :
    Nat → Option pru_object :=
  fun x => if x = a then some o else m x

/-- Read a step generator descriptor from data memory. -/
def stepgen_at (m : Nat → Option pru_object) (a : Nat) : PRU_task_stepgen_t :=
  match m a with
  | some (.stepgen p) => p
  | _ => zero_pru

/-- Data memory after the stores `logs` into step generator descriptors. -/
def store_stepgen_logs (m : Nat → Option pru_object) (logs : List (Nat × List pru_write)) :
    Nat → Option pru_object :=
  logs.foldl
    (fun m1 al => store_object m1 al.1 (.stepgen (al.2.foldl apply_write (stepgen_at m1 al.1))))
    m

/-- One hop of the coprocessor through data memory: the next-address field of the object
stored at `a`. -/
def mem_next (m : Nat → Option pru_object) (a : Nat) : Option Nat :=
  (m a).map object_addr

/-- Follow the next-address fields in data memory for `k` hops starting at address `a`. -/
def mem_hops (m : Nat → Option pru_object) : Nat → Nat → Option Nat
  | 0, a => some a
  | k + 1, a => (mem_hops m k a).bind (mem_next m)

/-- The `pru_task_t` objects task pointers point to: the tasks of the step generator
instances, then the task of `wait`. -/
def task_objects (hpg : hpg_t) : List pru_task_t :=
  (hpg.stepgen.map fun s => s.task) ++ [hpg.wait.task]

/-- Put the `pru_task_t` objects back into their instances. -/
def set_task_objects (hpg : hpg_t) (ts : List pru_task_t) : hpg_t :=
  let stepgen := List.zipWith (fun s t => { s with task := t }) hpg.stepgen ts
  let wait := { hpg.wait with task := ts.getD hpg.stepgen.length hpg.wait.task }
  { hpg with stepgen := stepgen, wait := wait }

/-- The task list of the whole state: head pointer of the statics shadow, `last_task` and
the task objects. -/
def task_list (hpg : hpg_t) : TaskList :=
  { head := hpg.pru_stat.addr, last_task := hpg.last_task, tasks := task_objects hpg }

/-- `pru_task_add(hpg, task)` on the whole state. -/
def pru_task_add_hpg (hpg : hpg_t) (task : Nat) : hpg_t :=
  let r := pru_task_add (task_list hpg) task
  let pru_stat := { hpg.pru_stat with addr := r.head }
  set_task_objects { hpg with pru_stat := pru_stat, last_task := r.last_task } r.tasks

/-- `pru_malloc(hpg, len)` on the whole state. -/
def pru_malloc_hpg (hpg : hpg_t) (len : Nat) : Nat × hpg_t :=
  let r := pru_malloc { pru_stat_addr := hpg.pru_stat_addr, pru_data_free := hpg.pru_data_free } len
  (r.1, { hpg with pru_data_free := r.2.pru_data_free })

/-- An instance after the `memset` of `hpg_stepgen_init`: everything zero. The function
pointer `stepgen_updateclass` is null in C; the model has no null function pointer and
shows `stepdir` there (the member is assigned before it is first read). -/
def cleared_instance : hpg_stepgen_instance_t :=
  { pru := zero_pru,
    task := { addr := 0, next := 0 },
    pin := zero_pin,
    param := zero_param,
    stepgen_updateclass := updateclass_t.stepdir,
    old_position_cmd := 0,
    prev_accumulator := 0,
    subcounts := 0,
    written_steplen := 0,
    written_stepspace := 0,
    written_dirsetup := 0,
    written_dirhold := 0,
    written_task := 0,
    written_phase := 0 }

/-- `hpg_stepgen_init`, the first statement of the loop body:
`instance[i].task.addr = pru_malloc(hpg, sizeof(instance[i].pru))`. -/
def hpg_stepgen_init_addr (hpg : hpg_t) (i : Nat) : hpg_t :=
  let r := pru_malloc_hpg hpg sizeof_PRU_task_stepgen_t
  let set_addr := fun (s : hpg_stepgen_instance_t) => { s with task := { s.task with addr := r.1 } }
  { r.2 with stepgen := r.2.stepgen.modify set_addr i }

/-- `hpg_stepgen_init`, the assignments of one case of the `switch`: the mode of the
descriptor and the class functions. -/
def hpg_stepgen_init_class (hpg : hpg_t) (i : Nat) (mode : Nat) (cls : updateclass_t) : hpg_t :=
  let set_class := fun (s : hpg_stepgen_instance_t) =>
    { s with pru := { s.pru with mode := mode }, stepgen_updateclass := cls }
  { hpg with stepgen := hpg.stepgen.modify set_class i }

/-- `hpg_stepgen_init`, the call `export_stepgen(hpg, i)`. -/
def hpg_stepgen_init_export (hpg : hpg_t) (i : Nat) : hpg_t :=
  { hpg with stepgen := hpg.stepgen.modify (export_stepgen hpg.pru_period) i }

/-- The body of the loop of `hpg_stepgen_init` for channel `i`: the value returned from
the function when it returns here (-1), or 0 when the loop goes on, and the new state. -/
def hpg_stepgen_init_channel (hpg : hpg_t) (i : Nat) : Int × hpg_t :=
  let hpg1 := hpg_stepgen_init_addr hpg i
  let cls := hpg1.step_class.getD i eCLASS_NONE
  if cls = eCLASS_STEP_DIR then
    let hpg2 := hpg_stepgen_init_class hpg1 i eMODE_STEP_DIR updateclass_t.stepdir
    (0, hpg_stepgen_init_export (pru_task_add_hpg hpg2 i) i)
  else if cls = eCLASS_STEP_PHASE then
    let hpg2 := hpg_stepgen_init_class hpg1 i eMODE_STEP_PHASE updateclass_t.stepphase
    (0, hpg_stepgen_init_export (pru_task_add_hpg hpg2 i) i)
  else
    -- unknown step generator class
    (-1, hpg1)

/-- The loop of `hpg_stepgen_init` from channel `i` on, for `k` more channels. -/
def hpg_stepgen_init_loop : Nat → Nat → hpg_t → Int × hpg_t
  | 0, _, hpg => (0, hpg)
  | k + 1, i, hpg =>
    let r := hpg_stepgen_init_channel hpg i
    if r.1 ≠ 0 then r else hpg_stepgen_init_loop k (i + 1) r.2

/-- `hpg_stepgen_init`: the returned value and the new state. -/
def hpg_stepgen_init (hpg : hpg_t) : Int × hpg_t :=
  if hpg.num_stepgens ≤ 0 then (0, hpg)
  else
    -- Allocate HAL shared memory for state data, clear memory
    let hpg1 := { hpg with stepgen := List.replicate hpg.num_stepgens.toNat cleared_instance }
    hpg_stepgen_init_loop hpg.num_stepgens.toNat 0 hpg1

/-- `hpg_wait_init`: the returned value and the new state. -/
def hpg_wait_init (hpg : hpg_t) : Int × hpg_t :=
  let r := pru_malloc_hpg hpg sizeof_PRU_task_wait_t
  let wait := { r.2.wait with task := { r.2.wait.task with addr := r.1 } }
  let hpg1 := { r.2 with wait := wait }
  let hpg2 := pru_task_add_hpg hpg1 hpg1.stepgen.length
  (0, { hpg2 with pru_busy_pin := 0x80 })

/-- `hpg_stepgen_force_write` on the whole state: the instances after the assignments and
data memory after the copies. -/
def hpg_stepgen_force_write_hpg (hpg : hpg_t) : hpg_t :=
  let r := hpg_stepgen_force_write { pru_period := hpg.pru_period, stepgen := hpg.stepgen }
  { hpg with stepgen := r.1.stepgen, pru_data := store_stepgen_logs hpg.pru_data r.2 }

/-- `hpg_wait_force_write`. -/
def hpg_wait_force_write (hpg : hpg_t) : hpg_t :=
  let pru := { hpg.wait.pru with
    mode := eMODE_WAIT, dataX := hpg.pru_busy_pin % 256, dataY := 0, addr := hpg.wait.task.next }
  let m1 := store_object hpg.pru_data hpg.wait.task.addr (.wait pru)
  let m2 := store_object m1 hpg.pru_stat_addr (.statics hpg.pru_stat)
  { hpg with wait := { hpg.wait with pru := pru }, pru_data := m2 }

/-- `pru_init` on the whole state, after the data memory has been mapped: the memory is
zeroed, the statics block is reserved at the start of it, and the statics shadow is set up
and copied. -/
def pru_init_hpg (pru_period : Int) (hpg : hpg_t) : hpg_t :=
  let a := pru_init { pru_stat_addr := hpg.pru_stat_addr, pru_data_free := hpg.pru_data_free }
  let pru_stat := { hpg.pru_stat with dataX := 0xAB, dataY := 0xFE, period := toU32 pru_period }
  { hpg with
    pru_data := store_object (fun _ => none) a.pru_stat_addr (.statics pru_stat),
    pru_stat_addr := a.pru_stat_addr,
    pru_data_free := a.pru_data_free,
    pru_stat := pru_stat,
    pru_period := pru_period }

/-- The state after `memset(hpg, 0, sizeof(hal_pru_generic_t))`. -/
def cleared_hpg : hpg_t :=
  { pru_period := 0,
    num_stepgens := 0,
    step_class := [],
    pru_busy_pin := 0,
    pru_data := fun _ => none,
    pru_data_free := 0,
    pru_stat := { mode := 0, len := 0, dataX := 0, dataY := 0, addr := 0, period := 0 },
    pru_stat_addr := 0,
    last_task := none,
    stepgen := [],
    wait := { pru := { mode := 0, len := 0, dataX := 0, dataY := 0, addr := 0 }, task := { addr := 0, next := 0 } } }

/-- `rtapi_app_main` up to the set-up of the global state, for the module parameter
`pru_period` and the parsed step classes of the step generator channels: `memset`,
`pru_init`, and the configuration. -/
def rtapi_app_main_config (pru_period : Int) (step_class : List Nat) : hpg_t :=
  let hpg1 := pru_init_hpg pru_period cleared_hpg
  -- Setup global state
  { hpg1 with num_stepgens := step_class.length, pru_period := pru_period, step_class := step_class }

/-- `rtapi_app_main` with no PWM generator and no encoder (their calls are left out): the
set-up of the global state, `hpg_stepgen_init`, `hpg_wait_init`, `hpg_stepgen_force_write`,
`hpg_wait_force_write`. The returned value and the state. -/
def rtapi_app_main (pru_period : Int) (step_class : List Nat) : Int × hpg_t :=
  let r3 := hpg_stepgen_init (rtapi_app_main_config pru_period step_class)
  if r3.1 ≠ 0 then (-1, r3.2)
  else
    let r4 := hpg_wait_init r3.2
    if r4.1 ≠ 0 then (-1, r4.2)
    else
      let hpg5 := hpg_stepgen_force_write_hpg r4.2
      (0, hpg_wait_force_write hpg5)

/-- The set-up state without the instance data: the step classes, the allocator, the task
list (head pointer, `last_task`, the task objects of the step generators and of `wait`)
and the modes of the step generator descriptors. -/
structure setup_view_t where
  step_class : List Nat
  pru_data_free : Nat
  pru_stat_addr : Nat
  head : Nat
  last_task : Option Nat
  tasks : List pru_task_t
  wait_task : pru_task_t
  modes : List Nat
deriving DecidableEq, Repr

/-- The set-up state without the instance data. -/
def setup_view (hpg : hpg_t) : setup_view_t :=
  { step_class := hpg.step_class,
    pru_data_free := hpg.pru_data_free,
    pru_stat_addr := hpg.pru_stat_addr,
    head := hpg.pru_stat.addr,
    last_task := hpg.last_task,
    tasks := hpg.stepgen.map fun s => s.task,
    wait_task := hpg.wait.task,
    modes := hpg.stepgen.map fun s => s.pru.mode }

/-! ## Channels whose pulse timing overflows the `int` product of `update_stepgen` -/

/-- An enabled step/dir channel in velocity mode at a coprocessor period of 20000 ns whose
`steplen` and `stepspace` parameters are 1310700000 ns each, so that the host shadow holds
`steplen = stepspace = 65535` periods (`ns2periods`); `position_scale` is 1, `maxvel` is 0
and the commanded and the current velocity are 0. -/
def overflow_stepdir_channel : hpg_stepgen_instance_t :=
  { pru := { zero_pru with mode := 4, dataX := 17, dataY := 18, addr := 12, steplen := 65535, dirhold := 50, stepspace := 65535, dirsetup := 50 },
    task := { addr := 12, next := 12 },
    pin := { zero_pin with enable := 1, control_type := 1 },
    param := { zero_param with position_scale := 1, maxaccel := 1, steplen := 1310700000, dirhold := 1000000, stepspace_pin_a := 1310700000, dirsetup_pin_b := 1000000, steppin_pin_c := 17, dirpin_pin_d := 18 },
    stepgen_updateclass := updateclass_t.stepdir,
    old_position_cmd := 0,
    prev_accumulator := 0,
    subcounts := 0,
    written_steplen := 1310700000,
    written_stepspace := 1310700000,
    written_dirsetup := 1000000,
    written_dirhold := 1000000,
    written_task := 303104004,
    written_phase := 0 }

/-- An enabled step/phase channel in velocity mode at a coprocessor period of 65537 ns whose
`steplen` parameter is 4294967295 ns, so that the host shadow holds `steplen = 65535`
periods; `position_scale` is 1, `maxvel` is 0 and the commanded and the current velocity
are 0. -/
def overflow_stepphase_channel : hpg_stepgen_instance_t :=
  { pru := { zero_pru with mode := 9, dataX := 17, dataY := 18, addr := 12, steplen := 65535, dirhold := 16, stepspace := 4883, lut := 2623773795 },
    task := { addr := 12, next := 12 },
    pin := { zero_pin with enable := 1, control_type := 1 },
    param := { zero_param with position_scale := 1, maxaccel := 1, steplen := 4294967295, dirhold := 1000000, stepspace_pin_a := 17, dirsetup_pin_b := 18, steppin_pin_c := 19, dirpin_pin_d := 19, stepinv_type := 6 },
    stepgen_updateclass := updateclass_t.stepphase,
    old_position_cmd := 0,
    prev_accumulator := 0,
    subcounts := 0,
    written_steplen := 4294967295,
    written_stepspace := 0,
    written_dirsetup := 0,
    written_dirhold := 1000000,
    written_task := 303104009,
    written_phase := 6 }

/-! ## A channel that is enabled again -/

/-- The channel `idle_channel` at a later period: enabled, in position mode, with the
commanded position moved to 1/1000. -/
def reenabled_channel : hpg_stepgen_instance_t :=
  { idle_channel with pin := { zero_pin with position_cmd := 1 / 1000, enable := 1 } }

/-! ## Task list: lemmas and theorems -/

theorem getElem?_setNext (ts : List pru_task_t) (p v q : Nat) :
    (setNext ts p v)[q]? =
      if q = p then (ts[p]?).map (fun t => { t with next := v }) else ts[q]? := by
  unfold setNext
  cases h : ts[p]? with
  | none =>
    by_cases hq : q = p
    · subst hq; simp [h]
    · simp [hq]
  | some t =>
    by_cases hq : q = p
    · subst hq
      have hlt : q < ts.length := by
        rcases List.getElem?_eq_some.1 h with ⟨hl, _⟩
        exact hl
      simp [List.getElem?_set, hlt]
    · have : p ≠ q := fun e => hq e.symm
      simp [List.getElem?_set, hq, this]

theorem length_setNext (ts : List pru_task_t) (p v : Nat) :
    (setNext ts p v).length = ts.length := by
  unfold setNext
  cases ts[p]? <;> simp

theorem taskAddr_setNext (ts : List pru_task_t) (p v q : Nat) :
    taskAddr (setNext ts p v) q = taskAddr ts q := by
  unfold taskAddr
  rw [getElem?_setNext]
  by_cases hq : q = p
  · subst hq
    cases ts[q]? <;> simp
  · simp [hq]


theorem addTasks_succ (hpg : TaskList) (k : Nat) :
    addTasks hpg (k + 1) = pru_task_add (addTasks hpg k) k := by
  simp [addTasks, List.range_succ, List.foldl_append]

/-- The link structure after the first `k` descriptors of the store were appended. -/
theorem addTasks_links (addrs : List Nat) (k : Nat) (hk : k + 1 ≤ addrs.length) :
    (addTasks (emptyTaskList addrs) (k + 1)).head = addrs.getD 0 0 ∧
    (addTasks (emptyTaskList addrs) (k + 1)).last_task = some k ∧
    ∀ i, i < addrs.length →
      (addTasks (emptyTaskList addrs) (k + 1)).tasks[i]? =
        some ⟨addrs.getD i 0,
          if i + 1 < k + 1 then addrs.getD (i + 1) 0
          else if i + 1 = k + 1 then addrs.getD 0 0 else 0⟩ := by
  induction k with
  | zero =>
    have h0 : 0 < addrs.length := by omega
    have e0 : (List.map (fun a => ({ addr := a, next := 0 } : pru_task_t)) addrs)[0]? =
        some ⟨addrs.getD 0 0, 0⟩ := by
      simp [List.getElem?_map, List.getD_eq_getElem?_getD, List.getElem?_eq_getElem h0]
    have e1 : addTasks (emptyTaskList addrs) (0 + 1) =
        pru_task_add (emptyTaskList addrs) 0 := by
      rw [addTasks_succ]; rfl
    rw [e1]
    refine ⟨?_, ?_, ?_⟩
    · simp [pru_task_add, emptyTaskList, taskAddr, e0]
    · simp [pru_task_add, emptyTaskList]
    · intro i hi
      simp only [pru_task_add, emptyTaskList, getElem?_setNext, taskAddr, e0]
      by_cases hi0 : i = 0
      · subst hi0; simp
      · have h1 : ¬ (i + 1 < 0 + 1) := by omega
        have h2 : ¬ (i + 1 = 0 + 1) := by omega
        simp only [hi0, h1, h2, if_false]
        simp [List.getElem?_map, List.getD_eq_getElem?_getD, List.getElem?_eq_getElem hi]
  | succ k ih =>
    obtain ⟨ihh, ihl, iht⟩ := ih (by omega)
    rw [addTasks_succ]
    have hk1 := iht (k + 1) (by omega)
    have hk0 := iht k (by omega)
    simp only [Nat.lt_irrefl, if_false, if_true, Nat.add_lt_add_iff_right,
      Nat.add_right_cancel_iff] at hk0
    have hk1' : (addTasks (emptyTaskList addrs) (k + 1)).tasks[k + 1]? =
        some ⟨addrs.getD (k + 1) 0, 0⟩ := by
      rw [hk1]; simp
    refine ⟨?_, ?_, ?_⟩
    · simp [pru_task_add, ihl, ihh]
    · simp [pru_task_add, ihl]
    · intro i hi
      simp only [pru_task_add, ihl, getElem?_setNext, taskAddr_setNext, taskAddr, hk1', ihh]
      by_cases hik : i = k
      · subst hik
        have : ¬ (i = i + 1) := by omega
        simp [hk0]
      · by_cases hik1 : i = k + 1
        · subst hik1
          simp [hk1']
        · simp only [hik, hik1, if_false]
          rw [iht i hi]
          by_cases hlt : i < k
          · have h1 : i + 1 < k + 1 := by omega
            have h2 : i + 1 < k + 1 + 1 := by omega
            simp [h1, h2]
          · have h1 : ¬ (i + 1 < k + 1) := by omega
            have h2 : ¬ (i + 1 < k + 1 + 1) := by omega
            have h3 : ¬ (i + 1 = k + 1) := by omega
            have h4 : ¬ (i + 1 = k + 1 + 1) := by omega
            simp [h1, h2, h3, h4]

theorem length_pru_task_add (hpg : TaskList) (task : Nat) :
    (pru_task_add hpg task).tasks.length = hpg.tasks.length := by
  unfold pru_task_add
  cases hpg.last_task <;> simp [length_setNext]

theorem length_addTasks (hpg : TaskList) (n : Nat) :
    (addTasks hpg n).tasks.length = hpg.tasks.length := by
  induction n with
  | zero => rfl
  | succ n ih => rw [addTasks_succ, length_pru_task_add, ih]

theorem getD_inj_of_nodup (addrs : List Nat) (hnd : addrs.Nodup) (i j : Nat)
    (hi : i < addrs.length) (hj : j < addrs.length)
    (h : addrs.getD i 0 = addrs.getD j 0) : i = j := by
  rw [List.getD_eq_getElem _ _ hi, List.getD_eq_getElem _ _ hj] at h
  exact (List.Nodup.getElem_inj_iff hnd).1 h

theorem mod_add_of_lt (i k n : Nat) (hi : i < n) (hk : k < n) :
    (i + k) % n = if i + k < n then i + k else i + k - n := by
  by_cases h : i + k < n
  · simp [h, Nat.mod_eq_of_lt h]
  · simp only [h, if_false]
    rw [Nat.mod_eq_sub_mod (by omega)]
    exact Nat.mod_eq_of_lt (by omega)

/-- In a store whose addresses are pairwise distinct, looking an address up finds the
descriptor that carries it. -/
theorem find?_addr (ts : List pru_task_t) (hnd : (ts.map fun t => t.addr).Nodup)
    (i : Nat) (t : pru_task_t) (h : ts[i]? = some t) :
    ts.find? (fun u => u.addr == t.addr) = some t := by
  induction ts generalizing i with
  | nil => simp at h
  | cons x xs ih =>
    rw [List.map_cons, List.nodup_cons] at hnd
    cases i with
    | zero =>
      simp at h
      subst h
      simp [List.find?_cons]
    | succ i =>
      simp at h
      have hmem : t ∈ xs := by
        rcases List.getElem?_eq_some.1 h with ⟨hl, e⟩
        rw [← e]
        exact List.getElem_mem hl
      have hne : ¬ (x.addr = t.addr) := by
        intro e
        apply hnd.1
        rw [e]
        exact List.mem_map_of_mem _ hmem
      have hb : (x.addr == t.addr) = false := by simpa using hne
      rw [List.find?_cons, hb]
      exact ih hnd.2 i h

/-- The finished list: descriptor `i` links to descriptor `(i + 1) mod N`. -/
theorem addTasks_ring (addrs : List Nat) (i : Nat) (hi : i < addrs.length) :
    (addTasks (emptyTaskList addrs) addrs.length).tasks[i]? =
      some ⟨addrs.getD i 0, addrs.getD ((i + 1) % addrs.length) 0⟩ := by
  obtain ⟨n, hn⟩ : ∃ n, addrs.length = n + 1 := ⟨addrs.length - 1, by omega⟩
  have h := (addTasks_links addrs n (by omega)).2.2 i hi
  rw [hn]
  rw [h]
  by_cases hlt : i + 1 < n + 1
  · simp [hlt, Nat.mod_eq_of_lt hlt]
  · have he : i + 1 = n + 1 := by omega
    simp [he]

theorem addTasks_addrs (addrs : List Nat) :
    (addTasks (emptyTaskList addrs) addrs.length).tasks.map (fun t => t.addr) = addrs := by
  apply List.ext_getElem?
  intro i
  by_cases hi : i < addrs.length
  · rw [List.getElem?_map, addTasks_ring addrs i hi]
    simp [List.getD_eq_getElem _ _ hi, List.getElem?_eq_getElem hi]
  · have hl : (addTasks (emptyTaskList addrs) addrs.length).tasks.length = addrs.length := by
      rw [length_addTasks]; simp [emptyTaskList]
    rw [List.getElem?_map, List.getElem?_eq_none (by omega), List.getElem?_eq_none (by omega)]
    rfl

theorem nextOf_ring (addrs : List Nat) (hnd : addrs.Nodup) (i : Nat) (hi : i < addrs.length) :
    nextOf (addTasks (emptyTaskList addrs) addrs.length).tasks (addrs.getD i 0) =
      some (addrs.getD ((i + 1) % addrs.length) 0) := by
  have h := find?_addr (addTasks (emptyTaskList addrs) addrs.length).tasks
    (by rw [addTasks_addrs]; exact hnd) i _ (addTasks_ring addrs i hi)
  simp only at h
  unfold nextOf
  rw [h]
  rfl

theorem hops_ring (addrs : List Nat) (hnd : addrs.Nodup) (i : Nat) (hi : i < addrs.length)
    (k : Nat) :
    hops (addTasks (emptyTaskList addrs) addrs.length).tasks k (addrs.getD i 0) =
      some (addrs.getD ((i + k) % addrs.length) 0) := by
  induction k with
  | zero => simp [hops, Nat.mod_eq_of_lt hi]
  | succ k ih =>
    have hlt : (i + k) % addrs.length < addrs.length := Nat.mod_lt _ (by omega)
    simp only [hops, ih, Option.some_bind]
    rw [nextOf_ring addrs hnd _ hlt, Nat.mod_add_mod, Nat.add_assoc]

/-- C1: after N >= 1 descriptors with pairwise distinct addresses were appended to the empty
list, following `next` from any appended address returns to it after exactly N hops and
not earlier, and every appended address is met exactly once among the N addresses
visited on the way (hops 0, ..., N-1). -/
theorem task_list_single_cycle (addrs : List Nat) (hnd : addrs.Nodup) (a : Nat)
    (ha : a ∈ addrs) :
    hops (addTasks (emptyTaskList addrs) addrs.length).tasks addrs.length a = some a ∧
    (∀ k, 0 < k → k < addrs.length →
      hops (addTasks (emptyTaskList addrs) addrs.length).tasks k a ≠ some a) ∧
    (∀ b, b ∈ addrs → ∃! k, k < addrs.length ∧
      hops (addTasks (emptyTaskList addrs) addrs.length).tasks k a = some b) := by
  obtain ⟨i, hi, rfl⟩ := List.getElem_of_mem ha
  rw [← List.getD_eq_getElem addrs 0 hi]
  have hmod : ∀ k, (i + k) % addrs.length < addrs.length := fun k => Nat.mod_lt _ (by omega)
  refine ⟨?_, ?_, ?_⟩
  · rw [hops_ring addrs hnd i hi, Nat.add_mod_right, Nat.mod_eq_of_lt hi]
  · intro k hk0 hk h
    rw [hops_ring addrs hnd i hi, Option.some.injEq] at h
    have e := getD_inj_of_nodup addrs hnd _ _ (hmod k) hi h
    rw [mod_add_of_lt i k _ hi hk] at e
    split at e <;> omega
  · intro b hb
    obtain ⟨j, hj, rfl⟩ := List.getElem_of_mem hb
    rw [← List.getD_eq_getElem addrs 0 hj]
    have hkey : ∀ k, k < addrs.length →
        (hops (addTasks (emptyTaskList addrs) addrs.length).tasks k (addrs.getD i 0) =
          some (addrs.getD j 0) ↔ (i + k) % addrs.length = j) := by
      intro k _
      rw [hops_ring addrs hnd i hi, Option.some.injEq]
      constructor
      · intro h; exact getD_inj_of_nodup addrs hnd _ _ (hmod k) hj h
      · intro h; rw [h]
    refine ⟨(j + addrs.length - i) % addrs.length, ⟨Nat.mod_lt _ (by omega), ?_⟩, ?_⟩
    · rw [hkey _ (Nat.mod_lt _ (by omega)), Nat.add_mod_mod]
      have : i + (j + addrs.length - i) = j + addrs.length := by omega
      rw [this, Nat.add_mod_right, Nat.mod_eq_of_lt hj]
    · rintro k ⟨hk, hkj⟩
      rw [hkey k hk, mod_add_of_lt i k _ hi hk] at hkj
      by_cases hij : i ≤ j
      · have e : j + addrs.length - i = (j - i) + addrs.length := by omega
        rw [e, Nat.add_mod_right, Nat.mod_eq_of_lt (by omega)]
        split at hkj <;> omega
      · rw [Nat.mod_eq_of_lt (by omega)]
        split at hkj <;> omega

theorem task_list_single_cycle_witness :
    hops (addTasks (emptyTaskList [12, 48, 84]) 3).tasks 3 48 = some 48 ∧
    (∀ k, 0 < k → k < 3 → hops (addTasks (emptyTaskList [12, 48, 84]) 3).tasks k 48 ≠ some 48) ∧
    (∀ b, b ∈ [12, 48, 84] → ∃! k, k < 3 ∧
      hops (addTasks (emptyTaskList [12, 48, 84]) 3).tasks k 48 = some b) :=
  task_list_single_cycle [12, 48, 84] (by decide) 48 (by decide)

/-- C2: the effect of `pru_task_add` on a descriptor `task` that is not already the tail
(no descriptor is appended twice). On the empty list the statics head pointer becomes
`task.addr`, `task.next` becomes `task.addr`; on a non-empty list `task.next` becomes
the current head address and the previous tail's `next` becomes `task.addr`, while the
head pointer and every other descriptor stay as they were. In both cases `task` becomes
the tail. -/
theorem pru_task_add_effect (hpg : TaskList) (task : Nat) (t : pru_task_t)
    (ht : hpg.tasks[task]? = some t) (hl : ∀ l, hpg.last_task = some l → l ≠ task) :
    (pru_task_add hpg task).last_task = some task ∧
    (hpg.last_task = none →
      (pru_task_add hpg task).head = t.addr ∧
      (pru_task_add hpg task).tasks[task]? = some ⟨t.addr, t.addr⟩ ∧
      ∀ q, q ≠ task → (pru_task_add hpg task).tasks[q]? = hpg.tasks[q]?) ∧
    (∀ l, hpg.last_task = some l →
      (pru_task_add hpg task).head = hpg.head ∧
      (pru_task_add hpg task).tasks[task]? = some ⟨t.addr, hpg.head⟩ ∧
      (pru_task_add hpg task).tasks[l]? =
        (hpg.tasks[l]?).map (fun u => ⟨u.addr, t.addr⟩) ∧
      ∀ q, q ≠ task → q ≠ l → (pru_task_add hpg task).tasks[q]? = hpg.tasks[q]?) := by
  refine ⟨?_, ?_, ?_⟩
  · unfold pru_task_add
    cases hpg.last_task <;> rfl
  · intro hn
    simp only [pru_task_add, hn, getElem?_setNext, taskAddr, ht]
    refine ⟨trivial, by simp, ?_⟩
    intro q hq
    simp [hq]
  · intro l hs
    have hne : l ≠ task := hl l hs
    have hne2 : task ≠ l := fun e => hne e.symm
    simp only [pru_task_add, hs, getElem?_setNext, taskAddr_setNext, taskAddr, ht]
    refine ⟨trivial, by simp [hne2], by simp [hne], ?_⟩
    intro q hq1 hq2
    simp [hq1, hq2]

theorem pru_task_add_effect_witness :
    (pru_task_add ⟨12, some 0, [⟨12, 12⟩, ⟨48, 0⟩]⟩ 1).last_task = some 1 ∧
    (pru_task_add ⟨12, some 0, [⟨12, 12⟩, ⟨48, 0⟩]⟩ 1).head = 12 ∧
    (pru_task_add ⟨12, some 0, [⟨12, 12⟩, ⟨48, 0⟩]⟩ 1).tasks[1]? = some ⟨48, 12⟩ ∧
    (pru_task_add ⟨12, some 0, [⟨12, 12⟩, ⟨48, 0⟩]⟩ 1).tasks[0]? = some ⟨12, 48⟩ :=
  have h := pru_task_add_effect ⟨12, some 0, [⟨12, 12⟩, ⟨48, 0⟩]⟩ 1 ⟨48, 0⟩ rfl (by decide)
  ⟨h.1, (h.2.2 0 rfl).1, (h.2.2 0 rfl).2.1, (h.2.2 0 rfl).2.2.1⟩

theorem and_mask_eq (x : Nat) (hx : x < 4294967296) : x &&& 0xFFFFFFFC = 4 * (x / 4) := by
  have e1 : (0xFFFFFFFC : Nat) = (2 ^ 30 - 1) <<< 2 := by decide
  have e2 : 4 * (x / 4) = (x >>> 2) <<< 2 := by
    rw [Nat.shiftLeft_eq, Nat.shiftRight_eq_div_pow]; omega
  rw [e1, e2]
  apply Nat.eq_of_testBit_eq
  intro i
  simp only [Nat.testBit_and, Nat.testBit_shiftLeft, Nat.testBit_shiftRight,
    Nat.testBit_two_pow_sub_one]
  by_cases h2 : 2 ≤ i
  · by_cases h32 : i < 32
    · have : i - 2 < 30 := by omega
      have e : 2 + (i - 2) = i := by omega
      simp [h2, this, e]
    · have hlt : x < 2 ^ i := by
        calc x < 2 ^ 32 := hx
          _ ≤ 2 ^ i := Nat.pow_le_pow_right (by decide) (by omega)
      have e : 2 + (i - 2) = i := by omega
      simp [h2, e, Nat.testBit_lt_two_pow hlt]
  · simp [h2]

theorem len32_eq (len : Nat) (h : len < 2147483648) : len32 len = 4 * ((len + 3) / 4) := by
  simp only [len32]
  rw [and_mask_eq len (by omega)]
  split <;> omega


/-- C3: `pru_malloc` returns the free pointer as it was before the call and advances the
(32-bit) free pointer by the smallest multiple of 4 that is at least `len`
(1 -> 4, 3 -> 4, 4 -> 4, 5 -> 8). The function is total and compares nothing with the
8 KB window: a request ending past byte 8192 is served like any other. -/
theorem pru_malloc_rounds_up (hpg : Allocator) (len : Nat) (hlen : len < 2147483648) :
    (pru_malloc hpg len).1 = hpg.pru_data_free ∧
    (pru_malloc hpg len).2.pru_data_free = (hpg.pru_data_free + len32 len) % 4294967296 ∧
    (hpg.pru_data_free + len32 len < 4294967296 →
      (pru_malloc hpg len).2.pru_data_free = hpg.pru_data_free + len32 len) ∧
    (pru_malloc hpg len).2.pru_stat_addr = hpg.pru_stat_addr ∧
    4 ∣ len32 len ∧ len ≤ len32 len ∧ (∀ m, 4 ∣ m → len ≤ m → len32 len ≤ m) ∧
    len32 1 = 4 ∧ len32 3 = 4 ∧ len32 4 = 4 ∧ len32 5 = 8 ∧
    pru_malloc ⟨0, 8188⟩ 8 = (8188, ⟨0, 8196⟩) := by
  have h := len32_eq len hlen
  refine ⟨rfl, rfl, ?_, rfl, ?_, ?_, ?_, by decide, by decide, by decide, by decide,
    by decide⟩
  · intro hfit
    exact Nat.mod_eq_of_lt hfit
  · rw [h]; exact Dvd.intro _ rfl
  · omega
  · intro m hm hle
    obtain ⟨c, rfl⟩ := hm
    omega

theorem pru_malloc_rounds_up_witness :
    (pru_malloc ⟨0, 12⟩ 5).1 = 12 ∧ (pru_malloc ⟨0, 12⟩ 5).2.pru_data_free = 20 :=
  have h := pru_malloc_rounds_up ⟨0, 12⟩ 5 (by decide)
  ⟨h.1, h.2.2.1 (by decide)⟩

/-- Addresses handed out while the free pointer does not wrap: each is aligned, not below
the starting free pointer, and the (rounded) ranges follow each other without overlap. -/
theorem mallocs_from (s : Nat) (reqs : List Nat) :
    ∀ f : Nat, f % 4 = 0 → (∀ len ∈ reqs, len < 2147483648) →
      f + (reqs.map len32).sum < 4294967296 →
      ((mallocs ⟨s, f⟩ reqs).1.length = reqs.length) ∧
      (∀ a ∈ (mallocs ⟨s, f⟩ reqs).1, f ≤ a ∧ a % 4 = 0) ∧
      (((mallocs ⟨s, f⟩ reqs).1.zip reqs).Pairwise fun p q => p.1 + len32 p.2 ≤ q.1) ∧
      (mallocs ⟨s, f⟩ reqs).2.pru_data_free = f + (reqs.map len32).sum := by
  induction reqs with
  | nil => intro f _ _ _; simp [mallocs]
  | cons len rest ih =>
    intro f hf hlen hfit
    have hl := len32_eq len (hlen len (List.mem_cons_self _ _))
    simp only [List.map_cons, List.sum_cons] at hfit
    have hmod : (f + len32 len) % 4294967296 = f + len32 len :=
      Nat.mod_eq_of_lt (by omega)
    obtain ⟨ih1, ih2, ih3, ih4⟩ := ih (f + len32 len) (by omega)
      (fun l hl => hlen l (List.mem_cons_of_mem _ hl)) (by omega)
    simp only [mallocs, pru_malloc, hmod]
    refine ⟨by simp [ih1], ?_, ?_, ?_⟩
    · intro a ha
      rcases List.mem_cons.1 ha with rfl | ha
      · exact ⟨le_refl _, hf⟩
      · have := ih2 a ha
        exact ⟨by omega, this.2⟩
    · rw [List.zip_cons_cons, List.pairwise_cons]
      refine ⟨?_, ih3⟩
      intro q hq
      have hq1 : q.1 ∈ (mallocs ⟨s, f + len32 len⟩ rest).1 := (List.of_mem_zip hq).1
      exact (ih2 q.1 hq1).1
    · rw [ih4]; simp only [List.map_cons, List.sum_cons]; omega

/-- C4, as stated, fails: a zero-size request does not move the free pointer, so the next
request gets the same address; and requests that carry the 32-bit free pointer past 2^32
make it wrap to a lower address. -/
theorem pru_malloc_zero_size_repeats_address :
    (mallocs (pru_init ⟨0, 0⟩) [0, 1]).1 = [12, 12] ∧
    ¬ ((mallocs (pru_init ⟨0, 0⟩) [0, 1]).1).Pairwise (fun a b => a < b) ∧
    (mallocs (pru_init ⟨0, 0⟩) [2147483644, 2147483644, 4]).1 = [12, 2147483656, 4] := by
  refine ⟨?_, ?_, ?_⟩
  · decide
  · decide
  · decide

/-- C4 (amended): starting from the free pointer set by `pru_init` (12, the size of the
statics block), for any sequence of requests of at least one byte each that does not
make the 32-bit free pointer wrap, the returned addresses are strictly increasing, every
one is a multiple of 4, and the byte ranges `[addr_i, addr_i + size_i)` do not overlap;
the requests 1, 3, 5 advance the free pointer by 4, 4 and 8. -/
theorem pru_malloc_sequence (hpg : Allocator) (reqs : List Nat)
    (hpos : ∀ len ∈ reqs, 1 ≤ len ∧ len < 2147483648)
    (hfit : 12 + (reqs.map len32).sum < 4294967296) :
    (pru_init hpg).pru_data_free = 12 ∧
    (mallocs (pru_init hpg) reqs).1.length = reqs.length ∧
    ((mallocs (pru_init hpg) reqs).1).Pairwise (fun a b => a < b) ∧
    (∀ a ∈ (mallocs (pru_init hpg) reqs).1, a % 4 = 0) ∧
    (((mallocs (pru_init hpg) reqs).1.zip reqs).Pairwise fun p q => p.1 + p.2 ≤ q.1) ∧
    (mallocs (pru_init hpg) [1, 3, 5]).1 = [12, 16, 20] ∧
    (mallocs (pru_init hpg) [1, 3, 5]).2.pru_data_free = 28 := by
  have hinit : pru_init hpg = ⟨0, 12⟩ := rfl
  rw [hinit]
  obtain ⟨h1, h2, h3, _⟩ := mallocs_from 0 reqs 12 (by decide) (fun l hl => (hpos l hl).2) hfit
  have hzip : ((mallocs ⟨0, 12⟩ reqs).1.zip reqs).Pairwise fun p q => p.1 + p.2 ≤ q.1 := by
    refine List.Pairwise.imp_of_mem ?_ h3
    intro p q hp _ hpq
    have := len32_eq p.2 (hpos p.2 (List.of_mem_zip hp).2).2
    omega
  refine ⟨rfl, h1, ?_, fun a ha => (h2 a ha).2, hzip, by decide, by decide⟩
  have hlt : ((mallocs ⟨0, 12⟩ reqs).1.zip reqs).Pairwise fun p q => p.1 < q.1 := by
    refine List.Pairwise.imp_of_mem ?_ h3
    intro p q hp _ hpq
    have h4 := hpos p.2 (List.of_mem_zip hp).2
    have := len32_eq p.2 h4.2
    omega
  have hmap : ((mallocs ⟨0, 12⟩ reqs).1.zip reqs).map Prod.fst = (mallocs ⟨0, 12⟩ reqs).1 :=
    List.map_fst_zip _ _ (by omega)
  rw [← hmap, List.pairwise_map]
  exact hlt

theorem pru_malloc_sequence_witness :
    ((mallocs (pru_init ⟨0, 0⟩) [36, 36, 8]).1).Pairwise (fun a b => a < b) ∧
    (((mallocs (pru_init ⟨0, 0⟩) [36, 36, 8]).1.zip [36, 36, 8]).Pairwise
      fun p q => p.1 + p.2 ≤ q.1) :=
  have h := pru_malloc_sequence ⟨0, 0⟩ [36, 36, 8] (by decide) (by decide)
  ⟨h.2.2.1, h.2.2.2.2.1⟩

/-! ## Accumulator unwrap: theorems -/

/-- C5 at its own example: the correction uses `UINT32_MAX` (2^32 - 1), so the forward step
from 0xFFFFFFF0 to 0x00000010 adds 0x1F and the reverse step adds -0x1F, where a counter
that never wraps moves by 0x20; seen on `acc_delta` and on `subcounts` of an instance. -/
theorem acc_delta_wrap_is_one_short :
    acc_delta 0x00000010 0xFFFFFFF0 = 0x1F ∧
    acc_delta 0xFFFFFFF0 0x00000010 = -0x1F ∧
    (hpg_stepgen_read_instance 0x8000
      { new_channel 10000 updateclass_t.stepdir 12 with
        prev_accumulator := 0xFFFFFFF0, subcounts := 1000 }).subcounts = 1000 + 0x1F ∧
    (hpg_stepgen_read_instance 0xFFFF07FF8000
      { new_channel 10000 updateclass_t.stepdir 12 with
        prev_accumulator := 0x00000010, subcounts := 1000 }).subcounts = 1000 - 0x1F := by
  refine ⟨by decide, by decide, by decide, by decide⟩

/-- What the correction does for a true motion `d` with `|d| < 2^31` from the reading `prev`:
the delta is `d` when the new reading `(prev + d) mod 2^32` did not wrap, `d - 1` after a
forward wrap and `d + 1` after a reverse wrap. -/
theorem acc_delta_of_motion (prev : Nat) (d : Int) (hp : prev < 4294967296)
    (hd1 : -2147483648 < d) (hd2 : d < 2147483648) :
    acc_delta (toU32 ((prev : Int) + d)) prev =
      if (prev : Int) + d < 0 then d + 1
      else if 4294967296 ≤ (prev : Int) + d then d - 1
      else d := by
  simp only [acc_delta, toU32, INT32_MAX, INT32_MIN, UINT32_MAX]
  split_ifs <;> omega

/-- C6: for 32-bit readings `prev` and `acc` the corrected delta differs from the true
wrapped signed difference `((acc - prev + 2^31) mod 2^32) - 2^31` by at most 1. -/
theorem acc_delta_within_one_lsb (prev acc : Nat) (hp : prev < 4294967296)
    (ha : acc < 4294967296) :
    |acc_delta acc prev -
      ((((acc : Int) - (prev : Int) + 2147483648) % 4294967296) - 2147483648)| ≤ 1 := by
  rw [abs_le]
  simp only [acc_delta, INT32_MAX, INT32_MIN, UINT32_MAX]
  split_ifs <;> constructor <;> omega

theorem acc_delta_within_one_lsb_witness :
    |acc_delta 0x00000010 0xFFFFFFF0 -
      ((((0x00000010 : Nat) : Int) - ((0xFFFFFFF0 : Nat) : Int) + 2147483648) % 4294967296
        - 2147483648)| ≤ 1 :=
  acc_delta_within_one_lsb 0xFFFFFFF0 0x00000010 (by decide) (by decide)

/-- What `hpg_stepgen_read` publishes as `position_fb`: the unsigned value of `subcounts`
divided by 65536 and by the sanitised position scale. -/
theorem position_fb_read (x : Int) (s : hpg_stepgen_instance_t) :
    (hpg_stepgen_read_instance x s).pin.position_fb =
      (((hpg_stepgen_read_instance x s).subcounts : Rat) / 65536) /
        (hpg_stepgen_read_instance x s).param.position_scale := rfl

/-- C7 at a failing input: a channel created at 0 whose step counter goes one step back.
The running total read as signed is negative (-65535), the position scale is 1, and the
published `position_fb` is the unsigned value over 65536: positive, not
`S / 65536 / position_scale`. -/
theorem position_fb_negative_total_published_positive :
    asS64 (hpg_stepgen_read_instance 0xFFFFFFFF00000000
      (new_channel 10000 updateclass_t.stepdir 12)).subcounts = -65535 ∧
    (hpg_stepgen_read_instance 0xFFFFFFFF00000000
      (new_channel 10000 updateclass_t.stepdir 12)).param.position_scale = 1 ∧
    (hpg_stepgen_read_instance 0xFFFFFFFF00000000
      (new_channel 10000 updateclass_t.stepdir 12)).pin.position_fb =
        (18446744073709486081 : Rat) / 65536 ∧
    (hpg_stepgen_read_instance 0xFFFFFFFF00000000
      (new_channel 10000 updateclass_t.stepdir 12)).pin.position_fb ≠
        ((-65535 : Int) : Rat) / 65536 / 1 := by
  have hsub : (hpg_stepgen_read_instance 0xFFFFFFFF00000000
      (new_channel 10000 updateclass_t.stepdir 12)).subcounts = 18446744073709486081 := by
    decide
  have hscale : (hpg_stepgen_read_instance 0xFFFFFFFF00000000
      (new_channel 10000 updateclass_t.stepdir 12)).param.position_scale = 1 := by
    simp [hpg_stepgen_read_instance, new_channel, export_stepgen, hpg_stepgen_init_instance,
      export_stepdir, sanitize_position_scale, double_1e_6]
  refine ⟨?_, hscale, ?_, ?_⟩
  · rw [hsub]; decide
  · rw [position_fb_read, hsub, hscale]; norm_num
  · rw [position_fb_read, hsub, hscale]; norm_num

/-! ## Rate clamp: theorems -/

theorem double_to_s32_zero : double_to_s32 0 = 0 := by
  simp [double_to_s32, truncQ]

theorem update_stepgen_rate (pru_period l_period_ns : Int) (s : hpg_stepgen_instance_t) :
    (update_stepgen pru_period l_period_ns s).pru.rate =
      clip_rate (rate_of_steps_per_sec pru_period
        ((update_stepgen pru_period l_period_ns s).pin.velocity_fb *
          (update_stepgen pru_period l_period_ns s).param.position_scale)) := rfl

/-- C9: the rate clamp at the end of `update_stepgen`, on the 32-bit rate word `r`: a word
in `(0x03FFFFFF, 0x80000000)` is stored as `0x03FFFFFF`, a word in
`[0x80000000, 0xFC000001)` as `0xFC000001`, every other word unchanged; a commanded
steps-per-second of 0 gives the word 0, which is stored unchanged. The stored rate of
`update_stepgen` is this clamp of the converted product. -/
theorem clip_rate_word (r : Nat) (hr : r < 4294967296) :
    toU32 (clip_rate (toS32 r)) =
      (if 0x03FFFFFF < r ∧ r < 0x80000000 then 0x03FFFFFF
       else if 0x80000000 ≤ r ∧ r < 0xFC000001 then 0xFC000001
       else r) ∧
    (¬ (0x03FFFFFF < r ∧ r < 0x80000000) → ¬ (0x80000000 ≤ r ∧ r < 0xFC000001) →
      clip_rate (toS32 r) = toS32 r) ∧
    (∀ pru_period : Int, rate_of_steps_per_sec pru_period 0 = 0) ∧
    clip_rate 0 = 0 ∧
    (∀ (pru_period l_period_ns : Int) (s : hpg_stepgen_instance_t),
      (update_stepgen pru_period l_period_ns s).pru.rate =
        clip_rate (rate_of_steps_per_sec pru_period
          ((update_stepgen pru_period l_period_ns s).pin.velocity_fb *
            (update_stepgen pru_period l_period_ns s).param.position_scale))) := by
  refine ⟨?_, ?_, ?_, by decide, update_stepgen_rate⟩
  · simp only [clip_rate, toU32, toS32]
    split_ifs <;> omega
  · intro h1 h2
    simp only [clip_rate, toU32, toS32]
    split_ifs <;> omega
  · intro P
    simp [rate_of_steps_per_sec, double_to_s32_zero]

theorem clip_rate_word_witness :
    toU32 (clip_rate (toS32 0x04000000)) =
      (if 0x03FFFFFF < 0x04000000 ∧ 0x04000000 < 0x80000000 then 0x03FFFFFF
       else if 0x80000000 ≤ 0x04000000 ∧ 0x04000000 < 0xFC000001 then 0xFC000001
       else 0x04000000) :=
  (clip_rate_word 0x04000000 (by decide)).1

/-! ## Frame of the write path: theorems -/

theorem update_stepgen_counts (pru_period l_period_ns : Int) (s : hpg_stepgen_instance_t) :
    (update_stepgen pru_period l_period_ns s).subcounts = s.subcounts ∧
    (update_stepgen pru_period l_period_ns s).prev_accumulator = s.prev_accumulator := by
  simp only [update_stepgen]
  split <;> exact ⟨rfl, rfl⟩

theorem update_enable_counts (pru_period l_period_ns : Int) (s : hpg_stepgen_instance_t) :
    (update_enable pru_period l_period_ns s).subcounts = s.subcounts ∧
    (update_enable pru_period l_period_ns s).prev_accumulator = s.prev_accumulator := by
  unfold update_enable
  split
  · exact ⟨rfl, rfl⟩
  · exact update_stepgen_counts pru_period l_period_ns s

theorem with_pru_counts (u : hpg_stepgen_instance_t) (p : PRU_task_stepgen_t) :
    ({ u with pru := p } : hpg_stepgen_instance_t).subcounts = u.subcounts ∧
    ({ u with pru := p } : hpg_stepgen_instance_t).prev_accumulator = u.prev_accumulator :=
  ⟨rfl, rfl⟩

theorem with_pru_written_phase_counts (u : hpg_stepgen_instance_t) (p : PRU_task_stepgen_t)
    (w : Nat) :
    ({ u with pru := p, written_phase := w } : hpg_stepgen_instance_t).subcounts =
      u.subcounts ∧
    ({ u with pru := p, written_phase := w } : hpg_stepgen_instance_t).prev_accumulator =
      u.prev_accumulator :=
  ⟨rfl, rfl⟩

theorem create_lut_counts (s : hpg_stepgen_instance_t) :
    (create_lut_instance s).subcounts = s.subcounts ∧
    (create_lut_instance s).prev_accumulator = s.prev_accumulator := by
  simp only [create_lut_instance]
  split <;> exact ⟨rfl, rfl⟩

theorem update_dirhold_counts (pru_period : Int) (s : hpg_stepgen_instance_t) :
    (update_dirhold pru_period s).1.subcounts = s.subcounts ∧
    (update_dirhold pru_period s).1.prev_accumulator = s.prev_accumulator := by
  unfold update_dirhold
  split <;> exact ⟨rfl, rfl⟩

theorem update_steplen_counts (pru_period : Int) (s : hpg_stepgen_instance_t) :
    (update_steplen pru_period s).1.subcounts = s.subcounts ∧
    (update_steplen pru_period s).1.prev_accumulator = s.prev_accumulator := by
  unfold update_steplen
  split <;> exact ⟨rfl, rfl⟩

theorem update_task_counts (s : hpg_stepgen_instance_t) :
    (update_task s).1.subcounts = s.subcounts ∧
    (update_task s).1.prev_accumulator = s.prev_accumulator := by
  unfold update_task
  split <;> exact ⟨rfl, rfl⟩

theorem stepdir_update_pins_counts (s : hpg_stepgen_instance_t) :
    (stepdir_update_pins s).subcounts = s.subcounts ∧
    (stepdir_update_pins s).prev_accumulator = s.prev_accumulator := by
  simp only [stepdir_update_pins]
  split_ifs <;> exact ⟨rfl, rfl⟩

theorem stepphase_update_pins_counts (s : hpg_stepgen_instance_t) :
    (stepphase_update_pins s).subcounts = s.subcounts ∧
    (stepphase_update_pins s).prev_accumulator = s.prev_accumulator := by
  simp only [stepphase_update_pins]
  split_ifs <;> exact ⟨rfl, rfl⟩

theorem stepdir_update_counts (pru_period : Int) (s : hpg_stepgen_instance_t) :
    (hpg_stepdir_update pru_period s).1.subcounts = s.subcounts ∧
    (hpg_stepdir_update pru_period s).1.prev_accumulator = s.prev_accumulator := by
  have h0 := stepdir_update_pins_counts s
  have h1 : ∀ t : hpg_stepgen_instance_t,
      (stepdir_update_dirsetup pru_period t).1.subcounts = t.subcounts ∧
      (stepdir_update_dirsetup pru_period t).1.prev_accumulator = t.prev_accumulator := by
    intro t; unfold stepdir_update_dirsetup; split <;> exact ⟨rfl, rfl⟩
  have h2 : ∀ t : hpg_stepgen_instance_t,
      (stepdir_update_stepspace pru_period t).1.subcounts = t.subcounts ∧
      (stepdir_update_stepspace pru_period t).1.prev_accumulator = t.prev_accumulator := by
    intro t; unfold stepdir_update_stepspace; split <;> exact ⟨rfl, rfl⟩
  have h3 : ∀ t : hpg_stepgen_instance_t,
      (stepdir_update_stepinv t).1.subcounts = t.subcounts ∧
      (stepdir_update_stepinv t).1.prev_accumulator = t.prev_accumulator := by
    intro t; unfold stepdir_update_stepinv; split <;> exact ⟨rfl, rfl⟩
  simp only [hpg_stepdir_update]
  rw [(h3 _).1, (h3 _).2, (h2 _).1, (h2 _).2, (h1 _).1, (h1 _).2]
  exact h0

theorem stepphase_update_counts (s : hpg_stepgen_instance_t) :
    (hpg_stepphase_update s).1.subcounts = s.subcounts ∧
    (hpg_stepphase_update s).1.prev_accumulator = s.prev_accumulator := by
  have h0 := stepphase_update_pins_counts s
  have h1 : ∀ t : hpg_stepgen_instance_t,
      (stepphase_update_pin_c t).1.subcounts = t.subcounts ∧
      (stepphase_update_pin_c t).1.prev_accumulator = t.prev_accumulator := by
    intro t; unfold stepphase_update_pin_c; split <;> exact ⟨rfl, rfl⟩
  have h2 : ∀ t : hpg_stepgen_instance_t,
      (stepphase_update_pin_d t).1.subcounts = t.subcounts ∧
      (stepphase_update_pin_d t).1.prev_accumulator = t.prev_accumulator := by
    intro t; unfold stepphase_update_pin_d; split <;> exact ⟨rfl, rfl⟩
  have h3 : ∀ t : hpg_stepgen_instance_t,
      (stepphase_update_lut t).1.subcounts = t.subcounts ∧
      (stepphase_update_lut t).1.prev_accumulator = t.prev_accumulator := by
    intro t; unfold stepphase_update_lut
    split
    · have h := create_lut_counts t
      have h2 := with_pru_written_phase_counts (create_lut_instance t)
        { (create_lut_instance t).pru with lut := create_lut t }
        (phase_type (create_lut_instance t).param)
      exact ⟨h2.1.trans h.1, h2.2.trans h.2⟩
    · exact ⟨rfl, rfl⟩
  simp only [hpg_stepphase_update]
  rw [(h3 _).1, (h3 _).2, (h2 _).1, (h2 _).2, (h1 _).1, (h1 _).2]
  exact h0

theorem updateclass_counts (pru_period : Int) (s : hpg_stepgen_instance_t) :
    (stepgen_updateclass pru_period s).1.subcounts = s.subcounts ∧
    (stepgen_updateclass pru_period s).1.prev_accumulator = s.prev_accumulator := by
  unfold stepgen_updateclass
  split
  · exact stepdir_update_counts pru_period s
  · exact stepphase_update_counts s

theorem update_instance_counts (pru_period l_period_ns : Int) (s : hpg_stepgen_instance_t) :
    (hpg_stepgen_update_instance pru_period l_period_ns s).1.subcounts = s.subcounts ∧
    (hpg_stepgen_update_instance pru_period l_period_ns s).1.prev_accumulator =
      s.prev_accumulator := by
  simp only [hpg_stepgen_update_instance]
  rw [(update_task_counts _).1, (update_task_counts _).2, (updateclass_counts _ _).1,
    (updateclass_counts _ _).2, (update_steplen_counts _ _).1, (update_steplen_counts _ _).2,
    (update_dirhold_counts _ _).1, (update_dirhold_counts _ _).2]
  exact update_enable_counts pru_period l_period_ns s

theorem force_write_stepphase_counts (pru_period : Int) (s : hpg_stepgen_instance_t) :
    (force_write_stepphase pru_period s).subcounts = s.subcounts ∧
    (force_write_stepphase pru_period s).prev_accumulator = s.prev_accumulator := by
  have h0 : (force_write_stepphase_pins pru_period s).subcounts = s.subcounts ∧
      (force_write_stepphase_pins pru_period s).prev_accumulator = s.prev_accumulator :=
    ⟨rfl, rfl⟩
  have h1 := create_lut_counts (force_write_stepphase_pins pru_period s)
  have h2 := with_pru_counts (create_lut_instance (force_write_stepphase_pins pru_period s))
    { (create_lut_instance (force_write_stepphase_pins pru_period s)).pru with
      lut := create_lut (force_write_stepphase_pins pru_period s) }
  exact ⟨h2.1.trans (h1.1.trans h0.1), h2.2.trans (h1.2.trans h0.2)⟩

theorem force_write_shadow_counts (pru_period : Int) (s : hpg_stepgen_instance_t) :
    (force_write_shadow pru_period s).subcounts = s.subcounts ∧
    (force_write_shadow pru_period s).prev_accumulator = s.prev_accumulator := by
  have key : ∀ r : hpg_stepgen_instance_t,
      r.subcounts = s.subcounts ∧ r.prev_accumulator = s.prev_accumulator →
      ({ r with pru := { r.pru with accum := 0, pos := 0, reserved1 := 0 } } :
        hpg_stepgen_instance_t).subcounts = s.subcounts ∧
      ({ r with pru := { r.pru with accum := 0, pos := 0, reserved1 := 0 } } :
        hpg_stepgen_instance_t).prev_accumulator = s.prev_accumulator :=
    fun r h => h
  unfold force_write_shadow
  apply key
  split
  · exact ⟨rfl, rfl⟩
  · split
    · exact force_write_stepphase_counts pru_period s
    · exact ⟨rfl, rfl⟩

theorem force_write_instance_counts (pru_period : Int) (s : hpg_stepgen_instance_t) :
    (hpg_stepgen_force_write_instance pru_period s).1.subcounts = s.subcounts ∧
    (hpg_stepgen_force_write_instance pru_period s).1.prev_accumulator =
      s.prev_accumulator :=
  force_write_shadow_counts pru_period s

theorem read_instance_counts (x : Int) (s : hpg_stepgen_instance_t) :
    (hpg_stepgen_read_instance x s).subcounts =
      toU64 ((s.subcounts : Int) +
        acc_delta (acc_of (toU32 x) (toU32 (x / 4294967296))) s.prev_accumulator) ∧
    (hpg_stepgen_read_instance x s).prev_accumulator =
      acc_of (toU32 x) (toU32 (x / 4294967296)) := ⟨rfl, rfl⟩

theorem read_getElem? (hpg : hal_pru_generic_t) (reads : Nat → Int) (i : Nat)
    (s : hpg_stepgen_instance_t) (h : hpg.stepgen[i]? = some s) :
    (hpg_stepgen_read hpg reads).stepgen[i]? = some (hpg_stepgen_read_instance (reads i) s) := by
  have hi : i < hpg.stepgen.length := (List.getElem?_eq_some.1 h).1
  simp only [hpg_stepgen_read]
  rw [List.getElem?_zipWith, h, List.getElem?_range hi]

/-- C8: `subcounts` moves only in `hpg_stepgen_read`. A read replaces the `subcounts` of
every channel by `subcounts + corrected delta` modulo 2^64 and stores the new 16.16
reading in `prev_accumulator`; `hpg_stepgen_update` (whatever the enable inputs are) and
`hpg_stepgen_force_write` leave `subcounts` and `prev_accumulator` of every channel as
they were. -/
theorem subcounts_changed_only_by_read (hpg : hal_pru_generic_t) (reads : Nat → Int)
    (l_period_ns : Int) :
    (hpg_stepgen_read hpg reads).stepgen.length = hpg.stepgen.length ∧
    (∀ i s, hpg.stepgen[i]? = some s →
      ∃ s', (hpg_stepgen_read hpg reads).stepgen[i]? = some s' ∧
        s'.subcounts =
          toU64 ((s.subcounts : Int) +
            acc_delta (acc_of (toU32 (reads i)) (toU32 (reads i / 4294967296)))
              s.prev_accumulator) ∧
        s'.prev_accumulator = acc_of (toU32 (reads i)) (toU32 (reads i / 4294967296))) ∧
    (hpg_stepgen_update hpg l_period_ns).1.stepgen.map
        (fun s => (s.subcounts, s.prev_accumulator)) =
      hpg.stepgen.map (fun s => (s.subcounts, s.prev_accumulator)) ∧
    (hpg_stepgen_force_write hpg).1.stepgen.map
        (fun s => (s.subcounts, s.prev_accumulator)) =
      hpg.stepgen.map (fun s => (s.subcounts, s.prev_accumulator)) := by
  refine ⟨?_, ?_, ?_, ?_⟩
  · simp [hpg_stepgen_read]
  · intro i s h
    exact ⟨_, read_getElem? hpg reads i s h, read_instance_counts (reads i) s⟩
  · simp only [hpg_stepgen_update, List.map_map]
    apply List.map_congr_left
    intro s _
    have h := update_instance_counts hpg.pru_period l_period_ns s
    simp only [Function.comp_apply, h.1, h.2]
  · simp only [hpg_stepgen_force_write, List.map_map]
    apply List.map_congr_left
    intro s _
    have h := force_write_instance_counts hpg.pru_period s
    simp only [Function.comp_apply, h.1, h.2]

theorem subcounts_changed_only_by_read_witness :
    ∃ s', (hpg_stepgen_read ⟨10000, [new_channel 10000 updateclass_t.stepdir 12]⟩
        (fun _ => 0x8000)).stepgen[0]? = some s' ∧
      s'.subcounts =
        toU64 (((new_channel 10000 updateclass_t.stepdir 12).subcounts : Int) +
          acc_delta (acc_of (toU32 0x8000) (toU32 (0x8000 / 4294967296)))
            (new_channel 10000 updateclass_t.stepdir 12).prev_accumulator) ∧
      s'.prev_accumulator = acc_of (toU32 0x8000) (toU32 (0x8000 / 4294967296)) :=
  (subcounts_changed_only_by_read ⟨10000, [new_channel 10000 updateclass_t.stepdir 12]⟩
    (fun _ => 0x8000) 10000).2.1 0 (new_channel 10000 updateclass_t.stepdir 12) rfl

/-! ## Change-tracked publish: lemmas -/

theorem writes_to_append (f : pru_field) (a b : List pru_write) :
    writes_to f (a ++ b) = writes_to f a ++ writes_to f b := by
  simp [writes_to, List.filterMap_append]

theorem writes_to_nil (f : pru_field) : writes_to f [] = [] := rfl

theorem writes_to_single (f g : pru_field) (v : Nat) :
    writes_to f [pru_write.field g v] = if g = f then [v] else [] := by
  by_cases h : g = f <;> simp [writes_to, h]

theorem tracking_update_stepgen (pru_period l_period_ns : Int) (s : hpg_stepgen_instance_t) :
    tracking (update_stepgen pru_period l_period_ns s) = tracking s := by
  simp only [update_stepgen]
  split <;> rfl

theorem tracking_update_enable (pru_period l_period_ns : Int) (s : hpg_stepgen_instance_t) :
    tracking (update_enable pru_period l_period_ns s) = tracking s := by
  unfold update_enable
  split
  · rfl
  · exact tracking_update_stepgen pru_period l_period_ns s

theorem tracking_update_dirhold (pru_period : Int) (s : hpg_stepgen_instance_t) :
    tracking (update_dirhold pru_period s).1 =
      { tracking s with written_dirhold := s.param.dirhold } := by
  unfold update_dirhold
  split
  · rfl
  · next h =>
    have e : s.param.dirhold = s.written_dirhold := not_not.1 h
    simp only [tracking, e]

theorem log_update_dirhold (pru_period : Int) (s : hpg_stepgen_instance_t) :
    (update_dirhold pru_period s).2 =
      if s.param.dirhold ≠ s.written_dirhold then
        [pru_write.field pru_field.dirhold (ns2periods pru_period s.param.dirhold)]
      else [] := by
  unfold update_dirhold
  split <;> rfl

theorem tracking_update_steplen (pru_period : Int) (s : hpg_stepgen_instance_t) :
    tracking (update_steplen pru_period s).1 =
      { tracking s with written_steplen := s.param.steplen } := by
  unfold update_steplen
  split
  · rfl
  · next h =>
    have e : s.param.steplen = s.written_steplen := not_not.1 h
    simp only [tracking, e]

theorem log_update_steplen (pru_period : Int) (s : hpg_stepgen_instance_t) :
    (update_steplen pru_period s).2 =
      if s.param.steplen ≠ s.written_steplen then
        [pru_write.field pru_field.steplen (ns2periods pru_period s.param.steplen)]
      else [] := by
  unfold update_steplen
  split <;> rfl

theorem tracking_update_task (s : hpg_stepgen_instance_t) :
    tracking (update_task s).1 = { tracking s with written_task := task_dword0 s.pru } := by
  unfold update_task
  split
  · rfl
  · next h =>
    have e : task_dword0 s.pru = s.written_task := not_not.1 h
    simp only [tracking, e]

theorem log_update_task (s : hpg_stepgen_instance_t) :
    (update_task s).2 =
      if task_dword0 s.pru ≠ s.written_task then
        [pru_write.field pru_field.dword0 (task_dword0 s.pru)]
      else [] := by
  unfold update_task
  split <;> rfl

theorem pru_update_task (s : hpg_stepgen_instance_t) : (update_task s).1.pru = s.pru := by
  unfold update_task
  split <;> rfl

theorem writes_to_ite (f g : pru_field) (v : Nat) (c : Prop) [Decidable c] :
    writes_to f (if c then [pru_write.field g v] else []) =
      if c then (if g = f then [v] else []) else [] := by
  by_cases h : c
  · simp only [h, if_true, writes_to_single]
  · simp only [h, if_false, writes_to_nil]

theorem tracking_stepdir_update_pins (s : hpg_stepgen_instance_t) :
    tracking (stepdir_update_pins s) = tracking s := by
  simp only [stepdir_update_pins]
  split_ifs <;> rfl

theorem tracking_stepdir_update_dirsetup (pru_period : Int) (s : hpg_stepgen_instance_t) :
    tracking (stepdir_update_dirsetup pru_period s).1 =
      { tracking s with written_dirsetup := dir_dirsetup s.param } := by
  unfold stepdir_update_dirsetup
  split
  · rfl
  · next h =>
    have e : dir_dirsetup s.param = s.written_dirsetup := not_not.1 h
    simp only [tracking, e]

theorem log_stepdir_update_dirsetup (pru_period : Int) (s : hpg_stepgen_instance_t) :
    (stepdir_update_dirsetup pru_period s).2 =
      if dir_dirsetup s.param ≠ s.written_dirsetup then
        [pru_write.field pru_field.dirsetup (ns2periods pru_period (dir_dirsetup s.param))]
      else [] := by
  unfold stepdir_update_dirsetup
  split <;> rfl

theorem tracking_stepdir_update_stepspace (pru_period : Int) (s : hpg_stepgen_instance_t) :
    tracking (stepdir_update_stepspace pru_period s).1 =
      { tracking s with written_stepspace := dir_stepspace s.param } := by
  unfold stepdir_update_stepspace
  split
  · rfl
  · next h =>
    have e : dir_stepspace s.param = s.written_stepspace := not_not.1 h
    simp only [tracking, e]

theorem log_stepdir_update_stepspace (pru_period : Int) (s : hpg_stepgen_instance_t) :
    (stepdir_update_stepspace pru_period s).2 =
      if dir_stepspace s.param ≠ s.written_stepspace then
        [pru_write.field pru_field.stepspace (ns2periods pru_period (dir_stepspace s.param))]
      else [] := by
  unfold stepdir_update_stepspace
  split <;> rfl

theorem tracking_stepdir_update_stepinv (s : hpg_stepgen_instance_t) :
    tracking (stepdir_update_stepinv s).1 = tracking s := by
  unfold stepdir_update_stepinv
  split <;> rfl

theorem log_stepdir_update_stepinv (s : hpg_stepgen_instance_t) :
    (stepdir_update_stepinv s).2 =
      if step_inv s.pru ≠ dir_stepinv s.param then
        [pru_write.field pru_field.step_inv
          (step_inv (set_step_inv s.pru (dir_stepinv s.param)))]
      else [] := by
  unfold stepdir_update_stepinv
  split <;> rfl

/-- The stores of `hpg_stepdir_update` to each member. -/
theorem writes_stepdir_update (pru_period : Int) (s : hpg_stepgen_instance_t) :
    writes_to pru_field.dirsetup (hpg_stepdir_update pru_period s).2 =
      (if dir_dirsetup s.param ≠ s.written_dirsetup then
        [ns2periods pru_period (dir_dirsetup s.param)] else []) ∧
    writes_to pru_field.stepspace (hpg_stepdir_update pru_period s).2 =
      (if dir_stepspace s.param ≠ s.written_stepspace then
        [ns2periods pru_period (dir_stepspace s.param)] else []) ∧
    writes_to pru_field.steplen (hpg_stepdir_update pru_period s).2 = [] ∧
    writes_to pru_field.dirhold (hpg_stepdir_update pru_period s).2 = [] ∧
    writes_to pru_field.dword0 (hpg_stepdir_update pru_period s).2 = [] := by
  have t0 := tracking_stepdir_update_pins s
  have t1 := tracking_stepdir_update_dirsetup pru_period (stepdir_update_pins s)
  have a1 : dir_dirsetup (stepdir_update_pins s).param = dir_dirsetup s.param :=
    congrArg tracking_t.dirsetup t0
  have a2 : (stepdir_update_pins s).written_dirsetup = s.written_dirsetup :=
    congrArg tracking_t.written_dirsetup t0
  have b1 : dir_stepspace (stepdir_update_dirsetup pru_period (stepdir_update_pins s)).1.param =
      dir_stepspace s.param :=
    (congrArg tracking_t.stepspace t1).trans (congrArg tracking_t.stepspace t0)
  have b2 : (stepdir_update_dirsetup pru_period (stepdir_update_pins s)).1.written_stepspace =
      s.written_stepspace :=
    (congrArg tracking_t.written_stepspace t1).trans (congrArg tracking_t.written_stepspace t0)
  simp only [hpg_stepdir_update, writes_to_append, log_stepdir_update_dirsetup,
    log_stepdir_update_stepspace, log_stepdir_update_stepinv, writes_to_ite, a1, a2, b1, b2]
  simp

theorem tracking_stepdir_update (pru_period : Int) (s : hpg_stepgen_instance_t) :
    tracking (hpg_stepdir_update pru_period s).1 =
      { tracking s with written_dirsetup := dir_dirsetup s.param,
                        written_stepspace := dir_stepspace s.param } := by
  have t0 := tracking_stepdir_update_pins s
  have t1 := tracking_stepdir_update_dirsetup pru_period (stepdir_update_pins s)
  have t2 := tracking_stepdir_update_stepspace pru_period
    (stepdir_update_dirsetup pru_period (stepdir_update_pins s)).1
  have t3 := tracking_stepdir_update_stepinv
    (stepdir_update_stepspace pru_period
      (stepdir_update_dirsetup pru_period (stepdir_update_pins s)).1).1
  have a1 : dir_dirsetup (stepdir_update_pins s).param = dir_dirsetup s.param :=
    congrArg tracking_t.dirsetup t0
  have b1 : dir_stepspace (stepdir_update_dirsetup pru_period (stepdir_update_pins s)).1.param =
      dir_stepspace s.param :=
    (congrArg tracking_t.stepspace t1).trans (congrArg tracking_t.stepspace t0)
  simp only [hpg_stepdir_update]
  rw [t3, t2, t1, t0, a1, b1]

theorem tracking_with_pru (u : hpg_stepgen_instance_t) (p : PRU_task_stepgen_t) :
    tracking { u with pru := p } = tracking u := rfl

theorem tracking_with_pru_written_phase (u : hpg_stepgen_instance_t) (p : PRU_task_stepgen_t)
    (w : Nat) : tracking { u with pru := p, written_phase := w } = tracking u := rfl

theorem tracking_create_lut_instance (s : hpg_stepgen_instance_t) :
    tracking (create_lut_instance s) = tracking s := by
  simp only [create_lut_instance]
  split <;> rfl

theorem tracking_stepphase_update_pins (s : hpg_stepgen_instance_t) :
    tracking (stepphase_update_pins s) = tracking s := by
  simp only [stepphase_update_pins]
  split_ifs <;> rfl

theorem tracking_stepphase_update_pin_c (s : hpg_stepgen_instance_t) :
    tracking (stepphase_update_pin_c s).1 = tracking s := by
  unfold stepphase_update_pin_c
  split <;> rfl

theorem log_stepphase_update_pin_c (s : hpg_stepgen_instance_t) :
    (stepphase_update_pin_c s).2 =
      if phase_pin_c s.param ≠ pin_c s.pru then
        [pru_write.field pru_field.pin_c (pin_c (set_pin_c s.pru (phase_pin_c s.param)))]
      else [] := by
  unfold stepphase_update_pin_c
  split <;> rfl

theorem tracking_stepphase_update_pin_d (s : hpg_stepgen_instance_t) :
    tracking (stepphase_update_pin_d s).1 = tracking s := by
  unfold stepphase_update_pin_d
  split <;> rfl

theorem log_stepphase_update_pin_d (s : hpg_stepgen_instance_t) :
    (stepphase_update_pin_d s).2 =
      if phase_pin_d s.param ≠ pin_d s.pru then
        [pru_write.field pru_field.pin_d (pin_d (set_pin_d s.pru (phase_pin_d s.param)))]
      else [] := by
  unfold stepphase_update_pin_d
  split <;> rfl

theorem tracking_stepphase_update_lut (s : hpg_stepgen_instance_t) :
    tracking (stepphase_update_lut s).1 = tracking s := by
  unfold stepphase_update_lut
  split
  · exact (tracking_with_pru_written_phase (create_lut_instance s)
      { (create_lut_instance s).pru with lut := create_lut s }
      (phase_type (create_lut_instance s).param)).trans (tracking_create_lut_instance s)
  · rfl

theorem log_stepphase_update_lut (s : hpg_stepgen_instance_t) :
    (stepphase_update_lut s).2 =
      if phase_type s.param ≠ s.written_phase then
        [pru_write.field pru_field.lut (create_lut s)]
      else [] := by
  unfold stepphase_update_lut
  split <;> rfl

theorem tracking_stepphase_update (s : hpg_stepgen_instance_t) :
    tracking (hpg_stepphase_update s).1 = tracking s := by
  simp only [hpg_stepphase_update]
  rw [tracking_stepphase_update_lut, tracking_stepphase_update_pin_d,
    tracking_stepphase_update_pin_c, tracking_stepphase_update_pins]

/-- `hpg_stepphase_update` stores to none of the tracked timing members and not to the
control word. -/
theorem writes_stepphase_update (s : hpg_stepgen_instance_t) :
    writes_to pru_field.dirsetup (hpg_stepphase_update s).2 = [] ∧
    writes_to pru_field.stepspace (hpg_stepphase_update s).2 = [] ∧
    writes_to pru_field.steplen (hpg_stepphase_update s).2 = [] ∧
    writes_to pru_field.dirhold (hpg_stepphase_update s).2 = [] ∧
    writes_to pru_field.dword0 (hpg_stepphase_update s).2 = [] := by
  simp only [hpg_stepphase_update, writes_to_append, log_stepphase_update_pin_c,
    log_stepphase_update_pin_d, log_stepphase_update_lut, writes_to_ite]
  simp

theorem writes_updateclass (pru_period : Int) (s : hpg_stepgen_instance_t) :
    writes_to pru_field.steplen (stepgen_updateclass pru_period s).2 = [] ∧
    writes_to pru_field.dirhold (stepgen_updateclass pru_period s).2 = [] ∧
    writes_to pru_field.dword0 (stepgen_updateclass pru_period s).2 = [] := by
  unfold stepgen_updateclass
  split
  · exact ⟨(writes_stepdir_update pru_period s).2.2.1, (writes_stepdir_update pru_period s).2.2.2.1,
      (writes_stepdir_update pru_period s).2.2.2.2⟩
  · exact ⟨(writes_stepphase_update s).2.2.1, (writes_stepphase_update s).2.2.2.1,
      (writes_stepphase_update s).2.2.2.2⟩

theorem updateclass_stepdir (pru_period : Int) (s : hpg_stepgen_instance_t)
    (h : s.stepgen_updateclass = updateclass_t.stepdir) :
    stepgen_updateclass pru_period s = hpg_stepdir_update pru_period s := by
  unfold stepgen_updateclass
  rw [h]

theorem tracking_updateclass (pru_period : Int) (s : hpg_stepgen_instance_t) :
    tracking (stepgen_updateclass pru_period s).1 =
      (match s.stepgen_updateclass with
       | updateclass_t.stepdir =>
         { tracking s with written_dirsetup := dir_dirsetup s.param,
                           written_stepspace := dir_stepspace s.param }
       | updateclass_t.stepphase => tracking s) := by
  unfold stepgen_updateclass
  split
  · exact tracking_stepdir_update pru_period s
  · exact tracking_stepphase_update s

/-- One update of one instance, seen on the tracked members: a member is stored exactly
when its pending value differs from the remembered one, the stored value is the pending
one (`ns2periods` of the parameter for a timing member), and afterwards the remembered
value is the pending one. -/
theorem update_instance_publish (pru_period l_period_ns : Int) (s : hpg_stepgen_instance_t) :
    (writes_to pru_field.steplen (hpg_stepgen_update_instance pru_period l_period_ns s).2 =
        (if s.param.steplen ≠ s.written_steplen then
          [ns2periods pru_period s.param.steplen] else []) ∧
      (hpg_stepgen_update_instance pru_period l_period_ns s).1.written_steplen =
        s.param.steplen) ∧
    (writes_to pru_field.dirhold (hpg_stepgen_update_instance pru_period l_period_ns s).2 =
        (if s.param.dirhold ≠ s.written_dirhold then
          [ns2periods pru_period s.param.dirhold] else []) ∧
      (hpg_stepgen_update_instance pru_period l_period_ns s).1.written_dirhold =
        s.param.dirhold) ∧
    (writes_to pru_field.dword0 (hpg_stepgen_update_instance pru_period l_period_ns s).2 =
        (if task_dword0 (hpg_stepgen_update_instance pru_period l_period_ns s).1.pru ≠
            s.written_task then
          [task_dword0 (hpg_stepgen_update_instance pru_period l_period_ns s).1.pru] else []) ∧
      (hpg_stepgen_update_instance pru_period l_period_ns s).1.written_task =
        task_dword0 (hpg_stepgen_update_instance pru_period l_period_ns s).1.pru) ∧
    (s.stepgen_updateclass = updateclass_t.stepdir →
      (writes_to pru_field.stepspace (hpg_stepgen_update_instance pru_period l_period_ns s).2 =
          (if dir_stepspace s.param ≠ s.written_stepspace then
            [ns2periods pru_period (dir_stepspace s.param)] else []) ∧
        (hpg_stepgen_update_instance pru_period l_period_ns s).1.written_stepspace =
          dir_stepspace s.param) ∧
      (writes_to pru_field.dirsetup (hpg_stepgen_update_instance pru_period l_period_ns s).2 =
          (if dir_dirsetup s.param ≠ s.written_dirsetup then
            [ns2periods pru_period (dir_dirsetup s.param)] else []) ∧
        (hpg_stepgen_update_instance pru_period l_period_ns s).1.written_dirsetup =
          dir_dirsetup s.param)) := by
  have e0 := tracking_update_enable pru_period l_period_ns s
  simp only [hpg_stepgen_update_instance]
  generalize update_enable pru_period l_period_ns s = s0 at e0 ⊢
  have e1 := tracking_update_dirhold pru_period s0
  have l1 := log_update_dirhold pru_period s0
  generalize update_dirhold pru_period s0 = r1 at e1 l1 ⊢
  have e2 := tracking_update_steplen pru_period r1.1
  have l2 := log_update_steplen pru_period r1.1
  generalize update_steplen pru_period r1.1 = r2 at e2 l2 ⊢
  have e3 := tracking_updateclass pru_period r2.1
  have w3 := writes_updateclass pru_period r2.1
  have d3 := writes_stepdir_update pru_period r2.1
  have c3 := updateclass_stepdir pru_period r2.1
  generalize stepgen_updateclass pru_period r2.1 = r3 at e3 w3 c3 ⊢
  have e4 := tracking_update_task r3.1
  have l4 := log_update_task r3.1
  have p4 := pru_update_task r3.1
  generalize update_task r3.1 = r4 at e4 l4 p4 ⊢
  -- the tracked fields, stage by stage
  have a1 : r1.1.param.steplen = s.param.steplen :=
    (congrArg tracking_t.steplen e1).trans (congrArg tracking_t.steplen e0)
  have a2 : r1.1.written_steplen = s.written_steplen :=
    (congrArg tracking_t.written_steplen e1).trans (congrArg tracking_t.written_steplen e0)
  have a3 : s0.param.dirhold = s.param.dirhold := congrArg tracking_t.dirhold e0
  have a4 : s0.written_dirhold = s.written_dirhold := congrArg tracking_t.written_dirhold e0
  have a5 : r2.1.stepgen_updateclass = s.stepgen_updateclass :=
    (congrArg tracking_t.cls e2).trans
      ((congrArg tracking_t.cls e1).trans (congrArg tracking_t.cls e0))
  have a6 : r3.1.written_task = s.written_task := by
    have h3 : r3.1.written_task = r2.1.written_task := by
      have := congrArg tracking_t.written_task e3
      revert this
      cases r2.1.stepgen_updateclass <;> exact fun h => h
    exact h3.trans ((congrArg tracking_t.written_task e2).trans
      ((congrArg tracking_t.written_task e1).trans (congrArg tracking_t.written_task e0)))
  have b1 : r4.1.written_steplen = s.param.steplen := by
    have h4 : r4.1.written_steplen = r3.1.written_steplen :=
      congrArg tracking_t.written_steplen e4
    have h3 : r3.1.written_steplen = r2.1.written_steplen := by
      have := congrArg tracking_t.written_steplen e3
      revert this
      cases r2.1.stepgen_updateclass <;> exact fun h => h
    have h2 : r2.1.written_steplen = r1.1.param.steplen :=
      congrArg tracking_t.written_steplen e2
    exact h4.trans (h3.trans (h2.trans a1))
  have b2 : r4.1.written_dirhold = s.param.dirhold := by
    have h4 : r4.1.written_dirhold = r3.1.written_dirhold :=
      congrArg tracking_t.written_dirhold e4
    have h3 : r3.1.written_dirhold = r2.1.written_dirhold := by
      have := congrArg tracking_t.written_dirhold e3
      revert this
      cases r2.1.stepgen_updateclass <;> exact fun h => h
    have h2 : r2.1.written_dirhold = r1.1.written_dirhold :=
      congrArg tracking_t.written_dirhold e2
    have h1 : r1.1.written_dirhold = s0.param.dirhold :=
      congrArg tracking_t.written_dirhold e1
    exact h4.trans (h3.trans (h2.trans (h1.trans a3)))
  have b3 : r4.1.written_task = task_dword0 r3.1.pru := congrArg tracking_t.written_task e4
  refine ⟨⟨?_, b1⟩, ⟨?_, b2⟩, ⟨?_, ?_⟩, ?_⟩
  · simp only [writes_to_append, l1, l2, l4, w3.1, writes_to_ite, writes_to_single, a1, a2]
    simp
  · simp only [writes_to_append, l1, l2, l4, w3.2.1, writes_to_ite, writes_to_single, a3, a4]
    simp
  · simp only [writes_to_append, l1, l2, l4, w3.2.2, writes_to_ite, writes_to_single, a6, p4]
    simp
  · rw [b3, p4]
  · intro hcls
    have hc : r2.1.stepgen_updateclass = updateclass_t.stepdir := a5.trans hcls
    have hr3 := c3 hc
    rw [hc] at e3
    have s1 : dir_stepspace r2.1.param = dir_stepspace s.param :=
      (congrArg tracking_t.stepspace e2).trans
        ((congrArg tracking_t.stepspace e1).trans (congrArg tracking_t.stepspace e0))
    have s2 : r2.1.written_stepspace = s.written_stepspace :=
      (congrArg tracking_t.written_stepspace e2).trans
        ((congrArg tracking_t.written_stepspace e1).trans
          (congrArg tracking_t.written_stepspace e0))
    have s3 : dir_dirsetup r2.1.param = dir_dirsetup s.param :=
      (congrArg tracking_t.dirsetup e2).trans
        ((congrArg tracking_t.dirsetup e1).trans (congrArg tracking_t.dirsetup e0))
    have s4 : r2.1.written_dirsetup = s.written_dirsetup :=
      (congrArg tracking_t.written_dirsetup e2).trans
        ((congrArg tracking_t.written_dirsetup e1).trans
          (congrArg tracking_t.written_dirsetup e0))
    have f1 : r4.1.written_stepspace = dir_stepspace s.param :=
      (congrArg tracking_t.written_stepspace e4).trans
        ((congrArg tracking_t.written_stepspace e3).trans s1)
    have f2 : r4.1.written_dirsetup = dir_dirsetup s.param :=
      (congrArg tracking_t.written_dirsetup e4).trans
        ((congrArg tracking_t.written_dirsetup e3).trans s3)
    refine ⟨⟨?_, f1⟩, ⟨?_, f2⟩⟩
    · simp only [writes_to_append, l1, l2, l4, hr3, d3.2.1, writes_to_ite, writes_to_single,
        s1, s2]
      simp
    · simp only [writes_to_append, l1, l2, l4, hr3, d3.1, writes_to_ite, writes_to_single,
        s3, s4]
      simp

/-- An update changes none of the pending parameters of the tracked timing members, nor
the class of the instance. -/
theorem update_instance_pending (pru_period l_period_ns : Int) (s : hpg_stepgen_instance_t) :
    (hpg_stepgen_update_instance pru_period l_period_ns s).1.param.steplen = s.param.steplen ∧
    (hpg_stepgen_update_instance pru_period l_period_ns s).1.param.dirhold = s.param.dirhold ∧
    dir_stepspace (hpg_stepgen_update_instance pru_period l_period_ns s).1.param =
      dir_stepspace s.param ∧
    dir_dirsetup (hpg_stepgen_update_instance pru_period l_period_ns s).1.param =
      dir_dirsetup s.param ∧
    (hpg_stepgen_update_instance pru_period l_period_ns s).1.stepgen_updateclass =
      s.stepgen_updateclass := by
  have e0 := tracking_update_enable pru_period l_period_ns s
  simp only [hpg_stepgen_update_instance]
  generalize update_enable pru_period l_period_ns s = s0 at e0 ⊢
  have e1 := tracking_update_dirhold pru_period s0
  generalize update_dirhold pru_period s0 = r1 at e1 ⊢
  have e2 := tracking_update_steplen pru_period r1.1
  generalize update_steplen pru_period r1.1 = r2 at e2 ⊢
  have e3 := tracking_updateclass pru_period r2.1
  generalize stepgen_updateclass pru_period r2.1 = r3 at e3 ⊢
  have e4 := tracking_update_task r3.1
  generalize update_task r3.1 = r4 at e4 ⊢
  have k : ∀ g : tracking_t → Nat,
      (∀ t w, g { t with written_dirhold := w } = g t) →
      (∀ t w, g { t with written_steplen := w } = g t) →
      (∀ t w, g { t with written_task := w } = g t) →
      (∀ t w v, g { t with written_dirsetup := w, written_stepspace := v } = g t) →
      g (tracking r4.1) = g (tracking s) := by
    intro g g1 g2 g3 g4
    rw [e4, g3, e3]
    cases r2.1.stepgen_updateclass
    · simp only []
      rw [g4, e2, g2, e1, g1, e0]
    · simp only []
      rw [e2, g2, e1, g1, e0]
  have kc : (tracking r4.1).cls = (tracking s).cls := by
    rw [e4]
    show (tracking r3.1).cls = _
    rw [e3]
    cases r2.1.stepgen_updateclass
    · show (tracking r2.1).cls = _
      rw [e2]
      show (tracking r1.1).cls = _
      rw [e1]
      show (tracking s0).cls = _
      rw [e0]
    · show (tracking r2.1).cls = _
      rw [e2]
      show (tracking r1.1).cls = _
      rw [e1]
      show (tracking s0).cls = _
      rw [e0]
  exact ⟨k tracking_t.steplen (fun _ _ => rfl) (fun _ _ => rfl) (fun _ _ => rfl)
      (fun _ _ _ => rfl),
    k tracking_t.dirhold (fun _ _ => rfl) (fun _ _ => rfl) (fun _ _ => rfl) (fun _ _ _ => rfl),
    k tracking_t.stepspace (fun _ _ => rfl) (fun _ _ => rfl) (fun _ _ => rfl)
      (fun _ _ _ => rfl),
    k tracking_t.dirsetup (fun _ _ => rfl) (fun _ _ => rfl) (fun _ _ => rfl)
      (fun _ _ _ => rfl),
    kc⟩

/-- Change-tracked publish in the loop body of `hpg_stepgen_update` for steplen, dirhold, the
control word and, for a step/dir channel, stepspace and dirsetup. `s` is a channel at one
update and `s'` the same channel at the next update: whatever happened in between, its
remembered values are those the first update left. The first update stores the pending
value exactly when it differs from the remembered one; when the second update sees the
same pending value it makes no store to that member; when the pending value has changed
it makes one store, of the new value (`ns2periods` of the new parameter for the timing
members), and remembers the new pending value. -/
theorem update_instance_change_tracked (pru_period t1 t2 : Int) (s s' : hpg_stepgen_instance_t)
    (h1 : s'.written_steplen = (hpg_stepgen_update_instance pru_period t1 s).1.written_steplen)
    (h2 : s'.written_dirhold = (hpg_stepgen_update_instance pru_period t1 s).1.written_dirhold)
    (h3 : s'.written_stepspace =
      (hpg_stepgen_update_instance pru_period t1 s).1.written_stepspace)
    (h4 : s'.written_dirsetup = (hpg_stepgen_update_instance pru_period t1 s).1.written_dirsetup)
    (h5 : s'.written_task = (hpg_stepgen_update_instance pru_period t1 s).1.written_task) :
    (writes_to pru_field.steplen (hpg_stepgen_update_instance pru_period t1 s).2 =
        (if s.param.steplen ≠ s.written_steplen then
          [ns2periods pru_period s.param.steplen] else []) ∧
      (s'.param.steplen = s.param.steplen →
        writes_to pru_field.steplen (hpg_stepgen_update_instance pru_period t2 s').2 = []) ∧
      (s'.param.steplen ≠ s.param.steplen →
        writes_to pru_field.steplen (hpg_stepgen_update_instance pru_period t2 s').2 =
          [ns2periods pru_period s'.param.steplen] ∧
        (hpg_stepgen_update_instance pru_period t2 s').1.written_steplen = s'.param.steplen)) ∧
    (writes_to pru_field.dirhold (hpg_stepgen_update_instance pru_period t1 s).2 =
        (if s.param.dirhold ≠ s.written_dirhold then
          [ns2periods pru_period s.param.dirhold] else []) ∧
      (s'.param.dirhold = s.param.dirhold →
        writes_to pru_field.dirhold (hpg_stepgen_update_instance pru_period t2 s').2 = []) ∧
      (s'.param.dirhold ≠ s.param.dirhold →
        writes_to pru_field.dirhold (hpg_stepgen_update_instance pru_period t2 s').2 =
          [ns2periods pru_period s'.param.dirhold] ∧
        (hpg_stepgen_update_instance pru_period t2 s').1.written_dirhold = s'.param.dirhold)) ∧
    (writes_to pru_field.dword0 (hpg_stepgen_update_instance pru_period t1 s).2 =
        (if task_dword0 (hpg_stepgen_update_instance pru_period t1 s).1.pru ≠ s.written_task then
          [task_dword0 (hpg_stepgen_update_instance pru_period t1 s).1.pru] else []) ∧
      (task_dword0 (hpg_stepgen_update_instance pru_period t2 s').1.pru =
          task_dword0 (hpg_stepgen_update_instance pru_period t1 s).1.pru →
        writes_to pru_field.dword0 (hpg_stepgen_update_instance pru_period t2 s').2 = []) ∧
      (task_dword0 (hpg_stepgen_update_instance pru_period t2 s').1.pru ≠
          task_dword0 (hpg_stepgen_update_instance pru_period t1 s).1.pru →
        writes_to pru_field.dword0 (hpg_stepgen_update_instance pru_period t2 s').2 =
          [task_dword0 (hpg_stepgen_update_instance pru_period t2 s').1.pru] ∧
        (hpg_stepgen_update_instance pru_period t2 s').1.written_task =
          task_dword0 (hpg_stepgen_update_instance pru_period t2 s').1.pru)) ∧
    (s.stepgen_updateclass = updateclass_t.stepdir →
      s'.stepgen_updateclass = updateclass_t.stepdir →
      (writes_to pru_field.stepspace (hpg_stepgen_update_instance pru_period t1 s).2 =
          (if dir_stepspace s.param ≠ s.written_stepspace then
            [ns2periods pru_period (dir_stepspace s.param)] else []) ∧
        (dir_stepspace s'.param = dir_stepspace s.param →
          writes_to pru_field.stepspace (hpg_stepgen_update_instance pru_period t2 s').2 = []) ∧
        (dir_stepspace s'.param ≠ dir_stepspace s.param →
          writes_to pru_field.stepspace (hpg_stepgen_update_instance pru_period t2 s').2 =
            [ns2periods pru_period (dir_stepspace s'.param)] ∧
          (hpg_stepgen_update_instance pru_period t2 s').1.written_stepspace =
            dir_stepspace s'.param)) ∧
      (writes_to pru_field.dirsetup (hpg_stepgen_update_instance pru_period t1 s).2 =
          (if dir_dirsetup s.param ≠ s.written_dirsetup then
            [ns2periods pru_period (dir_dirsetup s.param)] else []) ∧
        (dir_dirsetup s'.param = dir_dirsetup s.param →
          writes_to pru_field.dirsetup (hpg_stepgen_update_instance pru_period t2 s').2 = []) ∧
        (dir_dirsetup s'.param ≠ dir_dirsetup s.param →
          writes_to pru_field.dirsetup (hpg_stepgen_update_instance pru_period t2 s').2 =
            [ns2periods pru_period (dir_dirsetup s'.param)] ∧
          (hpg_stepgen_update_instance pru_period t2 s').1.written_dirsetup =
            dir_dirsetup s'.param))) := by
  obtain ⟨⟨a1, a2⟩, ⟨b1, b2⟩, ⟨c1, c2⟩, d⟩ := update_instance_publish pru_period t1 s
  obtain ⟨⟨a1', a2'⟩, ⟨b1', b2'⟩, ⟨c1', c2'⟩, d'⟩ := update_instance_publish pru_period t2 s'
  rw [a2] at h1
  rw [b2] at h2
  rw [c2] at h5
  refine ⟨⟨a1, ?_, ?_⟩, ⟨b1, ?_, ?_⟩, ⟨c1, ?_, ?_⟩, ?_⟩
  · intro h
    rw [a1', h1, h]
    simp
  · intro h
    rw [a1', h1]
    exact ⟨by simp [h], a2'⟩
  · intro h
    rw [b1', h2, h]
    simp
  · intro h
    rw [b1', h2]
    exact ⟨by simp [h], b2'⟩
  · intro h
    rw [c1', h5, h]
    simp
  · intro h
    rw [c1', h5]
    exact ⟨by simp [h], c2'⟩
  · intro hs hs'
    obtain ⟨⟨x1, x2⟩, ⟨y1, y2⟩⟩ := d hs
    obtain ⟨⟨x1', x2'⟩, ⟨y1', y2'⟩⟩ := d' hs'
    rw [x2] at h3
    rw [y2] at h4
    refine ⟨⟨x1, ?_, ?_⟩, ⟨y1, ?_, ?_⟩⟩
    · intro h
      rw [x1', h3, h]
      simp
    · intro h
      rw [x1', h3]
      exact ⟨by simp [h], x2'⟩
    · intro h
      rw [y1', h4, h]
      simp
    · intro h
      rw [y1', h4]
      exact ⟨by simp [h], y2'⟩

/-! ## Position scale, step pattern table, matching acceleration: theorems -/

theorem double_1e_6_pos : 0 < double_1e_6 := by
  unfold double_1e_6
  norm_num

theorem double_1e_6_lt_one : double_1e_6 < 1 := by
  unfold double_1e_6
  norm_num

theorem sanitize_position_scale_bounds (q : Rat) :
    double_1e_6 ≤ |sanitize_position_scale q| ∧
    (0 ≤ q → 0 < sanitize_position_scale q) ∧
    (q < 0 → sanitize_position_scale q < 0) := by
  have hc := double_1e_6_pos
  have hc1 := double_1e_6_lt_one
  unfold sanitize_position_scale
  by_cases h1 : |q| < double_1e_6
  · by_cases h2 : q ≥ 0
    · simp only [h1, h2, if_true]
      refine ⟨?_, fun _ => by norm_num, fun h => absurd h2 (not_le.2 h)⟩
      rw [abs_one]
      exact le_of_lt hc1
    · simp only [h1, h2, if_true, if_false]
      refine ⟨?_, fun h => by first | exact absurd h h2 | exact h.elim, fun _ => by norm_num⟩
      rw [abs_neg, abs_one]
      exact le_of_lt hc1
  · simp only [h1, if_false]
    refine ⟨not_lt.1 h1, ?_, fun h => h⟩
    intro hq
    rw [abs_of_nonneg hq] at h1
    have := not_lt.1 h1
    linarith

/-- The loop body of `hpg_stepgen_read` sanitises `position_scale` before using it: a value of
magnitude below `1e-6` (the `double` constant) is replaced by 1.0 when it is >= 0 and by -1.0
when it is negative, any other value is kept, and the position feedback is divided by the
sanitised value. -/
theorem read_instance_position_scale (x : Int) (s : hpg_stepgen_instance_t) :
    (hpg_stepgen_read_instance x s).param.position_scale =
      (if |s.param.position_scale| < double_1e_6 then
        (if s.param.position_scale ≥ 0 then 1 else -1)
       else s.param.position_scale) ∧
    double_1e_6 ≤ |(hpg_stepgen_read_instance x s).param.position_scale| ∧
    (0 ≤ s.param.position_scale → 0 < (hpg_stepgen_read_instance x s).param.position_scale) ∧
    (s.param.position_scale < 0 → (hpg_stepgen_read_instance x s).param.position_scale < 0) ∧
    (hpg_stepgen_read_instance x s).pin.position_fb =
      (((hpg_stepgen_read_instance x s).subcounts : Rat) / 65536) /
        (hpg_stepgen_read_instance x s).param.position_scale := by
  have e : (hpg_stepgen_read_instance x s).param.position_scale =
      sanitize_position_scale s.param.position_scale := rfl
  have b := sanitize_position_scale_bounds s.param.position_scale
  refine ⟨rfl, ?_, ?_, ?_, rfl⟩
  · rw [e]; exact b.1
  · rw [e]; exact b.2.1
  · rw [e]; exact b.2.2

/-! ### `create_lut` -/

/-- For a step type code below 5 or above 12 `create_lut` falls back to type 6: row 1 of the
table, the word 0x9C639C63, and the parameter reset to 6. -/
theorem create_lut_fallback (s : hpg_stepgen_instance_t) (h32 : phase_type s.param < 4294967296)
    (h : phase_type s.param < 5 ∨ 12 < phase_type s.param) :
    create_lut_row s = 1 ∧ create_lut s = 0x9C639C63 ∧
    phase_type (create_lut_instance s).param = 6 := by
  have hrow : create_lut_row s = 1 := by
    simp only [create_lut_row]
    have hl : master_lut.length = 7 := rfl
    rw [hl]
    split_ifs with hc
    · rfl
    · omega
  refine ⟨hrow, ?_, ?_⟩
  · simp only [create_lut, hrow]
    decide
  · simp only [create_lut_instance]
    have hl : master_lut.length = 7 := rfl
    rw [hl]
    split_ifs with hc
    · rfl
    · omega

/-- C19 at the failing input, step type 12: `type = 12 - 5 = 7` passes the range check
`type > 7`, so the parameter stays 12 and `create_lut` indexes row 7 of the 7-row table
(rows 0..6), instead of falling back to type 6. -/
theorem create_lut_type_12_not_clamped :
    create_lut_row
      { new_channel 10000 updateclass_t.stepphase 12 with
        param := { (new_channel 10000 updateclass_t.stepphase 12).param with
          stepinv_type := 12 } } = 7 ∧
    master_lut.length = 7 ∧
    phase_type (create_lut_instance
      { new_channel 10000 updateclass_t.stepphase 12 with
        param := { (new_channel 10000 updateclass_t.stepphase 12).param with
          stepinv_type := 12 } }).param = 12 := by
  refine ⟨by decide, rfl, by decide⟩

/-! ### Matching acceleration -/

/-- The matching acceleration in the cases where it opposes the velocity error: a positive
error, or a negative error with a non-zero `maxaccel` (here `maxaccel > 0`, as after the
sanity check of `update_stepgen`). -/
theorem match_accel_opposes (ve maxaccel T : Rat) (ha : 0 ≤ maxaccel) :
    (0 < ve → maxaccel = 0 → match_accel_of ve maxaccel T = -(ve / T) ∧
      -ve / match_accel_of ve maxaccel T = T) ∧
    (0 < ve → maxaccel ≠ 0 → match_accel_of ve maxaccel T = -maxaccel ∧
      0 < -ve / match_accel_of ve maxaccel T) ∧
    (ve < 0 → maxaccel ≠ 0 → match_accel_of ve maxaccel T = maxaccel ∧
      0 < -ve / match_accel_of ve maxaccel T) := by
  refine ⟨?_, ?_, ?_⟩
  · intro hv h0
    have e : match_accel_of ve maxaccel T = -(ve / T) := by
      simp only [match_accel_of, hv, h0, if_true, neg_div]
    refine ⟨e, ?_⟩
    rw [e]
    field_simp
  · intro hv h0
    have e : match_accel_of ve maxaccel T = -maxaccel := by
      simp only [match_accel_of, hv, h0, if_true, if_false]
    refine ⟨e, ?_⟩
    rw [e, neg_div_neg_eq]
    exact div_pos hv (lt_of_le_of_ne ha (Ne.symm h0))
  · intro hv h0
    have hn : ¬ (ve > 0) := not_lt.2 (le_of_lt hv)
    have e : match_accel_of ve maxaccel T = maxaccel := by
      simp only [match_accel_of, hn, hv, h0, if_true, if_false]
    refine ⟨e, ?_⟩
    rw [e]
    exact div_pos (by linarith) (lt_of_le_of_ne ha (Ne.symm h0))

/-- The remaining case, a negative velocity error with `maxaccel = 0`: the matching
acceleration is `velocity_error / T`, of the sign of the error, and the time to match is
`-T`. -/
theorem match_accel_negative_error_no_limit (ve T : Rat) (hT : 0 < T) (hv : ve < 0) :
    match_accel_of ve 0 T = ve / T ∧ match_accel_of ve 0 T < 0 ∧
    -ve / match_accel_of ve 0 T = -T := by
  have hn : ¬ (ve > 0) := not_lt.2 (le_of_lt hv)
  have e : match_accel_of ve 0 T = ve / T := by
    simp only [match_accel_of, hn, hv, if_true, if_false]
  refine ⟨e, ?_, ?_⟩
  · rw [e]; exact div_neg_of_neg_of_pos hv hT
  · rw [e]
    have h1 : ve ≠ 0 := ne_of_lt hv
    have h2 : T ≠ 0 := ne_of_gt hT
    field_simp
    ring

/-- C13 at a failing input: feedback velocity 0, commanded position ahead by 0.001 over a
period of 1 ms (feed-forward velocity 1, velocity error -1) and `maxaccel = 0`. The
matching acceleration is -1000, of the same sign as the velocity error, and the time to
match published on `dbg_s_to_match` is -0.001, negative. -/
theorem match_accel_same_sign_as_negative_error :
    match_accel_of (-1) 0 (1 / 1000) = -1000 ∧
    (hpg_stepgen_instance_position_control 1000000
      { new_channel 10000 updateclass_t.stepdir 12 with
        pin := { zero_pin with position_cmd := 1 / 1000, enable := 1 },
        param := { (new_channel 10000 updateclass_t.stepdir 12).param with
          maxaccel := 0 } }).1.pin.dbg_vel_error = -1 ∧
    (hpg_stepgen_instance_position_control 1000000
      { new_channel 10000 updateclass_t.stepdir 12 with
        pin := { zero_pin with position_cmd := 1 / 1000, enable := 1 },
        param := { (new_channel 10000 updateclass_t.stepdir 12).param with
          maxaccel := 0 } }).1.pin.dbg_s_to_match = -(1 / 1000) := by
  have hm : match_accel_of (-1) 0 (1 / 1000) = -1000 := by
    rw [(match_accel_negative_error_no_limit (-1) (1 / 1000) (by norm_num) (by norm_num)).1]
    norm_num
  have hT : f_period_s 1000000 = 1 / 1000 := by
    unfold f_period_s; norm_num
  have hve : (hpg_stepgen_instance_position_control 1000000
      { new_channel 10000 updateclass_t.stepdir 12 with
        pin := { zero_pin with position_cmd := 1 / 1000, enable := 1 },
        param := { (new_channel 10000 updateclass_t.stepdir 12).param with
          maxaccel := 0 } }).1.pin.dbg_vel_error = -1 := by
    simp only [hpg_stepgen_instance_position_control, hT, new_channel, export_stepgen,
      hpg_stepgen_init_instance, export_stepdir, zero_pin]
    norm_num
  refine ⟨hm, hve, ?_⟩
  simp only [hpg_stepgen_instance_position_control, hT, new_channel, export_stepgen,
    hpg_stepgen_init_instance, export_stepdir, zero_pin]
  norm_num [match_accel_of]

/-! ## Position control: theorems -/

/-- C12: when the feedback velocity equals the feed-forward velocity
`(position_cmd - old_position_cmd) / T` and the position error at the match instant is
zero, `hpg_stepgen_instance_position_control` returns the feed-forward velocity, for every
`maxaccel`; with `T != 0` that error is `position_fb - old_position_cmd`. -/
theorem position_control_no_spurious_correction (l_period_ns : Int)
    (s : hpg_stepgen_instance_t)
    (hv : s.pin.velocity_fb =
      (s.pin.position_cmd - s.old_position_cmd) / f_period_s l_period_ns)
    (he : (hpg_stepgen_instance_position_control l_period_ns s).1.pin.dbg_err_at_match = 0) :
    (hpg_stepgen_instance_position_control l_period_ns s).2 =
      (s.pin.position_cmd - s.old_position_cmd) / f_period_s l_period_ns ∧
    (f_period_s l_period_ns ≠ 0 →
      (hpg_stepgen_instance_position_control l_period_ns s).1.pin.dbg_err_at_match =
        s.pin.position_fb - s.old_position_cmd) := by
  simp only [hpg_stepgen_instance_position_control] at he ⊢
  generalize f_period_s l_period_ns = T at hv he ⊢
  generalize s.param.maxaccel = a at he ⊢
  generalize s.pin.position_fb = pfb at he ⊢
  generalize s.pin.velocity_fb = vfb at hv he ⊢
  generalize s.pin.position_cmd = pc at hv he ⊢
  generalize s.old_position_cmd = opc at hv he ⊢
  subst hv
  have hm : match_accel_of ((pc - opc) / T - (pc - opc) / T) a T = 0 := by
    simp [match_accel_of]
  simp only [hm, if_true, neg_zero, zero_mul, add_zero, zero_add, mul_zero] at he ⊢
  constructor
  · rw [he]
    simp only [zero_div, mul_zero, sub_zero]
    split_ifs with h1 h2 h3 h4
    · have : 0 < a * T := mul_pos h2 h1
      linarith
    · have : 0 < a * T := mul_pos h2 h1
      linarith
    · rfl
    · rfl
    · simp
    · simp
  · intro hT
    field_simp
    ring

theorem position_control_no_spurious_correction_witness :
    (hpg_stepgen_instance_position_control 1000000
      (new_channel 10000 updateclass_t.stepdir 12)).2 =
      ((new_channel 10000 updateclass_t.stepdir 12).pin.position_cmd -
        (new_channel 10000 updateclass_t.stepdir 12).old_position_cmd) /
          f_period_s 1000000 :=
  (position_control_no_spurious_correction 1000000
    (new_channel 10000 updateclass_t.stepdir 12)
    (by simp [new_channel, export_stepgen, hpg_stepgen_init_instance, export_stepdir, zero_pin])
    (by simp [hpg_stepgen_instance_position_control, new_channel, export_stepgen,
      hpg_stepgen_init_instance, export_stepdir, zero_pin])).1

/-- C14: in position-control mode with `maxaccel > 0` and `T > 0` the velocity returned by
`hpg_stepgen_instance_position_control` differs from the feedback velocity by at most
`maxaccel * T`, in the single-period branch (blend, then clamp) and in the multi-period
branch (feedback velocity plus or minus `maxaccel * T`). -/
theorem position_control_accel_limit (l_period_ns : Int) (s : hpg_stepgen_instance_t)
    (hT : 0 < f_period_s l_period_ns) (ha : 0 < s.param.maxaccel) :
    |(hpg_stepgen_instance_position_control l_period_ns s).2 - s.pin.velocity_fb| ≤
      s.param.maxaccel * f_period_s l_period_ns := by
  simp only [hpg_stepgen_instance_position_control]
  generalize f_period_s l_period_ns = T at hT ⊢
  generalize s.param.maxaccel = a at ha ⊢
  generalize s.pin.position_fb = pfb
  generalize s.pin.velocity_fb = vfb
  generalize s.pin.position_cmd = pc
  generalize s.old_position_cmd = opc
  have hpos : 0 < a * T := mul_pos ha hT
  have ha0 : a ≠ 0 := ne_of_gt ha
  have hm : match_accel_of (vfb - (pc - opc) / T) a T = -a ∨
      match_accel_of (vfb - (pc - opc) / T) a T = a ∨
      match_accel_of (vfb - (pc - opc) / T) a T = 0 := by
    unfold match_accel_of
    split_ifs <;> simp
  generalize match_accel_of (vfb - (pc - opc) / T) a T = m at hm ⊢
  rw [abs_le]
  rcases hm with rfl | rfl | rfl <;> split_ifs <;> constructor <;> linarith

theorem position_control_accel_limit_witness :
    |(hpg_stepgen_instance_position_control 1000000
        (new_channel 10000 updateclass_t.stepdir 12)).2 -
      (new_channel 10000 updateclass_t.stepdir 12).pin.velocity_fb| ≤
      (new_channel 10000 updateclass_t.stepdir 12).param.maxaccel * f_period_s 1000000 :=
  position_control_accel_limit 1000000 (new_channel 10000 updateclass_t.stepdir 12)
    (by unfold f_period_s; norm_num)
    (by simp [new_channel, export_stepgen, hpg_stepgen_init_instance, export_stepdir])

/-! ## Velocity selection and limiting in `update_stepgen`: theorems -/

theorem update_stepgen_velocity_mode (pru_period l_period_ns : Int) (s : hpg_stepgen_instance_t)
    (hc : s.pin.control_type ≠ 0) :
    (update_stepgen pru_period l_period_ns s).pin.velocity_fb =
      clip_velocity (velocity_control l_period_ns (update_stepgen_sanitize pru_period s))
        (update_stepgen_maxvel pru_period s) := by
  simp only [update_stepgen, hc, if_false]
  rfl

theorem update_stepgen_position_mode (pru_period l_period_ns : Int) (s : hpg_stepgen_instance_t)
    (hc : s.pin.control_type = 0) :
    (update_stepgen pru_period l_period_ns s).pin.velocity_fb =
      clip_velocity
        (hpg_stepgen_instance_position_control l_period_ns
          (update_stepgen_sanitize pru_period s)).2
        (update_stepgen_maxvel pru_period s) := by
  simp only [update_stepgen, hc, if_true]
  rfl

theorem update_stepgen_maxvel_param (pru_period l_period_ns : Int) (s : hpg_stepgen_instance_t) :
    (update_stepgen pru_period l_period_ns s).param.maxvel =
      sanitize_maxvel s.param.maxvel (physical_maxvel pru_period s) := by
  simp only [update_stepgen]
  split <;> rfl

theorem sanitize_maxaccel_eq_abs (m : Rat) : sanitize_maxaccel m = |m| := by
  unfold sanitize_maxaccel
  split_ifs with h
  · rfl
  · exact (abs_of_nonneg (not_lt.1 h)).symm

/-- C16: velocity-control mode (`control_type != 0`), `T > 0`, `a = |maxaccel|`. The velocity
`update_stepgen` selects before the maxvel clip is `velocity_cmd` when `a = 0` or
`|velocity_cmd - velocity_fb| <= a * T`, `velocity_fb + a * T` when `velocity_cmd` is above
that window and `velocity_fb - a * T` when it is below; the published velocity is the
selected one clipped to maxvel. -/
theorem velocity_mode_selection (pru_period l_period_ns : Int) (s : hpg_stepgen_instance_t)
    (hT : 0 < f_period_s l_period_ns) (hc : s.pin.control_type ≠ 0) :
    (update_stepgen pru_period l_period_ns s).pin.velocity_fb =
      clip_velocity (velocity_control l_period_ns (update_stepgen_sanitize pru_period s))
        (update_stepgen_maxvel pru_period s) ∧
    (|s.param.maxaccel| = 0 ∨
        |s.pin.velocity_cmd - s.pin.velocity_fb| ≤
          |s.param.maxaccel| * f_period_s l_period_ns →
      velocity_control l_period_ns (update_stepgen_sanitize pru_period s) =
        s.pin.velocity_cmd) ∧
    (|s.param.maxaccel| ≠ 0 →
      s.pin.velocity_cmd - s.pin.velocity_fb > |s.param.maxaccel| * f_period_s l_period_ns →
      velocity_control l_period_ns (update_stepgen_sanitize pru_period s) =
        s.pin.velocity_fb + |s.param.maxaccel| * f_period_s l_period_ns) ∧
    (|s.param.maxaccel| ≠ 0 →
      s.pin.velocity_cmd - s.pin.velocity_fb <
        -(|s.param.maxaccel| * f_period_s l_period_ns) →
      velocity_control l_period_ns (update_stepgen_sanitize pru_period s) =
        s.pin.velocity_fb - |s.param.maxaccel| * f_period_s l_period_ns) := by
  refine ⟨update_stepgen_velocity_mode pru_period l_period_ns s hc, ?_⟩
  have e : velocity_control l_period_ns (update_stepgen_sanitize pru_period s) =
      (if sanitize_maxaccel s.param.maxaccel > 0 then
        if (s.pin.velocity_cmd - s.pin.velocity_fb) / f_period_s l_period_ns >
            sanitize_maxaccel s.param.maxaccel then
          s.pin.velocity_fb + sanitize_maxaccel s.param.maxaccel * f_period_s l_period_ns
        else if (s.pin.velocity_cmd - s.pin.velocity_fb) / f_period_s l_period_ns <
            -sanitize_maxaccel s.param.maxaccel then
          s.pin.velocity_fb - sanitize_maxaccel s.param.maxaccel * f_period_s l_period_ns
        else s.pin.velocity_cmd
      else s.pin.velocity_cmd) := rfl
  rw [e, sanitize_maxaccel_eq_abs]
  have ha := abs_nonneg s.param.maxaccel
  generalize f_period_s l_period_ns = T at hT ⊢
  generalize |s.param.maxaccel| = a at ha ⊢
  generalize s.pin.velocity_cmd = vc
  generalize s.pin.velocity_fb = vfb
  have k1 : (vc - vfb) / T > a ↔ vc - vfb > a * T := by
    rw [gt_iff_lt, gt_iff_lt, lt_div_iff₀ hT]
  have k2 : (vc - vfb) / T < -a ↔ vc - vfb < -(a * T) := by
    rw [div_lt_iff₀ hT, neg_mul]
  simp only [k1, k2]
  refine ⟨?_, ?_, ?_⟩
  · rintro (h0 | hw)
    · simp [h0]
    · rw [abs_le] at hw
      split_ifs <;> first | rfl | linarith
  · intro h0 hgt
    have hapos : 0 < a := lt_of_le_of_ne ha (Ne.symm h0)
    rw [if_pos hapos, if_pos hgt]
  · intro h0 hlt
    have hapos : 0 < a := lt_of_le_of_ne ha (Ne.symm h0)
    have hp : 0 < a * T := mul_pos hapos hT
    have hn : ¬ (vc - vfb > a * T) := by
      intro h
      linarith
    rw [if_pos hapos, if_neg hn, if_pos hlt]

theorem velocity_mode_selection_witness :
    (update_stepgen 10000 1000000
      { new_channel 10000 updateclass_t.stepdir 12 with
        pin := { zero_pin with control_type := 1, enable := 1 } }).pin.velocity_fb =
      clip_velocity
        (velocity_control 1000000
          (update_stepgen_sanitize 10000
            { new_channel 10000 updateclass_t.stepdir 12 with
              pin := { zero_pin with control_type := 1, enable := 1 } }))
        (update_stepgen_maxvel 10000
          { new_channel 10000 updateclass_t.stepdir 12 with
            pin := { zero_pin with control_type := 1, enable := 1 } }) :=
  (velocity_mode_selection 10000 1000000
    { new_channel 10000 updateclass_t.stepdir 12 with
      pin := { zero_pin with control_type := 1, enable := 1 } }
    (by unfold f_period_s; norm_num) (by decide)).1

theorem toS32_of_range (x : Int) (h1 : -2147483648 ≤ x) (h2 : x ≤ 2147483647) :
    toS32 x = x := by
  unfold toS32
  omega

theorem clip_velocity_bounds (v m : Rat) (hm : 0 ≤ m) :
    -m ≤ clip_velocity v (xdouble.fin m) ∧ clip_velocity v (xdouble.fin m) ≤ m := by
  simp only [clip_velocity]
  split_ifs with h1 h2
  · constructor <;> linarith
  · constructor <;> linarith
  · constructor <;> linarith

theorem sanitize_maxvel_eq_min (maxvel phys : Rat) :
    sanitize_maxvel maxvel (xdouble.fin phys) = min |maxvel| phys := by
  simp only [sanitize_maxvel]
  have e : (if maxvel < 0 then |maxvel| else maxvel) = |maxvel| := by
    split_ifs with h
    · rfl
    · exact (abs_of_nonneg (not_lt.1 h)).symm
  simp only [e]
  split_ifs with h
  · exact (min_eq_right (le_of_lt h)).symm
  · exact (min_eq_left (not_lt.1 h)).symm

/-- The physical maximum velocity when the `int` product `n * pru_period` does not overflow:
`1e9 / (n * pru_period) / |position_scale|`, with `n = steplen + stepspace` in step/dir mode
and `n = steplen` in step/phase mode. -/
theorem physical_maxvel_eq (pru_period : Int) (s : hpg_stepgen_instance_t) (n : Nat)
    (hn : (s.pru.mode = eMODE_STEP_DIR ∧ n = s.pru.steplen + s.pru.stepspace) ∨
      (s.pru.mode = eMODE_STEP_PHASE ∧ n = s.pru.steplen))
    (hn1 : 1 ≤ n) (hP : 0 < pru_period) (hfit : (n : Int) * pru_period ≤ 2147483647)
    (hscale : s.param.position_scale ≠ 0) :
    physical_maxvel pru_period s =
      xdouble.fin
        (1000000000 / ((n : Rat) * (pru_period : Rat)) / |s.param.position_scale|) := by
  have hnn : (0 : Int) ≤ (n : Int) * pru_period :=
    mul_nonneg (Int.ofNat_nonneg n) (le_of_lt hP)
  have hmin : min_ns_per_step pru_period s = (n : Rat) * (pru_period : Rat) := by
    unfold min_ns_per_step
    rcases hn with ⟨hm, rfl⟩ | ⟨hm, rfl⟩
    · rw [if_pos hm, toS32_of_range _ (by omega) hfit]
      push_cast
      ring
    · have hne : ¬ (s.pru.mode = eMODE_STEP_DIR) := by
        rw [hm]; decide
      rw [if_neg hne, if_pos hm, toS32_of_range _ (by omega) hfit]
      push_cast
      ring
  have hne : (n : Rat) * (pru_period : Rat) ≠ 0 := by
    have h1 : (0 : Rat) < (n : Rat) := by exact_mod_cast hn1
    have h2 : (0 : Rat) < (pru_period : Rat) := by exact_mod_cast hP
    exact ne_of_gt (mul_pos h1 h2)
  have hms : max_steps_per_s pru_period s =
      xdouble.fin (1000000000 / ((n : Rat) * (pru_period : Rat))) := by
    unfold max_steps_per_s
    rw [hmin, if_neg hne]
  unfold physical_maxvel
  rw [hms]
  simp only [abs_eq_zero, hscale, if_false]

/-- The local `maxvel` of `update_stepgen` for a finite physical maximum `p`. -/
theorem update_stepgen_maxvel_fin (pru_period : Int) (s : hpg_stepgen_instance_t) (p : Rat)
    (h : physical_maxvel pru_period s = xdouble.fin p) :
    update_stepgen_maxvel pru_period s =
      xdouble.fin (if min |s.param.maxvel| p = 0 then p else min |s.param.maxvel| p) := by
  unfold update_stepgen_maxvel
  rw [h, sanitize_maxvel_eq_min]
  split_ifs <;> rfl

/-- The velocity limit of `update_stepgen` while the `int` product `n * P` does not overflow:
for an enabled channel, after `update_stepgen`, with `n >= 1` coprocessor periods
per step (`steplen + stepspace` in step/dir mode, `steplen` in step/phase mode),
`pru_period = P > 0`, `n * P <= 2147483647` and `position_scale != 0`:
with `phys = 1e9 / (n * P) / |position_scale|`, the `maxvel` parameter has been replaced by
`min(|maxvel|, phys)`, and the published `velocity_fb` lies in `[-M, M]`, where `M = phys`
if the `maxvel` parameter was 0 and `M = min(|maxvel|, phys)` otherwise. -/
theorem update_stepgen_maxvel_limit (pru_period l_period_ns : Int)
    (s : hpg_stepgen_instance_t) (n : Nat)
    (hn : (s.pru.mode = eMODE_STEP_DIR ∧ n = s.pru.steplen + s.pru.stepspace) ∨
      (s.pru.mode = eMODE_STEP_PHASE ∧ n = s.pru.steplen))
    (hn1 : 1 ≤ n) (hP : 0 < pru_period) (hfit : (n : Int) * pru_period ≤ 2147483647)
    (hscale : s.param.position_scale ≠ 0) :
    (update_stepgen pru_period l_period_ns s).param.maxvel =
      min |s.param.maxvel|
        (1000000000 / ((n : Rat) * (pru_period : Rat)) / |s.param.position_scale|) ∧
    -(if s.param.maxvel = 0 then
        1000000000 / ((n : Rat) * (pru_period : Rat)) / |s.param.position_scale|
      else min |s.param.maxvel|
        (1000000000 / ((n : Rat) * (pru_period : Rat)) / |s.param.position_scale|)) ≤
      (update_stepgen pru_period l_period_ns s).pin.velocity_fb ∧
    (update_stepgen pru_period l_period_ns s).pin.velocity_fb ≤
      (if s.param.maxvel = 0 then
        1000000000 / ((n : Rat) * (pru_period : Rat)) / |s.param.position_scale|
      else min |s.param.maxvel|
        (1000000000 / ((n : Rat) * (pru_period : Rat)) / |s.param.position_scale|)) := by
  have hphys := physical_maxvel_eq pru_period s n hn hn1 hP hfit hscale
  have hnP : (0 : Rat) < (n : Rat) * (pru_period : Rat) := by
    have h1 : (0 : Rat) < (n : Rat) := by exact_mod_cast hn1
    have h2 : (0 : Rat) < (pru_period : Rat) := by exact_mod_cast hP
    exact mul_pos h1 h2
  have hpos : 0 < 1000000000 / ((n : Rat) * (pru_period : Rat)) / |s.param.position_scale| :=
    div_pos (div_pos (by norm_num) hnP) (abs_pos.2 hscale)
  have hmv : update_stepgen_maxvel pru_period s =
      xdouble.fin (if s.param.maxvel = 0 then
        1000000000 / ((n : Rat) * (pru_period : Rat)) / |s.param.position_scale|
      else min |s.param.maxvel|
        (1000000000 / ((n : Rat) * (pru_period : Rat)) / |s.param.position_scale|)) := by
    rw [update_stepgen_maxvel_fin pru_period s _ hphys]
    by_cases h0 : s.param.maxvel = 0
    · rw [if_pos h0, h0, abs_zero, min_eq_left (le_of_lt hpos), if_pos rfl]
    · have habs : 0 < |s.param.maxvel| := abs_pos.2 h0
      have hmin : min |s.param.maxvel|
          (1000000000 / ((n : Rat) * (pru_period : Rat)) / |s.param.position_scale|) ≠ 0 :=
        ne_of_gt (lt_min habs hpos)
      rw [if_neg h0, if_neg hmin]
  have hM : 0 ≤ (if s.param.maxvel = 0 then
        1000000000 / ((n : Rat) * (pru_period : Rat)) / |s.param.position_scale|
      else min |s.param.maxvel|
        (1000000000 / ((n : Rat) * (pru_period : Rat)) / |s.param.position_scale|)) := by
    split_ifs
    · exact le_of_lt hpos
    · exact le_min (abs_nonneg _) (le_of_lt hpos)
  have hvel : ∃ v, (update_stepgen pru_period l_period_ns s).pin.velocity_fb =
      clip_velocity v (update_stepgen_maxvel pru_period s) := by
    by_cases hc : s.pin.control_type = 0
    · exact ⟨_, update_stepgen_position_mode pru_period l_period_ns s hc⟩
    · exact ⟨_, update_stepgen_velocity_mode pru_period l_period_ns s hc⟩
  obtain ⟨v, hv⟩ := hvel
  have hb := clip_velocity_bounds v _ hM
  refine ⟨?_, ?_, ?_⟩
  · rw [update_stepgen_maxvel_param, hphys, sanitize_maxvel_eq_min]
  · rw [hv, hmv]; exact hb.1
  · rw [hv, hmv]; exact hb.2

theorem update_stepgen_maxvel_limit_witness :
    (update_stepgen 10000 1000000
      { new_channel 10000 updateclass_t.stepdir 12 with
        pru := { zero_pru with mode := 4, steplen := 100, stepspace := 100 } }).param.maxvel =
      min |(0 : Rat)| (1000000000 / (((200 : Nat) : Rat) * ((10000 : Int) : Rat)) / |(1 : Rat)|) :=
  (update_stepgen_maxvel_limit 10000 1000000
    { new_channel 10000 updateclass_t.stepdir 12 with
      pru := { zero_pru with mode := 4, steplen := 100, stepspace := 100 } }
    200 (Or.inl ⟨rfl, rfl⟩) (by decide) (by decide) (by decide)
    (by simp [new_channel, export_stepgen, hpg_stepgen_init_instance, export_stepdir])).1

/-! ## Frame of the stages of `hpg_stepgen_update`: control side -/

theorem control_view_update_dirhold (pru_period : Int) (s : hpg_stepgen_instance_t) :
    control_view (update_dirhold pru_period s).1 = control_view s := by
  unfold update_dirhold
  split <;> rfl

theorem control_view_update_steplen (pru_period : Int) (s : hpg_stepgen_instance_t) :
    control_view (update_steplen pru_period s).1 = control_view s := by
  unfold update_steplen
  split <;> rfl

theorem control_view_update_task (s : hpg_stepgen_instance_t) :
    control_view (update_task s).1 = control_view s := by
  unfold update_task
  split <;> rfl

theorem control_view_stepdir_update_pins (s : hpg_stepgen_instance_t) :
    control_view (stepdir_update_pins s) = control_view s := by
  simp only [stepdir_update_pins]
  split_ifs <;> rfl

theorem control_view_stepdir_update_dirsetup (pru_period : Int) (s : hpg_stepgen_instance_t) :
    control_view (stepdir_update_dirsetup pru_period s).1 = control_view s := by
  unfold stepdir_update_dirsetup
  split <;> rfl

theorem control_view_stepdir_update_stepspace (pru_period : Int) (s : hpg_stepgen_instance_t) :
    control_view (stepdir_update_stepspace pru_period s).1 = control_view s := by
  unfold stepdir_update_stepspace
  split <;> rfl

theorem control_view_stepdir_update_stepinv (s : hpg_stepgen_instance_t) :
    control_view (stepdir_update_stepinv s).1 = control_view s := by
  unfold stepdir_update_stepinv
  split <;> rfl

theorem control_view_stepdir_update (pru_period : Int) (s : hpg_stepgen_instance_t) :
    control_view (hpg_stepdir_update pru_period s).1 = control_view s := by
  simp only [hpg_stepdir_update]
  rw [control_view_stepdir_update_stepinv, control_view_stepdir_update_stepspace,
    control_view_stepdir_update_dirsetup, control_view_stepdir_update_pins]

theorem control_view_stepphase_update_pins (s : hpg_stepgen_instance_t) :
    control_view (stepphase_update_pins s) = control_view s := by
  simp only [stepphase_update_pins]
  split_ifs <;> rfl

theorem control_view_stepphase_update_pin_c (s : hpg_stepgen_instance_t) :
    control_view (stepphase_update_pin_c s).1 = control_view s := by
  unfold stepphase_update_pin_c
  split <;> rfl

theorem control_view_stepphase_update_pin_d (s : hpg_stepgen_instance_t) :
    control_view (stepphase_update_pin_d s).1 = control_view s := by
  unfold stepphase_update_pin_d
  split <;> rfl

theorem control_view_with_lut (u : hpg_stepgen_instance_t) (l w : Nat) :
    control_view { u with pru := { u.pru with lut := l }, written_phase := w } =
      control_view u := rfl

theorem control_view_create_lut_instance (s : hpg_stepgen_instance_t) :
    control_view (create_lut_instance s) = control_view s := by
  simp only [create_lut_instance]
  split <;> rfl

theorem control_view_stepphase_update_lut (s : hpg_stepgen_instance_t) :
    control_view (stepphase_update_lut s).1 = control_view s := by
  unfold stepphase_update_lut
  split
  · exact (control_view_with_lut (create_lut_instance s) (create_lut s)
      (phase_type (create_lut_instance s).param)).trans (control_view_create_lut_instance s)
  · rfl

theorem control_view_stepphase_update (s : hpg_stepgen_instance_t) :
    control_view (hpg_stepphase_update s).1 = control_view s := by
  simp only [hpg_stepphase_update]
  rw [control_view_stepphase_update_lut, control_view_stepphase_update_pin_d,
    control_view_stepphase_update_pin_c, control_view_stepphase_update_pins]

theorem control_view_updateclass (pru_period : Int) (s : hpg_stepgen_instance_t) :
    control_view (stepgen_updateclass pru_period s).1 = control_view s := by
  unfold stepgen_updateclass
  split
  · exact control_view_stepdir_update pru_period s
  · exact control_view_stepphase_update s

/-- The stages of `hpg_stepgen_update` after the branch on `enable` leave the pins, the
previous commanded position, the rate of the host shadow and the scaling and limit
parameters as that branch left them. -/
theorem control_view_update_instance (pru_period l_period_ns : Int)
    (s : hpg_stepgen_instance_t) :
    control_view (hpg_stepgen_update_instance pru_period l_period_ns s).1 =
      control_view (update_enable pru_period l_period_ns s) := by
  simp only [hpg_stepgen_update_instance]
  rw [control_view_update_task, control_view_updateclass, control_view_update_steplen,
    control_view_update_dirhold]

/-! ## The rate store and the disabled channel -/

theorem writes_rate_stepdir_update (pru_period : Int) (s : hpg_stepgen_instance_t) :
    writes_to pru_field.rate (hpg_stepdir_update pru_period s).2 = [] := by
  simp only [hpg_stepdir_update, writes_to_append, log_stepdir_update_dirsetup,
    log_stepdir_update_stepspace, log_stepdir_update_stepinv, writes_to_ite]
  simp

theorem writes_rate_stepphase_update (s : hpg_stepgen_instance_t) :
    writes_to pru_field.rate (hpg_stepphase_update s).2 = [] := by
  simp only [hpg_stepphase_update, writes_to_append, log_stepphase_update_pin_c,
    log_stepphase_update_pin_d, log_stepphase_update_lut, writes_to_ite]
  simp

theorem writes_rate_updateclass (pru_period : Int) (s : hpg_stepgen_instance_t) :
    writes_to pru_field.rate (stepgen_updateclass pru_period s).2 = [] := by
  unfold stepgen_updateclass
  split
  · exact writes_rate_stepdir_update pru_period s
  · exact writes_rate_stepphase_update s

/-- Every update of an instance stores the rate of the host shadow, exactly once. -/
theorem writes_rate_update_instance (pru_period l_period_ns : Int)
    (s : hpg_stepgen_instance_t) :
    writes_to pru_field.rate (hpg_stepgen_update_instance pru_period l_period_ns s).2 =
      [toU32 (hpg_stepgen_update_instance pru_period l_period_ns s).1.pru.rate] := by
  simp only [hpg_stepgen_update_instance, writes_to_append, log_update_dirhold,
    log_update_steplen, log_update_task, writes_to_ite, writes_rate_updateclass,
    writes_to_single]
  simp

/-- The rate in shared memory after the stores of one update is the stored rate word. -/
theorem rate_after_update_instance (pru_period l_period_ns : Int)
    (s : hpg_stepgen_instance_t) (m : PRU_task_stepgen_t) :
    ((hpg_stepgen_update_instance pru_period l_period_ns s).2.foldl apply_write m).rate =
      toS32 (toU32 (hpg_stepgen_update_instance pru_period l_period_ns s).1.pru.rate) := by
  simp only [hpg_stepgen_update_instance, List.foldl_append, List.foldl_cons, List.foldl_nil]
  rfl

theorem update_enable_disabled (pru_period l_period_ns : Int) (s : hpg_stepgen_instance_t)
    (he : s.pin.enable = 0) :
    control_view (update_enable pru_period l_period_ns s) =
      { control_view s with
        pin := { s.pin with velocity_fb := 0 },
        old_position_cmd := s.pin.position_cmd,
        rate := 0 } := by
  unfold update_enable
  rw [if_pos he]
  rfl

theorem update_stepgen_ff_vel (pru_period l_period_ns : Int) (s : hpg_stepgen_instance_t)
    (hc : s.pin.control_type = 0) :
    (update_stepgen pru_period l_period_ns s).pin.dbg_ff_vel =
      (s.pin.position_cmd - s.old_position_cmd) / f_period_s l_period_ns := by
  simp only [update_stepgen, hc, if_true]
  rfl

theorem update_instance_ff_vel (pru_period l_period_ns : Int) (s : hpg_stepgen_instance_t)
    (he : s.pin.enable ≠ 0) (hc : s.pin.control_type = 0) :
    (hpg_stepgen_update_instance pru_period l_period_ns s).1.pin.dbg_ff_vel =
      (s.pin.position_cmd - s.old_position_cmd) / f_period_s l_period_ns := by
  have e := congrArg control_view_t.pin (control_view_update_instance pru_period l_period_ns s)
  have e2 : (hpg_stepgen_update_instance pru_period l_period_ns s).1.pin =
      (update_enable pru_period l_period_ns s).pin := e
  rw [e2]
  unfold update_enable
  rw [if_neg he]
  exact update_stepgen_ff_vel pru_period l_period_ns s hc

theorem with_pin_old_position_cmd (u : hpg_stepgen_instance_t) (p : stepgen_pin_t) :
    ({ u with pin := p } : hpg_stepgen_instance_t).old_position_cmd = u.old_position_cmd := rfl

/-- The loop body of `hpg_stepgen_update` for a channel whose `enable` input is 0. The rate of the host shadow is
0, the one store to `rate` carries 0 and shared memory holds rate 0 afterwards;
`velocity_fb` is 0 and every other pin is untouched (no debug pin of the position
controller is written), `old_position_cmd` is the current `position_cmd`, and `maxvel`
and `maxaccel` are not sanitised. Hence for any later period that starts with this
`old_position_cmd`, is enabled and in position mode, the feed-forward velocity is
`(position_cmd now - position_cmd at the disabled period) / T`. -/
theorem update_instance_disabled (pru_period l_period_ns l_period_ns2 : Int)
    (s s2 : hpg_stepgen_instance_t) (m : PRU_task_stepgen_t)
    (he : s.pin.enable = 0)
    (hold : s2.old_position_cmd =
      (hpg_stepgen_update_instance pru_period l_period_ns s).1.old_position_cmd)
    (he2 : s2.pin.enable ≠ 0) (hc2 : s2.pin.control_type = 0) :
    (hpg_stepgen_update_instance pru_period l_period_ns s).1.pru.rate = 0 ∧
    writes_to pru_field.rate (hpg_stepgen_update_instance pru_period l_period_ns s).2 = [0] ∧
    ((hpg_stepgen_update_instance pru_period l_period_ns s).2.foldl apply_write m).rate = 0 ∧
    (hpg_stepgen_update_instance pru_period l_period_ns s).1.pin =
      { s.pin with velocity_fb := 0 } ∧
    (hpg_stepgen_update_instance pru_period l_period_ns s).1.old_position_cmd =
      s.pin.position_cmd ∧
    (hpg_stepgen_update_instance pru_period l_period_ns s).1.param.maxvel = s.param.maxvel ∧
    (hpg_stepgen_update_instance pru_period l_period_ns s).1.param.maxaccel =
      s.param.maxaccel ∧
    (hpg_stepgen_update_instance pru_period l_period_ns2 s2).1.pin.dbg_ff_vel =
      (s2.pin.position_cmd - s.pin.position_cmd) / f_period_s l_period_ns2 := by
  have e := (control_view_update_instance pru_period l_period_ns s).trans
    (update_enable_disabled pru_period l_period_ns s he)
  have hr : (hpg_stepgen_update_instance pru_period l_period_ns s).1.pru.rate = 0 :=
    congrArg control_view_t.rate e
  have ho : (hpg_stepgen_update_instance pru_period l_period_ns s).1.old_position_cmd =
      s.pin.position_cmd := congrArg control_view_t.old_position_cmd e
  refine ⟨hr, ?_, ?_, congrArg control_view_t.pin e, ho, congrArg control_view_t.maxvel e,
    congrArg control_view_t.maxaccel e, ?_⟩
  · rw [writes_rate_update_instance, hr]
    rfl
  · rw [rate_after_update_instance, hr]
    rfl
  · rw [update_instance_ff_vel pru_period l_period_ns2 s2 he2 hc2, hold, ho]

/-! ## The stores of one update, in program order -/

theorem pin_c_set_pin_c (p : PRU_task_stepgen_t) (v : Nat) : pin_c (set_pin_c p v) = v % 256 := by
  simp only [pin_c, set_pin_c]
  omega

theorem pin_d_set_pin_c (p : PRU_task_stepgen_t) (v : Nat) : pin_d (set_pin_c p v) = pin_d p := by
  simp only [pin_d, set_pin_c]
  omega

theorem pin_d_set_pin_d (p : PRU_task_stepgen_t) (v : Nat) : pin_d (set_pin_d p v) = v % 256 := by
  simp only [pin_d, set_pin_d]
  omega

theorem step_inv_set_step_inv (p : PRU_task_stepgen_t) (v : Nat) :
    step_inv (set_step_inv p v) = v % 256 := by
  simp only [step_inv, set_step_inv]
  omega

theorem dir_stepinv_mod (p : stepgen_param_t) : dir_stepinv p % 256 = dir_stepinv p := by
  simp only [dir_stepinv]
  omega

theorem create_lut_congr (a b : hpg_stepgen_instance_t)
    (h : phase_type a.param = phase_type b.param) : create_lut a = create_lut b := by
  simp only [create_lut, create_lut_row, h]

theorem class_view_update_stepgen (pru_period l_period_ns : Int) (s : hpg_stepgen_instance_t) :
    class_view (update_stepgen pru_period l_period_ns s) = class_view s := by
  simp only [update_stepgen]
  split <;> rfl

theorem class_view_update_enable (pru_period l_period_ns : Int) (s : hpg_stepgen_instance_t) :
    class_view (update_enable pru_period l_period_ns s) = class_view s := by
  unfold update_enable
  split
  · rfl
  · exact class_view_update_stepgen pru_period l_period_ns s

theorem class_view_update_dirhold (pru_period : Int) (s : hpg_stepgen_instance_t) :
    class_view (update_dirhold pru_period s).1 = class_view s := by
  unfold update_dirhold
  split <;> rfl

theorem class_view_update_steplen (pru_period : Int) (s : hpg_stepgen_instance_t) :
    class_view (update_steplen pru_period s).1 = class_view s := by
  unfold update_steplen
  split <;> rfl

theorem class_view_stepdir_update_pins (s : hpg_stepgen_instance_t) :
    class_view (stepdir_update_pins s) = class_view s := by
  simp only [stepdir_update_pins]
  split_ifs <;> rfl

theorem class_view_stepdir_update_dirsetup (pru_period : Int) (s : hpg_stepgen_instance_t) :
    class_view (stepdir_update_dirsetup pru_period s).1 = class_view s := by
  unfold stepdir_update_dirsetup
  split <;> rfl

theorem class_view_stepdir_update_stepspace (pru_period : Int) (s : hpg_stepgen_instance_t) :
    class_view (stepdir_update_stepspace pru_period s).1 =
      { class_view s with
        pru_stepspace := (stepdir_update_stepspace pru_period s).1.pru.stepspace } := by
  unfold stepdir_update_stepspace
  split <;> rfl

theorem class_view_stepphase_update_pins (s : hpg_stepgen_instance_t) :
    class_view (stepphase_update_pins s) = class_view s := by
  simp only [stepphase_update_pins]
  split_ifs <;> rfl

theorem class_view_stepphase_update_pin_c (s : hpg_stepgen_instance_t) :
    class_view (stepphase_update_pin_c s).1 =
      { class_view s with pru_stepspace := (stepphase_update_pin_c s).1.pru.stepspace } := by
  unfold stepphase_update_pin_c
  split <;> rfl

theorem pin_d_stepphase_update_pin_c (s : hpg_stepgen_instance_t) :
    pin_d (stepphase_update_pin_c s).1.pru = pin_d s.pru := by
  unfold stepphase_update_pin_c
  split
  · exact pin_d_set_pin_c s.pru (phase_pin_c s.param)
  · rfl

theorem class_view_stepphase_update_pin_d (s : hpg_stepgen_instance_t) :
    class_view (stepphase_update_pin_d s).1 =
      { class_view s with pru_stepspace := (stepphase_update_pin_d s).1.pru.stepspace } := by
  unfold stepphase_update_pin_d
  split <;> rfl

/-- The stores of `hpg_stepdir_update`, in program order. -/
theorem log_stepdir_update (pru_period : Int) (s : hpg_stepgen_instance_t) :
    (hpg_stepdir_update pru_period s).2 =
      (if dir_dirsetup s.param ≠ s.written_dirsetup then
        [pru_write.field pru_field.dirsetup (ns2periods pru_period (dir_dirsetup s.param))]
       else []) ++
      (if dir_stepspace s.param ≠ s.written_stepspace then
        [pru_write.field pru_field.stepspace (ns2periods pru_period (dir_stepspace s.param))]
       else []) ++
      (if step_inv s.pru ≠ dir_stepinv s.param then
        [pru_write.field pru_field.step_inv (dir_stepinv s.param)]
       else []) := by
  have t0 := tracking_stepdir_update_pins s
  have c0 := class_view_stepdir_update_pins s
  simp only [hpg_stepdir_update]
  generalize stepdir_update_pins s = s0 at t0 c0 ⊢
  have t1 := tracking_stepdir_update_dirsetup pru_period s0
  have c1 := class_view_stepdir_update_dirsetup pru_period s0
  have l1 := log_stepdir_update_dirsetup pru_period s0
  generalize stepdir_update_dirsetup pru_period s0 = r1 at t1 c1 l1 ⊢
  have c2 := class_view_stepdir_update_stepspace pru_period r1.1
  have l2 := log_stepdir_update_stepspace pru_period r1.1
  generalize stepdir_update_stepspace pru_period r1.1 = r2 at c2 l2 ⊢
  have l3 := log_stepdir_update_stepinv r2.1
  have a1 : dir_dirsetup s0.param = dir_dirsetup s.param := congrArg tracking_t.dirsetup t0
  have a2 : s0.written_dirsetup = s.written_dirsetup := congrArg tracking_t.written_dirsetup t0
  have b1 : dir_stepspace r1.1.param = dir_stepspace s.param :=
    (congrArg tracking_t.stepspace t1).trans (congrArg tracking_t.stepspace t0)
  have b2 : r1.1.written_stepspace = s.written_stepspace :=
    (congrArg tracking_t.written_stepspace t1).trans (congrArg tracking_t.written_stepspace t0)
  have d1 : r2.1.pru.lut = s.pru.lut :=
    (congrArg class_view_t.pru_lut c2).trans
      ((congrArg class_view_t.pru_lut c1).trans (congrArg class_view_t.pru_lut c0))
  have d2 : r2.1.param.stepinv_type = s.param.stepinv_type :=
    (congrArg class_view_t.stepinv_type c2).trans
      ((congrArg class_view_t.stepinv_type c1).trans (congrArg class_view_t.stepinv_type c0))
  have d3 : step_inv r2.1.pru = step_inv s.pru := by simp only [step_inv, d1]
  have d4 : dir_stepinv r2.1.param = dir_stepinv s.param := by simp only [dir_stepinv, d2]
  rw [l1, l2, l3, a1, a2, b1, b2, d3, d4, step_inv_set_step_inv, dir_stepinv_mod]

/-- The stores of `hpg_stepphase_update`, in program order. -/
theorem log_stepphase_update (s : hpg_stepgen_instance_t) :
    (hpg_stepphase_update s).2 =
      (if phase_pin_c s.param ≠ pin_c s.pru then
        [pru_write.field pru_field.pin_c (phase_pin_c s.param % 256)]
       else []) ++
      (if phase_pin_d s.param ≠ pin_d s.pru then
        [pru_write.field pru_field.pin_d (phase_pin_d s.param % 256)]
       else []) ++
      (if phase_type s.param ≠ s.written_phase then
        [pru_write.field pru_field.lut (create_lut s)]
       else []) := by
  have c0 := class_view_stepphase_update_pins s
  simp only [hpg_stepphase_update]
  generalize stepphase_update_pins s = s0 at c0 ⊢
  have c1 := class_view_stepphase_update_pin_c s0
  have p1 := pin_d_stepphase_update_pin_c s0
  have l1 := log_stepphase_update_pin_c s0
  generalize stepphase_update_pin_c s0 = r1 at c1 p1 l1 ⊢
  have c2 := class_view_stepphase_update_pin_d r1.1
  have l2 := log_stepphase_update_pin_d r1.1
  generalize stepphase_update_pin_d r1.1 = r2 at c2 l2 ⊢
  have l3 := log_stepphase_update_lut r2.1
  have a1 : s0.param.steppin_pin_c = s.param.steppin_pin_c :=
    congrArg class_view_t.steppin_pin_c c0
  have a2 : s0.pru.stepspace = s.pru.stepspace := congrArg class_view_t.pru_stepspace c0
  have a3 : phase_pin_c s0.param = phase_pin_c s.param := a1
  have a4 : pin_c s0.pru = pin_c s.pru := by simp only [pin_c, a2]
  have b1 : r1.1.param.dirpin_pin_d = s.param.dirpin_pin_d :=
    (congrArg class_view_t.dirpin_pin_d c1).trans (congrArg class_view_t.dirpin_pin_d c0)
  have b2 : phase_pin_d r1.1.param = phase_pin_d s.param := b1
  have b3 : pin_d r1.1.pru = pin_d s.pru := by
    rw [p1]
    simp only [pin_d, a2]
  have d1 : r2.1.param.stepinv_type = s.param.stepinv_type :=
    (congrArg class_view_t.stepinv_type c2).trans
      ((congrArg class_view_t.stepinv_type c1).trans (congrArg class_view_t.stepinv_type c0))
  have d2 : phase_type r2.1.param = phase_type s.param := d1
  have d3 : r2.1.written_phase = s.written_phase :=
    (congrArg class_view_t.written_phase c2).trans
      ((congrArg class_view_t.written_phase c1).trans (congrArg class_view_t.written_phase c0))
  rw [l1, l2, l3, a3, a4, b2, b3, d2, d3, pin_c_set_pin_c, pin_d_set_pin_d,
    create_lut_congr r2.1 s d2]

theorem log_updateclass (pru_period : Int) (s : hpg_stepgen_instance_t) :
    (stepgen_updateclass pru_period s).2 =
      (match s.stepgen_updateclass with
       | updateclass_t.stepdir => (hpg_stepdir_update pru_period s).2
       | updateclass_t.stepphase => (hpg_stepphase_update s).2) := by
  unfold stepgen_updateclass
  split <;> rfl

/-- The stores of one update of one instance, in program order: `dirhold` and `steplen` when
their parameter differs from the remembered value, then the stores of the class, then the
control word when it differs from the remembered one, and last the rate, unconditionally. -/
theorem update_instance_log (pru_period l_period_ns : Int) (s : hpg_stepgen_instance_t) :
    (hpg_stepgen_update_instance pru_period l_period_ns s).2 =
      (if s.param.dirhold ≠ s.written_dirhold then
        [pru_write.field pru_field.dirhold (ns2periods pru_period s.param.dirhold)]
       else []) ++
      (if s.param.steplen ≠ s.written_steplen then
        [pru_write.field pru_field.steplen (ns2periods pru_period s.param.steplen)]
       else []) ++
      (match s.stepgen_updateclass with
       | updateclass_t.stepdir =>
         (if dir_dirsetup s.param ≠ s.written_dirsetup then
           [pru_write.field pru_field.dirsetup (ns2periods pru_period (dir_dirsetup s.param))]
          else []) ++
         (if dir_stepspace s.param ≠ s.written_stepspace then
           [pru_write.field pru_field.stepspace
             (ns2periods pru_period (dir_stepspace s.param))]
          else []) ++
         (if step_inv s.pru ≠ dir_stepinv s.param then
           [pru_write.field pru_field.step_inv (dir_stepinv s.param)]
          else [])
       | updateclass_t.stepphase =>
         (if phase_pin_c s.param ≠ pin_c s.pru then
           [pru_write.field pru_field.pin_c (phase_pin_c s.param % 256)]
          else []) ++
         (if phase_pin_d s.param ≠ pin_d s.pru then
           [pru_write.field pru_field.pin_d (phase_pin_d s.param % 256)]
          else []) ++
         (if phase_type s.param ≠ s.written_phase then
           [pru_write.field pru_field.lut (create_lut s)]
          else [])) ++
      (if task_dword0 (hpg_stepgen_update_instance pru_period l_period_ns s).1.pru ≠
          s.written_task then
        [pru_write.field pru_field.dword0
          (task_dword0 (hpg_stepgen_update_instance pru_period l_period_ns s).1.pru)]
       else []) ++
      [pru_write.field pru_field.rate
        (toU32 (hpg_stepgen_update_instance pru_period l_period_ns s).1.pru.rate)] := by
  have e0 := tracking_update_enable pru_period l_period_ns s
  have c0 := class_view_update_enable pru_period l_period_ns s
  simp only [hpg_stepgen_update_instance]
  generalize update_enable pru_period l_period_ns s = s0 at e0 c0 ⊢
  have e1 := tracking_update_dirhold pru_period s0
  have c1 := class_view_update_dirhold pru_period s0
  have l1 := log_update_dirhold pru_period s0
  generalize update_dirhold pru_period s0 = r1 at e1 c1 l1 ⊢
  have e2 := tracking_update_steplen pru_period r1.1
  have c2 := class_view_update_steplen pru_period r1.1
  have l2 := log_update_steplen pru_period r1.1
  generalize update_steplen pru_period r1.1 = r2 at e2 c2 l2 ⊢
  have e3 := tracking_updateclass pru_period r2.1
  have l3 := log_updateclass pru_period r2.1
  have ld := log_stepdir_update pru_period r2.1
  have lp := log_stepphase_update r2.1
  generalize hpg_stepdir_update pru_period r2.1 = rd at l3 ld
  generalize hpg_stepphase_update r2.1 = rp at l3 lp
  generalize stepgen_updateclass pru_period r2.1 = r3 at e3 l3 ⊢
  have l4 := log_update_task r3.1
  have p4 := pru_update_task r3.1
  generalize update_task r3.1 = r4 at l4 p4 ⊢
  have cv : class_view r2.1 = class_view s := c2.trans (c1.trans c0)
  have a1 : r1.1.param.steplen = s.param.steplen :=
    (congrArg tracking_t.steplen e1).trans (congrArg tracking_t.steplen e0)
  have a2 : r1.1.written_steplen = s.written_steplen :=
    (congrArg tracking_t.written_steplen e1).trans (congrArg tracking_t.written_steplen e0)
  have a3 : s0.param.dirhold = s.param.dirhold := congrArg tracking_t.dirhold e0
  have a4 : s0.written_dirhold = s.written_dirhold := congrArg tracking_t.written_dirhold e0
  have a5 : r2.1.stepgen_updateclass = s.stepgen_updateclass :=
    (congrArg tracking_t.cls e2).trans
      ((congrArg tracking_t.cls e1).trans (congrArg tracking_t.cls e0))
  have a6 : r3.1.written_task = s.written_task := by
    have h3 : r3.1.written_task = r2.1.written_task := by
      have := congrArg tracking_t.written_task e3
      revert this
      cases r2.1.stepgen_updateclass <;> exact fun h => h
    exact h3.trans ((congrArg tracking_t.written_task e2).trans
      ((congrArg tracking_t.written_task e1).trans (congrArg tracking_t.written_task e0)))
  have s1 : dir_stepspace r2.1.param = dir_stepspace s.param :=
    (congrArg tracking_t.stepspace e2).trans
      ((congrArg tracking_t.stepspace e1).trans (congrArg tracking_t.stepspace e0))
  have s2 : r2.1.written_stepspace = s.written_stepspace :=
    (congrArg tracking_t.written_stepspace e2).trans
      ((congrArg tracking_t.written_stepspace e1).trans
        (congrArg tracking_t.written_stepspace e0))
  have s3 : dir_dirsetup r2.1.param = dir_dirsetup s.param :=
    (congrArg tracking_t.dirsetup e2).trans
      ((congrArg tracking_t.dirsetup e1).trans (congrArg tracking_t.dirsetup e0))
  have s4 : r2.1.written_dirsetup = s.written_dirsetup :=
    (congrArg tracking_t.written_dirsetup e2).trans
      ((congrArg tracking_t.written_dirsetup e1).trans
        (congrArg tracking_t.written_dirsetup e0))
  have v1 : r2.1.pru.lut = s.pru.lut := congrArg class_view_t.pru_lut cv
  have v2 : r2.1.pru.stepspace = s.pru.stepspace := congrArg class_view_t.pru_stepspace cv
  have v3 : r2.1.param.stepinv_type = s.param.stepinv_type :=
    congrArg class_view_t.stepinv_type cv
  have v4 : phase_pin_c r2.1.param = phase_pin_c s.param :=
    congrArg class_view_t.steppin_pin_c cv
  have v5 : phase_pin_d r2.1.param = phase_pin_d s.param :=
    congrArg class_view_t.dirpin_pin_d cv
  have v6 : r2.1.written_phase = s.written_phase := congrArg class_view_t.written_phase cv
  have v7 : phase_type r2.1.param = phase_type s.param := v3
  have w1 : step_inv r2.1.pru = step_inv s.pru := by simp only [step_inv, v1]
  have w2 : dir_stepinv r2.1.param = dir_stepinv s.param := by simp only [dir_stepinv, v3]
  have w3 : pin_c r2.1.pru = pin_c s.pru := by simp only [pin_c, v2]
  have w4 : pin_d r2.1.pru = pin_d s.pru := by simp only [pin_d, v2]
  have w5 : create_lut r2.1 = create_lut s := create_lut_congr r2.1 s v7
  rw [s1, s2, s3, s4, w1, w2] at ld
  rw [v4, v5, v6, v7, w3, w4, w5] at lp
  rw [a5, ld, lp] at l3
  rw [l1, l2, l3, l4, p4, a1, a2, a3, a4, a6]

theorem mem_ite_field (c : Prop) [Decidable c] (f : pru_field) (v : Nat) (w : pru_write)
    (h : w ∈ (if c then [pru_write.field f v] else [])) :
    ∃ g u, w = pru_write.field g u := by
  by_cases hc : c
  · rw [if_pos hc] at h
    exact ⟨f, v, List.mem_singleton.1 h⟩
  · rw [if_neg hc] at h
    exact absurd h (List.not_mem_nil w)

/-- One update in which no pending value differs from its remembered value stores the rate
and nothing else. -/
theorem update_instance_idle_log (pru_period l_period_ns : Int) (s : hpg_stepgen_instance_t)
    (h1 : s.param.steplen = s.written_steplen)
    (h2 : s.param.dirhold = s.written_dirhold)
    (h3 : task_dword0 (hpg_stepgen_update_instance pru_period l_period_ns s).1.pru =
      s.written_task)
    (hd : s.stepgen_updateclass = updateclass_t.stepdir →
      dir_stepspace s.param = s.written_stepspace ∧
      dir_dirsetup s.param = s.written_dirsetup ∧
      step_inv s.pru = dir_stepinv s.param)
    (hp : s.stepgen_updateclass = updateclass_t.stepphase →
      phase_pin_c s.param = pin_c s.pru ∧
      phase_pin_d s.param = pin_d s.pru ∧
      phase_type s.param = s.written_phase) :
    (hpg_stepgen_update_instance pru_period l_period_ns s).2 =
      [pru_write.field pru_field.rate
        (toU32 (hpg_stepgen_update_instance pru_period l_period_ns s).1.pru.rate)] := by
  have hl := update_instance_log pru_period l_period_ns s
  generalize hpg_stepgen_update_instance pru_period l_period_ns s = r at hl h3 ⊢
  rw [hl]
  cases hc : s.stepgen_updateclass
  · obtain ⟨d1, d2, d3⟩ := hd hc
    simp [h1, h2, h3, d1, d2, d3]
  · obtain ⟨p1, p2, p3⟩ := hp hc
    simp [h1, h2, h3, p1, p2, p3]

/-- C11, the case it does not cover: the rate is stored in every period. For the disabled
channel `idle_channel`, in which every pending value equals its remembered value, one update
leaves the host shadow and the change-tracking state as they were (nothing changed), and
still stores to the shared-memory descriptor: the rate, with the value 0 it already had.
The last part is the same for `hpg_stepgen_update` on the state with this one channel: one
store, of the rate, to the descriptor at address 12. -/
theorem update_stores_rate_when_nothing_changed :
    (hpg_stepgen_update_instance 10000 1000000 idle_channel).1.pru = idle_channel.pru ∧
    tracking (hpg_stepgen_update_instance 10000 1000000 idle_channel).1 =
      tracking idle_channel ∧
    class_view (hpg_stepgen_update_instance 10000 1000000 idle_channel).1 =
      class_view idle_channel ∧
    (hpg_stepgen_update_instance 10000 1000000 idle_channel).2 =
      [pru_write.field pru_field.rate 0] ∧
    (hpg_stepgen_update ⟨10000, [idle_channel]⟩ 1000000).2 =
      [(12, [pru_write.field pru_field.rate 0])] := by
  decide

/-- The stores of the loop body of `hpg_stepgen_update` for one instance. The rate is stored in every
period, whether or not it changed. Every other member is stored only when its pending value
differs from the remembered one, and then with the pending value: `steplen` and `dirhold`
against `written_steplen` and `written_dirhold`; the control word against `written_task`;
for a step/dir channel `stepspace` and `dirsetup` against `written_stepspace` and
`written_dirsetup`, and the invert byte against the byte of the host shadow; for a
step/phase channel pin C and pin D (as bytes) against the bytes of the host shadow and the
pattern table against `written_phase`. A member of the other class is not stored, and
every store is a store to a single member. When no pending value differs from its
remembered value the stores are exactly one: the rate. -/
theorem update_instance_stores (pru_period l_period_ns : Int)
    (s : hpg_stepgen_instance_t) :
    writes_to pru_field.rate (hpg_stepgen_update_instance pru_period l_period_ns s).2 =
      [toU32 (hpg_stepgen_update_instance pru_period l_period_ns s).1.pru.rate] ∧
    writes_to pru_field.steplen (hpg_stepgen_update_instance pru_period l_period_ns s).2 =
      (if s.param.steplen ≠ s.written_steplen then
        [ns2periods pru_period s.param.steplen] else []) ∧
    writes_to pru_field.dirhold (hpg_stepgen_update_instance pru_period l_period_ns s).2 =
      (if s.param.dirhold ≠ s.written_dirhold then
        [ns2periods pru_period s.param.dirhold] else []) ∧
    writes_to pru_field.dword0 (hpg_stepgen_update_instance pru_period l_period_ns s).2 =
      (if task_dword0 (hpg_stepgen_update_instance pru_period l_period_ns s).1.pru ≠
          s.written_task then
        [task_dword0 (hpg_stepgen_update_instance pru_period l_period_ns s).1.pru] else []) ∧
    (s.stepgen_updateclass = updateclass_t.stepdir →
      writes_to pru_field.stepspace (hpg_stepgen_update_instance pru_period l_period_ns s).2 =
        (if dir_stepspace s.param ≠ s.written_stepspace then
          [ns2periods pru_period (dir_stepspace s.param)] else []) ∧
      writes_to pru_field.dirsetup (hpg_stepgen_update_instance pru_period l_period_ns s).2 =
        (if dir_dirsetup s.param ≠ s.written_dirsetup then
          [ns2periods pru_period (dir_dirsetup s.param)] else []) ∧
      writes_to pru_field.step_inv (hpg_stepgen_update_instance pru_period l_period_ns s).2 =
        (if step_inv s.pru ≠ dir_stepinv s.param then [dir_stepinv s.param] else []) ∧
      writes_to pru_field.pin_c (hpg_stepgen_update_instance pru_period l_period_ns s).2 = [] ∧
      writes_to pru_field.pin_d (hpg_stepgen_update_instance pru_period l_period_ns s).2 = [] ∧
      writes_to pru_field.lut (hpg_stepgen_update_instance pru_period l_period_ns s).2 = []) ∧
    (s.stepgen_updateclass = updateclass_t.stepphase →
      writes_to pru_field.pin_c (hpg_stepgen_update_instance pru_period l_period_ns s).2 =
        (if phase_pin_c s.param ≠ pin_c s.pru then [phase_pin_c s.param % 256] else []) ∧
      writes_to pru_field.pin_d (hpg_stepgen_update_instance pru_period l_period_ns s).2 =
        (if phase_pin_d s.param ≠ pin_d s.pru then [phase_pin_d s.param % 256] else []) ∧
      writes_to pru_field.lut (hpg_stepgen_update_instance pru_period l_period_ns s).2 =
        (if phase_type s.param ≠ s.written_phase then [create_lut s] else []) ∧
      writes_to pru_field.stepspace (hpg_stepgen_update_instance pru_period l_period_ns s).2 =
        [] ∧
      writes_to pru_field.dirsetup (hpg_stepgen_update_instance pru_period l_period_ns s).2 =
        [] ∧
      writes_to pru_field.step_inv (hpg_stepgen_update_instance pru_period l_period_ns s).2 =
        []) ∧
    (∀ w ∈ (hpg_stepgen_update_instance pru_period l_period_ns s).2,
      ∃ f v, w = pru_write.field f v) ∧
    (s.param.steplen = s.written_steplen →
      s.param.dirhold = s.written_dirhold →
      task_dword0 (hpg_stepgen_update_instance pru_period l_period_ns s).1.pru =
        s.written_task →
      (s.stepgen_updateclass = updateclass_t.stepdir →
        dir_stepspace s.param = s.written_stepspace ∧
        dir_dirsetup s.param = s.written_dirsetup ∧
        step_inv s.pru = dir_stepinv s.param) →
      (s.stepgen_updateclass = updateclass_t.stepphase →
        phase_pin_c s.param = pin_c s.pru ∧
        phase_pin_d s.param = pin_d s.pru ∧
        phase_type s.param = s.written_phase) →
      (hpg_stepgen_update_instance pru_period l_period_ns s).2 =
        [pru_write.field pru_field.rate
          (toU32 (hpg_stepgen_update_instance pru_period l_period_ns s).1.pru.rate)]) := by
  have hi := update_instance_idle_log pru_period l_period_ns s
  have hl := update_instance_log pru_period l_period_ns s
  generalize hpg_stepgen_update_instance pru_period l_period_ns s = r at hl hi ⊢
  refine ⟨?_, ?_, ?_, ?_, ?_, ?_, ?_, hi⟩
  · rw [hl]
    cases s.stepgen_updateclass <;>
      simp only [writes_to_append, writes_to_ite, writes_to_single, writes_to_nil] <;> simp
  · rw [hl]
    cases s.stepgen_updateclass <;>
      simp only [writes_to_append, writes_to_ite, writes_to_single, writes_to_nil] <;> simp
  · rw [hl]
    cases s.stepgen_updateclass <;>
      simp only [writes_to_append, writes_to_ite, writes_to_single, writes_to_nil] <;> simp
  · rw [hl]
    cases s.stepgen_updateclass <;>
      simp only [writes_to_append, writes_to_ite, writes_to_single, writes_to_nil] <;> simp
  · intro hc
    rw [hl, hc]
    simp only [writes_to_append, writes_to_ite, writes_to_single, writes_to_nil]
    simp
  · intro hc
    rw [hl, hc]
    simp only [writes_to_append, writes_to_ite, writes_to_single, writes_to_nil]
    simp
  · intro w hw
    rw [hl] at hw
    simp only [List.mem_append, List.mem_singleton] at hw
    rcases hw with (((hw | hw) | hw) | hw) | hw
    · exact mem_ite_field _ _ _ w hw
    · exact mem_ite_field _ _ _ w hw
    · revert hw
      cases s.stepgen_updateclass
      · intro hw
        simp only [List.mem_append] at hw
        rcases hw with (hw | hw) | hw <;> exact mem_ite_field _ _ _ w hw
      · intro hw
        simp only [List.mem_append] at hw
        rcases hw with (hw | hw) | hw <;> exact mem_ite_field _ _ _ w hw
    · exact mem_ite_field _ _ _ w hw
    · exact ⟨_, _, hw⟩

/-! ## Force write: the descriptors in shared memory -/

theorem store_logs_cons (mem : Nat → PRU_task_stepgen_t) (al : Nat × List pru_write)
    (logs : List (Nat × List pru_write)) :
    store_logs mem (al :: logs) = store_logs (store_log mem al.1 al.2) logs := rfl

/-- Stores to other descriptors leave a descriptor as it is. -/
theorem store_logs_other (logs : List (Nat × List pru_write))
    (mem : Nat → PRU_task_stepgen_t) (a : Nat) (h : a ∉ logs.map Prod.fst) :
    store_logs mem logs a = mem a := by
  induction logs generalizing mem with
  | nil => rfl
  | cons x xs ih =>
    have hx : a ≠ x.1 := fun e => h (by simp [e])
    have hxs : a ∉ xs.map Prod.fst := fun e => h (by simp only [List.map_cons]; exact List.mem_cons_of_mem _ e)
    rw [store_logs_cons, ih _ hxs]
    simp only [store_log]
    rw [if_neg hx]

theorem store_logs_whole (g : hpg_stepgen_instance_t → PRU_task_stepgen_t)
    (l : List hpg_stepgen_instance_t) (mem : Nat → PRU_task_stepgen_t)
    (hnd : (l.map fun s => s.task.addr).Nodup) (s : hpg_stepgen_instance_t) (hs : s ∈ l) :
    store_logs mem (l.map fun s => (s.task.addr, [pru_write.whole (g s)])) s.task.addr =
      g s := by
  induction l generalizing mem with
  | nil => exact absurd hs (List.not_mem_nil s)
  | cons x xs ih =>
    rw [List.map_cons, List.nodup_cons] at hnd
    rw [List.map_cons, store_logs_cons]
    by_cases hx : s.task.addr = x.task.addr
    · rw [store_logs_other]
      · simp only [store_log]
        rw [if_pos hx]
        rcases List.mem_cons.1 hs with e | e
        · rw [e]
          rfl
        · exact absurd (List.mem_map.2 ⟨s, e, hx⟩) hnd.1
      · rw [List.map_map, hx]
        exact hnd.1
    · rcases List.mem_cons.1 hs with e | e
      · exact absurd (by rw [e]) hx
      · exact ih _ hnd.2 e

theorem zip_map_map {α β γ : Type} (f : α → β) (g : α × β → γ) (l : List α) :
    (l.zip (l.map f)).map g = l.map fun a => g (a, f a) := by
  induction l with
  | nil => rfl
  | cons x xs ih => simp only [List.map_cons, List.zip_cons_cons, ih]

/-- The stores of `hpg_stepgen_force_write`: one copy of the whole host shadow per channel,
to the address of the channel. -/
theorem force_write_logs (hpg : hal_pru_generic_t) :
    (hpg_stepgen_force_write hpg).2 =
      hpg.stepgen.map fun s =>
        (s.task.addr, [pru_write.whole (force_write_shadow hpg.pru_period s).pru]) := by
  simp only [hpg_stepgen_force_write, zip_map_map]
  rfl

theorem force_write_stepgen (hpg : hal_pru_generic_t) :
    (hpg_stepgen_force_write hpg).1.stepgen =
      hpg.stepgen.map (force_write_shadow hpg.pru_period) := by
  simp only [hpg_stepgen_force_write, List.map_map]
  rfl

theorem clear_counters_fields (q : PRU_task_stepgen_t) :
    (({ q with accum := 0, pos := 0, reserved1 := 0 } : PRU_task_stepgen_t).mode = q.mode ∧
      ({ q with accum := 0, pos := 0, reserved1 := 0 } : PRU_task_stepgen_t).len = q.len ∧
      ({ q with accum := 0, pos := 0, reserved1 := 0 } : PRU_task_stepgen_t).addr = q.addr ∧
      ({ q with accum := 0, pos := 0, reserved1 := 0 } : PRU_task_stepgen_t).rate = q.rate ∧
      ({ q with accum := 0, pos := 0, reserved1 := 0 } : PRU_task_stepgen_t).steplen =
        q.steplen ∧
      ({ q with accum := 0, pos := 0, reserved1 := 0 } : PRU_task_stepgen_t).dirhold =
        q.dirhold) ∧
    (({ q with accum := 0, pos := 0, reserved1 := 0 } : PRU_task_stepgen_t).dataX = q.dataX ∧
      ({ q with accum := 0, pos := 0, reserved1 := 0 } : PRU_task_stepgen_t).dataY = q.dataY ∧
      ({ q with accum := 0, pos := 0, reserved1 := 0 } : PRU_task_stepgen_t).stepspace =
        q.stepspace ∧
      ({ q with accum := 0, pos := 0, reserved1 := 0 } : PRU_task_stepgen_t).dirsetup =
        q.dirsetup ∧
      ({ q with accum := 0, pos := 0, reserved1 := 0 } : PRU_task_stepgen_t).lut = q.lut) :=
  ⟨⟨rfl, rfl, rfl, rfl, rfl, rfl⟩, rfl, rfl, rfl, rfl, rfl⟩

/-- The host shadow `hpg_stepgen_force_write` copies, by branch. -/
theorem force_write_shadow_pru (pru_period : Int) (s : hpg_stepgen_instance_t) :
    (force_write_shadow pru_period s).pru =
      { (if s.pru.mode = eMODE_STEP_DIR then force_write_stepdir pru_period s
          else if s.pru.mode = eMODE_STEP_PHASE then force_write_stepphase pru_period s
          else { s with pru := force_write_common pru_period s }).pru with
        accum := 0, pos := 0, reserved1 := 0 } := rfl

theorem with_pru_task (u : hpg_stepgen_instance_t) (p : PRU_task_stepgen_t) :
    ({ u with pru := p } : hpg_stepgen_instance_t).task = u.task := rfl

theorem create_lut_instance_task (s : hpg_stepgen_instance_t) :
    (create_lut_instance s).task = s.task := by
  simp only [create_lut_instance]
  split <;> rfl

theorem force_write_stepphase_task (pru_period : Int) (s : hpg_stepgen_instance_t) :
    (force_write_stepphase pru_period s).task = s.task := by
  have h0 : (force_write_stepphase_pins pru_period s).task = s.task := rfl
  have h1 := create_lut_instance_task (force_write_stepphase_pins pru_period s)
  have h2 := with_pru_task (create_lut_instance (force_write_stepphase_pins pru_period s))
    { (create_lut_instance (force_write_stepphase_pins pru_period s)).pru with
      lut := create_lut (force_write_stepphase_pins pru_period s) }
  exact h2.trans (h1.trans h0)

theorem force_write_shadow_task (pru_period : Int) (s : hpg_stepgen_instance_t) :
    (force_write_shadow pru_period s).task = s.task := by
  have key : ∀ r : hpg_stepgen_instance_t, r.task = s.task →
      ({ r with pru := { r.pru with accum := 0, pos := 0, reserved1 := 0 } } :
        hpg_stepgen_instance_t).task = s.task := fun r h => h
  unfold force_write_shadow
  apply key
  split
  · rfl
  · split
    · exact force_write_stepphase_task pru_period s
    · rfl

theorem force_write_common_fields (pru_period : Int) (s : hpg_stepgen_instance_t) :
    (force_write_common pru_period s).mode = s.pru.mode ∧
    (force_write_common pru_period s).len = 0 ∧
    (force_write_common pru_period s).addr = s.task.next ∧
    (force_write_common pru_period s).rate = 0 ∧
    (force_write_common pru_period s).steplen = ns2periods pru_period s.param.steplen ∧
    (force_write_common pru_period s).dirhold = ns2periods pru_period s.param.dirhold :=
  ⟨rfl, rfl, rfl, rfl, rfl, rfl⟩

theorem force_write_stepdir_common (pru_period : Int) (s : hpg_stepgen_instance_t) :
    (force_write_stepdir pru_period s).pru.mode = s.pru.mode ∧
    (force_write_stepdir pru_period s).pru.len = 0 ∧
    (force_write_stepdir pru_period s).pru.addr = s.task.next ∧
    (force_write_stepdir pru_period s).pru.rate = 0 ∧
    (force_write_stepdir pru_period s).pru.steplen = ns2periods pru_period s.param.steplen ∧
    (force_write_stepdir pru_period s).pru.dirhold = ns2periods pru_period s.param.dirhold :=
  ⟨rfl, rfl, rfl, rfl, rfl, rfl⟩

theorem force_write_stepdir_fields (pru_period : Int) (s : hpg_stepgen_instance_t) :
    (force_write_stepdir pru_period s).pru.dataX = dir_steppin s.param % 256 ∧
    (force_write_stepdir pru_period s).pru.dataY = dir_dirpin s.param % 256 ∧
    (force_write_stepdir pru_period s).pru.stepspace =
      ns2periods pru_period (dir_stepspace s.param) ∧
    (force_write_stepdir pru_period s).pru.dirsetup =
      ns2periods pru_period (dir_dirsetup s.param) ∧
    (force_write_stepdir pru_period s).pru.lut = 0 := by
  refine ⟨rfl, rfl, rfl, rfl, ?_⟩
  simp only [force_write_stepdir, set_step_inv, set_step_resvd3, set_step_resvd2]
  omega

theorem create_lut_instance_pru (s : hpg_stepgen_instance_t) :
    (create_lut_instance s).pru = s.pru := by
  simp only [create_lut_instance]
  split <;> rfl

theorem with_lut_fields (q : PRU_task_stepgen_t) (l : Nat) :
    (({ q with lut := l } : PRU_task_stepgen_t).mode = q.mode ∧
      ({ q with lut := l } : PRU_task_stepgen_t).len = q.len ∧
      ({ q with lut := l } : PRU_task_stepgen_t).addr = q.addr ∧
      ({ q with lut := l } : PRU_task_stepgen_t).rate = q.rate ∧
      ({ q with lut := l } : PRU_task_stepgen_t).steplen = q.steplen ∧
      ({ q with lut := l } : PRU_task_stepgen_t).dirhold = q.dirhold) ∧
    (({ q with lut := l } : PRU_task_stepgen_t).dataX = q.dataX ∧
      ({ q with lut := l } : PRU_task_stepgen_t).dataY = q.dataY ∧
      ({ q with lut := l } : PRU_task_stepgen_t).stepspace = q.stepspace ∧
      ({ q with lut := l } : PRU_task_stepgen_t).lut = l) :=
  ⟨⟨rfl, rfl, rfl, rfl, rfl, rfl⟩, rfl, rfl, rfl, rfl⟩

theorem force_write_stepphase_pru (pru_period : Int) (s : hpg_stepgen_instance_t) :
    (force_write_stepphase pru_period s).pru =
      { (force_write_stepphase_pins pru_period s).pru with lut := create_lut s } := by
  have h1 := create_lut_instance_pru (force_write_stepphase_pins pru_period s)
  have h2 : create_lut (force_write_stepphase_pins pru_period s) = create_lut s :=
    create_lut_congr _ _ rfl
  have h3 : (force_write_stepphase pru_period s).pru =
      { (create_lut_instance (force_write_stepphase_pins pru_period s)).pru with
        lut := create_lut (force_write_stepphase_pins pru_period s) } := rfl
  rw [h3, h1, h2]

theorem force_write_stepphase_pins_common (pru_period : Int) (s : hpg_stepgen_instance_t) :
    (force_write_stepphase_pins pru_period s).pru.mode = s.pru.mode ∧
    (force_write_stepphase_pins pru_period s).pru.len = 0 ∧
    (force_write_stepphase_pins pru_period s).pru.addr = s.task.next ∧
    (force_write_stepphase_pins pru_period s).pru.rate = 0 ∧
    (force_write_stepphase_pins pru_period s).pru.steplen =
      ns2periods pru_period s.param.steplen ∧
    (force_write_stepphase_pins pru_period s).pru.dirhold =
      ns2periods pru_period s.param.dirhold :=
  ⟨rfl, rfl, rfl, rfl, rfl, rfl⟩

theorem force_write_stepphase_pins_fields (pru_period : Int) (s : hpg_stepgen_instance_t) :
    (force_write_stepphase_pins pru_period s).pru.dataX = phase_pin_a s.param % 256 ∧
    (force_write_stepphase_pins pru_period s).pru.dataY = phase_pin_b s.param % 256 ∧
    (force_write_stepphase_pins pru_period s).pru.stepspace % 256 =
      phase_pin_c s.param % 256 ∧
    (force_write_stepphase_pins pru_period s).pru.stepspace / 256 % 256 =
      phase_pin_d s.param % 256 := by
  refine ⟨rfl, rfl, ?_, ?_⟩
  · simp only [force_write_stepphase_pins, set_pin_c, set_pin_d]
    omega
  · simp only [force_write_stepphase_pins, set_pin_c, set_pin_d]
    omega

/-- The members of the host shadow after the assignments of `hpg_stepgen_force_write`. -/
theorem force_write_shadow_fields (pru_period : Int) (s : hpg_stepgen_instance_t) :
    ((force_write_shadow pru_period s).pru.mode = s.pru.mode ∧
      (force_write_shadow pru_period s).pru.len = 0 ∧
      (force_write_shadow pru_period s).pru.addr = s.task.next ∧
      (force_write_shadow pru_period s).pru.rate = 0 ∧
      (force_write_shadow pru_period s).pru.steplen = ns2periods pru_period s.param.steplen ∧
      (force_write_shadow pru_period s).pru.dirhold = ns2periods pru_period s.param.dirhold ∧
      (force_write_shadow pru_period s).pru.accum = 0 ∧
      (force_write_shadow pru_period s).pru.pos = 0 ∧
      (force_write_shadow pru_period s).pru.reserved1 = 0) ∧
    (s.pru.mode = eMODE_STEP_DIR →
      (force_write_shadow pru_period s).pru.dataX = dir_steppin s.param % 256 ∧
      (force_write_shadow pru_period s).pru.dataY = dir_dirpin s.param % 256 ∧
      (force_write_shadow pru_period s).pru.stepspace =
        ns2periods pru_period (dir_stepspace s.param) ∧
      (force_write_shadow pru_period s).pru.dirsetup =
        ns2periods pru_period (dir_dirsetup s.param) ∧
      step_inv (force_write_shadow pru_period s).pru = 0 ∧
      (force_write_shadow pru_period s).pru.lut = 0) ∧
    (s.pru.mode = eMODE_STEP_PHASE →
      (force_write_shadow pru_period s).pru.dataX = phase_pin_a s.param % 256 ∧
      (force_write_shadow pru_period s).pru.dataY = phase_pin_b s.param % 256 ∧
      pin_c (force_write_shadow pru_period s).pru = phase_pin_c s.param % 256 ∧
      pin_d (force_write_shadow pru_period s).pru = phase_pin_d s.param % 256 ∧
      (force_write_shadow pru_period s).pru.lut = create_lut s) := by
  have hp := force_write_shadow_pru pru_period s
  generalize (force_write_shadow pru_period s).pru = x at hp ⊢
  have hne : eMODE_STEP_DIR ≠ eMODE_STEP_PHASE := by decide
  by_cases h4 : s.pru.mode = eMODE_STEP_DIR
  · rw [if_pos h4] at hp
    have c := force_write_stepdir_common pru_period s
    have f := force_write_stepdir_fields pru_period s
    generalize (force_write_stepdir pru_period s).pru = q at hp c f
    subst hp
    refine ⟨⟨c.1, c.2.1, c.2.2.1, c.2.2.2.1, c.2.2.2.2.1, c.2.2.2.2.2, rfl, rfl, rfl⟩, ?_, ?_⟩
    · intro _
      refine ⟨f.1, f.2.1, f.2.2.1, f.2.2.2.1, ?_, f.2.2.2.2⟩
      have hl : q.lut = 0 := f.2.2.2.2
      simp [step_inv, hl]
    · intro h9
      exact absurd (h4.symm.trans h9) hne
  · rw [if_neg h4] at hp
    by_cases h9 : s.pru.mode = eMODE_STEP_PHASE
    · rw [if_pos h9, force_write_stepphase_pru] at hp
      have c := force_write_stepphase_pins_common pru_period s
      have f := force_write_stepphase_pins_fields pru_period s
      generalize (force_write_stepphase_pins pru_period s).pru = q at hp c f
      subst hp
      refine ⟨⟨c.1, c.2.1, c.2.2.1, c.2.2.2.1, c.2.2.2.2.1, c.2.2.2.2.2, rfl, rfl, rfl⟩,
        ?_, ?_⟩
      · intro h
        exact absurd h h4
      · intro _
        exact ⟨f.1, f.2.1, f.2.2.1, f.2.2.2, rfl⟩
    · rw [if_neg h9] at hp
      have c := force_write_common_fields pru_period s
      have hq : ({ s with pru := force_write_common pru_period s } :
          hpg_stepgen_instance_t).pru = force_write_common pru_period s := rfl
      rw [hq] at hp
      generalize force_write_common pru_period s = q at hp c
      subst hp
      refine ⟨⟨c.1, c.2.1, c.2.2.1, c.2.2.2.1, c.2.2.2.2.1, c.2.2.2.2.2, rfl, rfl, rfl⟩,
        ?_, ?_⟩
      · intro h
        exact absurd h h4
      · intro h
        exact absurd h h9

/-- C20: after `hpg_stepgen_force_write`, with the descriptors of the channels at pairwise
different addresses. The host instances are the old ones after the assignments of the
function; for every channel the descriptor in shared memory at the address of the channel is
the host shadow of the channel, the task links are untouched, and the shadow has: the mode
it had (the one `hpg_stepgen_init` assigned to a new channel), length 0, `addr` = the next
link of the task, rate 0, `steplen` and `dirhold` = `ns2periods` of their parameters,
`accum`, `pos` and `reserved1` 0; for mode `eMODE_STEP_DIR` `dataX` and `dataY` = the step
and direction pin parameters (as bytes), `stepspace` and `dirsetup` = `ns2periods` of their
parameters, and the invert byte (with the rest of that word) 0; for mode `eMODE_STEP_PHASE`
`dataX`, `dataY`, pin C and pin D = the parameters pin A to pin D (as bytes) and `lut` =
`create_lut` of the configured step type. -/
theorem force_write_populates_descriptors (hpg : hal_pru_generic_t)
    (mem : Nat → PRU_task_stepgen_t)
    (hnd : (hpg.stepgen.map fun s => s.task.addr).Nodup) :
    (hpg_stepgen_force_write hpg).1.stepgen =
      hpg.stepgen.map (force_write_shadow hpg.pru_period) ∧
    (∀ (cls : updateclass_t) (addr : Nat),
      (new_channel hpg.pru_period cls addr).pru.mode =
        (match cls with
         | updateclass_t.stepdir => eMODE_STEP_DIR
         | updateclass_t.stepphase => eMODE_STEP_PHASE)) ∧
    ∀ s ∈ hpg.stepgen,
      store_logs mem (hpg_stepgen_force_write hpg).2 s.task.addr =
        (force_write_shadow hpg.pru_period s).pru ∧
      (force_write_shadow hpg.pru_period s).task = s.task ∧
      ((force_write_shadow hpg.pru_period s).pru.mode = s.pru.mode ∧
        (force_write_shadow hpg.pru_period s).pru.len = 0 ∧
        (force_write_shadow hpg.pru_period s).pru.addr = s.task.next ∧
        (force_write_shadow hpg.pru_period s).pru.rate = 0 ∧
        (force_write_shadow hpg.pru_period s).pru.steplen =
          ns2periods hpg.pru_period s.param.steplen ∧
        (force_write_shadow hpg.pru_period s).pru.dirhold =
          ns2periods hpg.pru_period s.param.dirhold ∧
        (force_write_shadow hpg.pru_period s).pru.accum = 0 ∧
        (force_write_shadow hpg.pru_period s).pru.pos = 0 ∧
        (force_write_shadow hpg.pru_period s).pru.reserved1 = 0) ∧
      (s.pru.mode = eMODE_STEP_DIR →
        (force_write_shadow hpg.pru_period s).pru.dataX = dir_steppin s.param % 256 ∧
        (force_write_shadow hpg.pru_period s).pru.dataY = dir_dirpin s.param % 256 ∧
        (force_write_shadow hpg.pru_period s).pru.stepspace =
          ns2periods hpg.pru_period (dir_stepspace s.param) ∧
        (force_write_shadow hpg.pru_period s).pru.dirsetup =
          ns2periods hpg.pru_period (dir_dirsetup s.param) ∧
        step_inv (force_write_shadow hpg.pru_period s).pru = 0 ∧
        (force_write_shadow hpg.pru_period s).pru.lut = 0) ∧
      (s.pru.mode = eMODE_STEP_PHASE →
        (force_write_shadow hpg.pru_period s).pru.dataX = phase_pin_a s.param % 256 ∧
        (force_write_shadow hpg.pru_period s).pru.dataY = phase_pin_b s.param % 256 ∧
        pin_c (force_write_shadow hpg.pru_period s).pru = phase_pin_c s.param % 256 ∧
        pin_d (force_write_shadow hpg.pru_period s).pru = phase_pin_d s.param % 256 ∧
        (force_write_shadow hpg.pru_period s).pru.lut = create_lut s) := by
  refine ⟨force_write_stepgen hpg, ?_, ?_⟩
  · intro cls addr
    cases cls <;> rfl
  · intro s hs
    have hf := force_write_shadow_fields hpg.pru_period s
    refine ⟨?_, force_write_shadow_task hpg.pru_period s, hf.1, hf.2.1, hf.2.2⟩
    rw [force_write_logs]
    exact store_logs_whole (fun s => (force_write_shadow hpg.pru_period s).pru) hpg.stepgen mem
      hnd s hs

theorem force_write_populates_descriptors_witness :
    store_logs (fun _ => zero_pru)
        (hpg_stepgen_force_write
          ⟨10000, [new_channel 10000 updateclass_t.stepdir 12,
            new_channel 10000 updateclass_t.stepphase 44]⟩).2
        (new_channel 10000 updateclass_t.stepphase 44).task.addr =
      (force_write_shadow 10000 (new_channel 10000 updateclass_t.stepphase 44)).pru :=
  ((force_write_populates_descriptors
    ⟨10000, [new_channel 10000 updateclass_t.stepdir 12,
      new_channel 10000 updateclass_t.stepphase 44]⟩
    (fun _ => zero_pru) (by decide)).2.2
      (new_channel 10000 updateclass_t.stepphase 44) (by simp)).1

/-! ## The 16.16 reading and the published counts -/

theorem and_low16 (x : Nat) : x &&& 0x0000FFFF = x % 65536 :=
  Nat.and_pow_two_sub_one_eq_mod x 16

theorem or_low16 (a b : Nat) (ha : a < 65536) : a ||| 65536 * b = 65536 * b + a := by
  rw [Nat.or_comm]
  exact (Nat.mul_add_lt_is_or (show a < 2 ^ 16 from ha) b).symm

theorem acc_of_eq (A P : Nat) : acc_of A P = A / 2048 % 65536 + (P % 65536) * 65536 := by
  have e1 : (A >>> 11) &&& 0x0000FFFF = A / 2048 % 65536 := by
    rw [and_low16, Nat.shiftRight_eq_div_pow]
  have e2 : (P <<< 16) % 4294967296 = 65536 * (P % 65536) := by
    rw [Nat.shiftLeft_eq]
    omega
  unfold acc_of
  rw [e1, e2, or_low16 _ _ (Nat.mod_lt _ (by decide))]
  omega

/-- C23: the 16.16 value `acc` of `hpg_stepgen_read` for the raw accumulator `A` and step
counter `P` is `((A >> 11) mod 2^16) + (P mod 2^16) * 2^16`. Its low 16 bits are bits
11..26 of the accumulator: they do not depend on the bits from 27 up nor on the low 11
bits. Its high 16 bits are the low 16 bits of the step counter. This is the value the
read keeps in `prev_accumulator`, built from the low (accumulator) and high (step
counter) 32 bits of the 64-bit value. -/
theorem acc_of_value (A P : Nat) :
    acc_of A P = A / 2048 % 65536 + (P % 65536) * 65536 ∧
    acc_of A P % 65536 = A / 2048 % 65536 ∧
    acc_of A P % 65536 = A % 134217728 / 2048 ∧
    acc_of A P / 65536 = P % 65536 ∧
    acc_of A P < 4294967296 ∧
    (∀ (x : Int) (s : hpg_stepgen_instance_t),
      (hpg_stepgen_read_instance x s).prev_accumulator =
        acc_of (toU32 x) (toU32 (x / 4294967296))) := by
  have e := acc_of_eq A P
  refine ⟨e, ?_, ?_, ?_, ?_, fun _ _ => rfl⟩ <;> omega

/-- C27: for 32-bit readings `prev` and `acc` the raw difference `acc - prev` lies in
`(-2^32, 2^32)` and the corrected delta that `hpg_stepgen_read` adds to `subcounts` lies
in `[-2^31, 2^31 - 1]`. -/
theorem acc_delta_in_s32_range (prev acc : Nat) (hp : prev < 4294967296)
    (ha : acc < 4294967296) :
    (-4294967296 < (acc : Int) - (prev : Int) ∧ (acc : Int) - (prev : Int) < 4294967296) ∧
    -2147483648 ≤ acc_delta acc prev ∧ acc_delta acc prev ≤ 2147483647 ∧
    (∀ (x : Int) (s : hpg_stepgen_instance_t),
      (hpg_stepgen_read_instance x s).subcounts =
        toU64 ((s.subcounts : Int) +
          acc_delta (acc_of (toU32 x) (toU32 (x / 4294967296))) s.prev_accumulator)) := by
  refine ⟨⟨by omega, by omega⟩, ?_, ?_, fun _ _ => rfl⟩
  · simp only [acc_delta, INT32_MAX, INT32_MIN, UINT32_MAX]
    split_ifs <;> omega
  · simp only [acc_delta, INT32_MAX, INT32_MIN, UINT32_MAX]
    split_ifs <;> omega

theorem acc_delta_in_s32_range_witness :
    -2147483648 ≤ acc_delta 0x00000010 0xFFFFFFF0 ∧
    acc_delta 0x00000010 0xFFFFFFF0 ≤ 2147483647 :=
  ⟨(acc_delta_in_s32_range 0xFFFFFFF0 0x00000010 (by decide) (by decide)).2.1,
    (acc_delta_in_s32_range 0xFFFFFFF0 0x00000010 (by decide) (by decide)).2.2.1⟩

theorem toU64_lt (x : Int) : toU64 x < 18446744073709551616 := by
  unfold toU64
  omega

theorem counts_of_subcounts (u : Nat) (hu : u < 18446744073709551616) :
    toS32 ((u / 65536 : Nat) : Int) = toS32 ⌊((asS64 u : Int) : Rat) / 65536⌋ := by
  have e : ⌊((asS64 u : Int) : Rat) / 65536⌋ = asS64 u / 65536 := by
    have h := Rat.floor_intCast_div_natCast (asS64 u) 65536
    simpa using h
  rw [e]
  simp only [toS32, asS64]
  split_ifs <;> omega

/-- C28: the `counts` pin after `hpg_stepgen_read` is `floor(S / 65536)` reduced to a signed
32-bit integer, where `S` is the new `subcounts` read as a signed 64-bit value; the code
computes it from the unsigned word with a logical shift. -/
theorem counts_is_floor_of_signed_subcounts (x : Int) (s : hpg_stepgen_instance_t) :
    (hpg_stepgen_read_instance x s).pin.counts =
      toS32 ((((hpg_stepgen_read_instance x s).subcounts / 65536 : Nat)) : Int) ∧
    (hpg_stepgen_read_instance x s).pin.counts =
      toS32 ⌊((asS64 (hpg_stepgen_read_instance x s).subcounts : Int) : Rat) / 65536⌋ := by
  have h : (hpg_stepgen_read_instance x s).subcounts < 18446744073709551616 :=
    toU64_lt _
  have e : (hpg_stepgen_read_instance x s).pin.counts =
      toS32 ((((hpg_stepgen_read_instance x s).subcounts / 65536 : Nat)) : Int) := rfl
  exact ⟨e, e.trans (counts_of_subcounts _ h)⟩

/-! ## The pattern table for the supported step types -/

/-- The word `create_lut` builds from row `row` of the table. -/
theorem create_lut_of_row (s : hpg_stepgen_instance_t) (row : Nat)
    (h : create_lut_row s = row) :
    create_lut s =
      (List.range MAX_CYCLE).reverse.foldl
        (fun ret j => ((ret <<< 4) % 4294967296) ||| master_lut_at row j) 0 := by
  simp only [create_lut, h]

theorem lut_words :
    ∀ row, row < 7 →
      (List.range MAX_CYCLE).reverse.foldl
          (fun ret j => ((ret <<< 4) % 4294967296) ||| master_lut_at row j) 0 =
        ((List.range 8).map fun j => master_lut_at row j * 16 ^ j).sum ∧
      ∀ j, j < 8 →
        (List.range MAX_CYCLE).reverse.foldl
            (fun ret j => ((ret <<< 4) % 4294967296) ||| master_lut_at row j) 0 / 16 ^ j % 16 =
          master_lut_at row j := by
  decide

/-- C24: for a step type code `t` in 5..11 `create_lut` leaves the instance (and with it the
step type parameter) unchanged, uses row `t - 5` of the table, and returns the word whose
nibble `j` (0 the least significant) is pattern `j` of that row: the sum of
`master_lut[t - 5][j] * 16^j` for `j = 0..7`. Type 5 gives 0x84218421, type 6 gives
0x9C639C63. -/
theorem create_lut_supported_types (s : hpg_stepgen_instance_t)
    (h5 : 5 ≤ phase_type s.param) (h11 : phase_type s.param ≤ 11) :
    create_lut_instance s = s ∧
    create_lut_row s = phase_type s.param - 5 ∧
    create_lut s =
      ((List.range 8).map fun j => master_lut_at (phase_type s.param - 5) j * 16 ^ j).sum ∧
    (∀ j, j < 8 → create_lut s / 16 ^ j % 16 = master_lut_at (phase_type s.param - 5) j) ∧
    (phase_type s.param = 5 → create_lut s = 0x84218421) ∧
    (phase_type s.param = 6 → create_lut s = 0x9C639C63) := by
  have hl : master_lut.length = 7 := rfl
  have hrow : create_lut_row s = phase_type s.param - 5 := by
    simp only [create_lut_row]
    rw [hl]
    split_ifs with hc <;> omega
  have hw := create_lut_of_row s _ hrow
  have hlt : phase_type s.param - 5 < 7 := by omega
  have hk := lut_words _ hlt
  refine ⟨?_, hrow, hw.trans hk.1, ?_, ?_, ?_⟩
  · simp only [create_lut_instance]
    rw [hl]
    split_ifs with hc
    · omega
    · rfl
  · intro j hj
    rw [hw]
    exact hk.2 j hj
  · intro h
    rw [hw, h]
    decide
  · intro h
    rw [hw, h]
    decide

theorem create_lut_supported_types_witness :
    create_lut
        { new_channel 10000 updateclass_t.stepphase 12 with
          param := { zero_param with stepinv_type := 5 } } = 0x84218421 :=
  (create_lut_supported_types
    { new_channel 10000 updateclass_t.stepphase 12 with
      param := { zero_param with stepinv_type := 5 } }
    (by decide) (by decide)).2.2.2.2.1 rfl

/-! ## Conversion of a time to coprocessor periods -/

theorem truncQ_intCast (z : Int) : truncQ (z : Rat) = z := by
  unfold truncQ
  split_ifs
  · exact Int.floor_intCast z
  · exact Int.ceil_intCast z

theorem double_to_u16_ceilQ (x : Rat) (h0 : 0 ≤ x) (h1 : x ≤ 65535) :
    ((double_to_u16 (ceilQ x) : Nat) : Int) = ⌈x⌉ := by
  have c0 : 0 ≤ ⌈x⌉ := Int.ceil_nonneg h0
  have c1 : ⌈x⌉ ≤ 65535 := Int.ceil_le.2 (by exact_mod_cast h1)
  simp only [double_to_u16, ceilQ, double_to_s32, truncQ_intCast]
  split_ifs <;> omega

/-- For a time of at most 65535 periods `ns2periods` is the ceiling of the quotient. -/
theorem ns2periods_eq_ceil (pru_period : Int) (ns : Nat) (hP : 0 < pru_period)
    (hns : (ns : Int) ≤ 65535 * pru_period) :
    ((ns2periods pru_period ns : Nat) : Int) = ⌈(ns : Rat) / (pru_period : Rat)⌉ := by
  have hPq : (0 : Rat) < (pru_period : Rat) := by exact_mod_cast hP
  have h0 : (0 : Rat) ≤ (ns : Rat) / (pru_period : Rat) :=
    div_nonneg (Nat.cast_nonneg ns) hPq.le
  have h1 : (ns : Rat) / (pru_period : Rat) ≤ 65535 := by
    rw [div_le_iff₀ hPq]
    exact_mod_cast hns
  exact double_to_u16_ceilQ _ h0 h1

/-- C25: for a coprocessor period `P > 0` and a time `ns <= 65535 * P`, `ns2periods` returns
the least number `p` of periods that covers the time: `p * P >= ns`, `(p - 1) * P < ns`
(so no smaller number covers it: every `q` with `q * P >= ns` is at least `p`), `p` fits
the 16-bit member, and 0 ns gives 0 periods. -/
theorem ns2periods_is_ceiling (pru_period : Int) (ns : Nat) (hP : 0 < pru_period)
    (hns : (ns : Int) ≤ 65535 * pru_period) :
    (ns : Int) ≤ (ns2periods pru_period ns : Int) * pru_period ∧
    ((ns2periods pru_period ns : Int) - 1) * pru_period < (ns : Int) ∧
    (∀ q : Nat, (ns : Int) ≤ (q : Int) * pru_period → ns2periods pru_period ns ≤ q) ∧
    ns2periods pru_period ns ≤ 65535 ∧
    ns2periods pru_period 0 = 0 := by
  have hPq : (0 : Rat) < (pru_period : Rat) := by exact_mod_cast hP
  have e := ns2periods_eq_ceil pru_period ns hP hns
  have hle : (ns : Rat) / (pru_period : Rat) ≤ ((ns2periods pru_period ns : Int) : Rat) := by
    rw [e]
    exact Int.le_ceil _
  have hlt : ((ns2periods pru_period ns : Int) : Rat) < (ns : Rat) / (pru_period : Rat) + 1 := by
    rw [e]
    exact Int.ceil_lt_add_one _
  refine ⟨?_, ?_, ?_, ?_, ?_⟩
  · rw [div_le_iff₀ hPq] at hle
    exact_mod_cast hle
  · have h2 : ((ns2periods pru_period ns : Int) : Rat) - 1 < (ns : Rat) / (pru_period : Rat) := by
      linarith
    rw [lt_div_iff₀ hPq] at h2
    exact_mod_cast h2
  · intro q hq
    have h3 : (ns : Rat) / (pru_period : Rat) ≤ ((q : Int) : Rat) := by
      rw [div_le_iff₀ hPq]
      exact_mod_cast hq
    have h4 : ⌈(ns : Rat) / (pru_period : Rat)⌉ ≤ (q : Int) := Int.ceil_le.2 h3
    rw [← e] at h4
    exact_mod_cast h4
  · have h5 : ⌈(ns : Rat) / (pru_period : Rat)⌉ ≤ 65535 := by
      apply Int.ceil_le.2
      rw [div_le_iff₀ hPq]
      exact_mod_cast hns
    rw [← e] at h5
    exact_mod_cast h5
  · have e0 := ns2periods_eq_ceil pru_period 0 hP (by simpa using (by linarith : (0 : Int) ≤ 65535 * pru_period))
    simp at e0
    exact e0

theorem ns2periods_is_ceiling_witness :
    ((25001 : Nat) : Int) ≤ (ns2periods 10000 25001 : Int) * 10000 ∧
    ((ns2periods 10000 25001 : Int) - 1) * 10000 < ((25001 : Nat) : Int) :=
  ⟨(ns2periods_is_ceiling 10000 25001 (by decide) (by decide)).1,
    (ns2periods_is_ceiling 10000 25001 (by decide) (by decide)).2.1⟩

/-! ## The rate conversion while the `int` product of the pulse timing does not overflow -/

theorem update_stepgen_position_scale (pru_period l_period_ns : Int)
    (s : hpg_stepgen_instance_t) :
    (update_stepgen pru_period l_period_ns s).param.position_scale = s.param.position_scale := by
  simp only [update_stepgen]
  split <;> rfl

theorem update_stepgen_velocity_fb_clipped (pru_period l_period_ns : Int)
    (s : hpg_stepgen_instance_t) :
    ∃ v, (update_stepgen pru_period l_period_ns s).pin.velocity_fb =
      clip_velocity v (update_stepgen_maxvel pru_period s) := by
  by_cases hc : s.pin.control_type = 0
  · exact ⟨_, update_stepgen_position_mode pru_period l_period_ns s hc⟩
  · exact ⟨_, update_stepgen_velocity_mode pru_period l_period_ns s hc⟩

/-- The limit the new velocity is clipped to is between 0 and the physical maximum. -/
theorem update_stepgen_maxvel_le_phys (pru_period : Int) (s : hpg_stepgen_instance_t) (n : Nat)
    (hn : (s.pru.mode = eMODE_STEP_DIR ∧ n = s.pru.steplen + s.pru.stepspace) ∨
      (s.pru.mode = eMODE_STEP_PHASE ∧ n = s.pru.steplen))
    (hn1 : 1 ≤ n) (hP : 0 < pru_period) (hfit : (n : Int) * pru_period ≤ 2147483647)
    (hscale : s.param.position_scale ≠ 0) :
    ∃ M : Rat, update_stepgen_maxvel pru_period s = xdouble.fin M ∧ 0 ≤ M ∧
      M ≤ 1000000000 / ((n : Rat) * (pru_period : Rat)) / |s.param.position_scale| := by
  have hphys := physical_maxvel_eq pru_period s n hn hn1 hP hfit hscale
  have hnP : (0 : Rat) < (n : Rat) * (pru_period : Rat) := by
    have h1 : (0 : Rat) < (n : Rat) := by exact_mod_cast hn1
    have h2 : (0 : Rat) < (pru_period : Rat) := by exact_mod_cast hP
    exact mul_pos h1 h2
  have hpos : 0 < 1000000000 / ((n : Rat) * (pru_period : Rat)) / |s.param.position_scale| :=
    div_pos (div_pos (by norm_num) hnP) (abs_pos.2 hscale)
  refine ⟨_, update_stepgen_maxvel_fin pru_period s _ hphys, ?_⟩
  split_ifs with h0
  · exact ⟨le_of_lt hpos, le_refl _⟩
  · exact ⟨le_min (abs_nonneg _) (le_of_lt hpos), min_le_right _ _⟩

theorem truncQ_bounds (v b : Rat) (hb : 0 ≤ b) (hv : |v| ≤ b) :
    -b ≤ ((truncQ v : Int) : Rat) ∧ ((truncQ v : Int) : Rat) ≤ b := by
  have h := abs_le.1 hv
  unfold truncQ
  split_ifs with h0
  · constructor
    · have : (0 : Rat) ≤ ((⌊v⌋ : Int) : Rat) := by exact_mod_cast Int.floor_nonneg.2 h0
      linarith
    · exact le_trans (Int.floor_le v) h.2
  · constructor
    · exact le_trans h.1 (Int.le_ceil v)
    · have hc : ⌈v⌉ ≤ 0 := Int.ceil_le.2 (by exact_mod_cast le_of_lt (not_le.1 h0))
      have : ((⌈v⌉ : Int) : Rat) ≤ 0 := by exact_mod_cast hc
      linarith

/-- The rate conversion of `update_stepgen` while the `int` product `n * P` does not
overflow: with `n >= 1` coprocessor periods per step (`steplen + stepspace` in step/dir mode,
`steplen` in step/phase mode), `pru_period = P > 0`, `n * P <= 2147483647` and
`position_scale != 0`: the value converted to the
rate satisfies `|new_vel * position_scale * 2^27 * P * 1e-9| <= 2^27 / n <= 2^27`, so the
conversion to the signed 32-bit rate does not leave the 32-bit range: it is the truncation
of the value, of magnitude at most 2^27, and the stored rate is the rate clamp of it. -/
theorem update_stepgen_rate_fits (pru_period l_period_ns : Int)
    (s : hpg_stepgen_instance_t) (n : Nat)
    (hn : (s.pru.mode = eMODE_STEP_DIR ∧ n = s.pru.steplen + s.pru.stepspace) ∨
      (s.pru.mode = eMODE_STEP_PHASE ∧ n = s.pru.steplen))
    (hn1 : 1 ≤ n) (hP : 0 < pru_period) (hfit : (n : Int) * pru_period ≤ 2147483647)
    (hscale : s.param.position_scale ≠ 0) :
    |(update_stepgen pru_period l_period_ns s).pin.velocity_fb *
        (update_stepgen pru_period l_period_ns s).param.position_scale *
        134217728 * (pru_period : Rat) * (1 / 1000000000)| ≤ 134217728 / (n : Rat) ∧
    (134217728 : Rat) / (n : Rat) ≤ 134217728 ∧
    rate_of_steps_per_sec pru_period
        ((update_stepgen pru_period l_period_ns s).pin.velocity_fb *
          (update_stepgen pru_period l_period_ns s).param.position_scale) =
      truncQ ((update_stepgen pru_period l_period_ns s).pin.velocity_fb *
        (update_stepgen pru_period l_period_ns s).param.position_scale *
        134217728 * (pru_period : Rat) * (1 / 1000000000)) ∧
    -134217728 ≤ rate_of_steps_per_sec pru_period
        ((update_stepgen pru_period l_period_ns s).pin.velocity_fb *
          (update_stepgen pru_period l_period_ns s).param.position_scale) ∧
    rate_of_steps_per_sec pru_period
        ((update_stepgen pru_period l_period_ns s).pin.velocity_fb *
          (update_stepgen pru_period l_period_ns s).param.position_scale) ≤ 134217728 ∧
    (update_stepgen pru_period l_period_ns s).pru.rate =
      clip_rate (rate_of_steps_per_sec pru_period
        ((update_stepgen pru_period l_period_ns s).pin.velocity_fb *
          (update_stepgen pru_period l_period_ns s).param.position_scale)) := by
  obtain ⟨v, hv⟩ := update_stepgen_velocity_fb_clipped pru_period l_period_ns s
  have hsc := update_stepgen_position_scale pru_period l_period_ns s
  have hr := update_stepgen_rate pru_period l_period_ns s
  generalize update_stepgen pru_period l_period_ns s = u at hv hsc hr ⊢
  obtain ⟨M, hMe, hM0, hM⟩ :=
    update_stepgen_maxvel_le_phys pru_period s n hn hn1 hP hfit hscale
  have hclip := clip_velocity_bounds v M hM0
  rw [← hMe, ← hv] at hclip
  have hn0 : (0 : Rat) < (n : Rat) := by exact_mod_cast hn1
  have hP0 : (0 : Rat) < (pru_period : Rat) := by exact_mod_cast hP
  have hs0 : 0 < |s.param.position_scale| := abs_pos.2 hscale
  have habs : |u.pin.velocity_fb| ≤
      1000000000 / ((n : Rat) * (pru_period : Rat)) / |s.param.position_scale| :=
    abs_le.2 ⟨by linarith [hclip.1], by linarith [hclip.2]⟩
  have hprod : |u.pin.velocity_fb * u.param.position_scale| ≤
      1000000000 / ((n : Rat) * (pru_period : Rat)) := by
    rw [hsc, abs_mul]
    have := mul_le_mul_of_nonneg_right habs (le_of_lt hs0)
    rwa [div_mul_cancel₀ _ (ne_of_gt hs0)] at this
  have hbound : |u.pin.velocity_fb * u.param.position_scale * 134217728 *
      (pru_period : Rat) * (1 / 1000000000)| ≤ 134217728 / (n : Rat) := by
    have e : u.pin.velocity_fb * u.param.position_scale * 134217728 *
        (pru_period : Rat) * (1 / 1000000000) =
        (u.pin.velocity_fb * u.param.position_scale) *
          (134217728 * (pru_period : Rat) * (1 / 1000000000)) := by ring
    have hk : (0 : Rat) ≤ 134217728 * (pru_period : Rat) * (1 / 1000000000) := by positivity
    rw [e, abs_mul, abs_of_nonneg hk]
    have := mul_le_mul_of_nonneg_right hprod hk
    have e2 : 1000000000 / ((n : Rat) * (pru_period : Rat)) *
        (134217728 * (pru_period : Rat) * (1 / 1000000000)) = 134217728 / (n : Rat) := by
      field_simp
      ring
    rwa [e2] at this
  have hle : (134217728 : Rat) / (n : Rat) ≤ 134217728 := by
    rw [div_le_iff₀ hn0]
    have : (1 : Rat) ≤ (n : Rat) := by exact_mod_cast hn1
    nlinarith
  have ht := truncQ_bounds _ _ (by norm_num : (0 : Rat) ≤ 134217728) (le_trans hbound hle)
  have ht1 : (-134217728 : Int) ≤ truncQ (u.pin.velocity_fb * u.param.position_scale *
      134217728 * (pru_period : Rat) * (1 / 1000000000)) := by exact_mod_cast ht.1
  have ht2 : truncQ (u.pin.velocity_fb * u.param.position_scale *
      134217728 * (pru_period : Rat) * (1 / 1000000000)) ≤ (134217728 : Int) := by
    exact_mod_cast ht.2
  have hconv : rate_of_steps_per_sec pru_period
      (u.pin.velocity_fb * u.param.position_scale) =
      truncQ (u.pin.velocity_fb * u.param.position_scale * 134217728 *
        (pru_period : Rat) * (1 / 1000000000)) := by
    simp only [rate_of_steps_per_sec, double_to_s32]
    split_ifs <;> omega
  refine ⟨hbound, hle, hconv, ?_, ?_, hr⟩
  · rw [hconv]
    exact ht1
  · rw [hconv]
    exact ht2

theorem update_stepgen_rate_fits_witness :
    |(update_stepgen 10000 1000000
        { new_channel 10000 updateclass_t.stepdir 12 with
          pru := { zero_pru with mode := 4, steplen := 100, stepspace := 100 } }).pin.velocity_fb *
      (update_stepgen 10000 1000000
        { new_channel 10000 updateclass_t.stepdir 12 with
          pru := { zero_pru with mode := 4, steplen := 100, stepspace := 100 } }).param.position_scale *
      134217728 * ((10000 : Int) : Rat) * (1 / 1000000000)| ≤ 134217728 / ((200 : Nat) : Rat) :=
  (update_stepgen_rate_fits 10000 1000000
    { new_channel 10000 updateclass_t.stepdir 12 with
      pru := { zero_pru with mode := 4, steplen := 100, stepspace := 100 } }
    200 (Or.inl ⟨rfl, rfl⟩) (by decide) (by decide) (by decide)
    (by simp [new_channel, export_stepgen, hpg_stepgen_init_instance, export_stepdir])).1

/-! ## The timing members in shared memory after force write and update -/

theorem with_lut_steplen (p : PRU_task_stepgen_t) (l : Nat) :
    ({ p with lut := l } : PRU_task_stepgen_t).steplen = p.steplen := rfl

theorem with_rate_steplen (p : PRU_task_stepgen_t) (l : Int) :
    ({ p with rate := l } : PRU_task_stepgen_t).steplen = p.steplen := rfl

theorem with_dirhold_steplen (p : PRU_task_stepgen_t) (l : Nat) :
    ({ p with dirhold := l } : PRU_task_stepgen_t).steplen = p.steplen := rfl

theorem with_stepspace_steplen (p : PRU_task_stepgen_t) (l : Nat) :
    ({ p with stepspace := l } : PRU_task_stepgen_t).steplen = p.steplen := rfl

theorem with_dirsetup_steplen (p : PRU_task_stepgen_t) (l : Nat) :
    ({ p with dirsetup := l } : PRU_task_stepgen_t).steplen = p.steplen := rfl

theorem with_hdr_steplen (p : PRU_task_stepgen_t) (a b c d : Nat) :
    ({ p with mode := a, len := b, dataX := c, dataY := d } : PRU_task_stepgen_t).steplen =
      p.steplen := rfl

theorem set_field_steplen (f : pru_field) (v : Nat) (p : PRU_task_stepgen_t)
    (hf : f ≠ pru_field.steplen) : (set_field f v p).steplen = p.steplen := by
  cases f
  case steplen => exact absurd rfl hf
  case dword0 => exact with_hdr_steplen p _ _ _ _
  case rate => exact with_rate_steplen p _
  case dirhold => exact with_dirhold_steplen p _
  case stepspace => exact with_stepspace_steplen p _
  case dirsetup => exact with_dirsetup_steplen p _
  case pin_c => exact with_stepspace_steplen p _
  case pin_d => exact with_stepspace_steplen p _
  case lut => exact with_lut_steplen p _
  case step_inv => exact with_lut_steplen p _

/-- Stores to single members other than `steplen` leave `steplen` in shared memory as it
is. -/
theorem foldl_apply_write_steplen (log : List pru_write) :
    ∀ m : PRU_task_stepgen_t, (∀ w ∈ log, ∃ f v, w = pru_write.field f v) →
      writes_to pru_field.steplen log = [] →
      (log.foldl apply_write m).steplen = m.steplen := by
  induction log with
  | nil =>
    intro m _ _
    rfl
  | cons w ws ih =>
    intro m hw hs
    obtain ⟨f, v, rfl⟩ := hw w (List.mem_cons_self _ _)
    have hcons : writes_to pru_field.steplen (pru_write.field f v :: ws) =
        writes_to pru_field.steplen [pru_write.field f v] ++ writes_to pru_field.steplen ws :=
      writes_to_append pru_field.steplen [pru_write.field f v] ws
    rw [hcons, writes_to_single] at hs
    have hf : f ≠ pru_field.steplen := by
      intro e
      rw [if_pos e] at hs
      exact List.cons_ne_nil _ _ hs
    rw [if_neg hf, List.nil_append] at hs
    rw [List.foldl_cons, ih _ (fun w1 h1 => hw w1 (List.mem_cons_of_mem _ h1)) hs]
    exact set_field_steplen f v m hf

/-- Every store of one update is a store to a single member. -/
theorem update_instance_log_fields (pru_period l_period_ns : Int)
    (s : hpg_stepgen_instance_t) :
    ∀ w ∈ (hpg_stepgen_update_instance pru_period l_period_ns s).2,
      ∃ f v, w = pru_write.field f v := by
  have hl := update_instance_log pru_period l_period_ns s
  generalize hpg_stepgen_update_instance pru_period l_period_ns s = r at hl ⊢
  intro w hw
  rw [hl] at hw
  simp only [List.mem_append, List.mem_singleton] at hw
  rcases hw with (((hw | hw) | hw) | hw) | hw
  · exact mem_ite_field _ _ _ w hw
  · exact mem_ite_field _ _ _ w hw
  · revert hw
    cases s.stepgen_updateclass
    · intro hw
      simp only [List.mem_append] at hw
      rcases hw with (hw | hw) | hw <;> exact mem_ite_field _ _ _ w hw
    · intro hw
      simp only [List.mem_append] at hw
      rcases hw with (hw | hw) | hw <;> exact mem_ite_field _ _ _ w hw
  · exact mem_ite_field _ _ _ w hw
  · exact ⟨_, _, hw⟩

/-- An update in which the `steplen` parameter equals the remembered value leaves
`steplen` in shared memory as it is. -/
theorem update_keeps_steplen (pru_period l_period_ns : Int) (s : hpg_stepgen_instance_t)
    (m : PRU_task_stepgen_t) (h : s.param.steplen = s.written_steplen) :
    ((hpg_stepgen_update_instance pru_period l_period_ns s).2.foldl apply_write m).steplen =
      m.steplen := by
  apply foldl_apply_write_steplen _ m (update_instance_log_fields pru_period l_period_ns s)
  rw [(update_instance_publish pru_period l_period_ns s).1.1, if_neg (not_not.2 h)]

theorem with_pru_written_steplen (u : hpg_stepgen_instance_t) (p : PRU_task_stepgen_t) :
    ({ u with pru := p } : hpg_stepgen_instance_t).written_steplen = u.written_steplen := rfl

theorem create_lut_instance_written_steplen (s : hpg_stepgen_instance_t) :
    (create_lut_instance s).written_steplen = s.written_steplen := by
  simp only [create_lut_instance]
  split <;> rfl

theorem force_write_stepphase_written_steplen (pru_period : Int)
    (s : hpg_stepgen_instance_t) :
    (force_write_stepphase pru_period s).written_steplen = s.written_steplen := by
  have h0 : (force_write_stepphase_pins pru_period s).written_steplen = s.written_steplen :=
    rfl
  have h1 := create_lut_instance_written_steplen (force_write_stepphase_pins pru_period s)
  have h2 := with_pru_written_steplen
    (create_lut_instance (force_write_stepphase_pins pru_period s))
    { (create_lut_instance (force_write_stepphase_pins pru_period s)).pru with
      lut := create_lut (force_write_stepphase_pins pru_period s) }
  exact h2.trans (h1.trans h0)

/-- `hpg_stepgen_force_write` does not touch the remembered `steplen`. -/
theorem force_write_shadow_written_steplen (pru_period : Int) (s : hpg_stepgen_instance_t) :
    (force_write_shadow pru_period s).written_steplen = s.written_steplen := by
  have key : ∀ r : hpg_stepgen_instance_t, r.written_steplen = s.written_steplen →
      ({ r with pru := { r.pru with accum := 0, pos := 0, reserved1 := 0 } } :
        hpg_stepgen_instance_t).written_steplen = s.written_steplen := fun r h => h
  unfold force_write_shadow
  apply key
  split
  · rfl
  · split
    · exact force_write_stepphase_written_steplen pru_period s
    · rfl

theorem with_steplen_param (u : hpg_stepgen_instance_t) (v : Nat) :
    ({ u with param := { u.param with steplen := v } } : hpg_stepgen_instance_t).param.steplen =
      v ∧
    ({ u with param := { u.param with steplen := v } } :
      hpg_stepgen_instance_t).written_steplen = u.written_steplen := ⟨rfl, rfl⟩

theorem default_delay_periods_10000 : default_delay_periods 10000 = 100 := by
  have e : ⌈(1000000 : Rat) / 10000⌉ = 100 := by
    rw [Int.ceil_eq_iff]
    norm_num
  simp only [default_delay_periods, DEFAULT_DELAY, ceilQ, double_to_u32, truncQ_intCast]
  norm_num [e]
  rfl

theorem ns2periods_10000_100 : ns2periods 10000 100 = 1 := by
  have h := ns2periods_eq_ceil 10000 100 (by decide) (by decide)
  have e : ⌈((100 : Nat) : Rat) / ((10000 : Int) : Rat)⌉ = 1 := by
    rw [Int.ceil_eq_iff]
    norm_num
  rw [e] at h
  exact_mod_cast h

theorem ns2periods_zero (pru_period : Int) : ns2periods pru_period 0 = 0 := by
  simp [ns2periods, ceilQ, double_to_u16, double_to_s32, truncQ]

theorem store_log_whole (m : Nat → PRU_task_stepgen_t) (a : Nat) (p : PRU_task_stepgen_t) :
    store_log m a [pru_write.whole p] a = p := by
  simp [store_log, apply_write]

theorem store_log_self (m : Nat → PRU_task_stepgen_t) (a : Nat) (log : List pru_write) :
    store_log m a log a = log.foldl apply_write (m a) := by
  simp [store_log]

theorem new_channel_stepdir_steplen (pru_period : Int) (addr : Nat) :
    (new_channel pru_period updateclass_t.stepdir addr).param.steplen =
      default_delay_periods pru_period ∧
    (new_channel pru_period updateclass_t.stepdir addr).written_steplen = 0 := ⟨rfl, rfl⟩

theorem forced_memory_steplen : (forced_memory 12).steplen = 1 := by
  have h1 : forced_memory 12 =
      (force_write_shadow 10000 (new_channel 10000 updateclass_t.stepdir 12)).pru :=
    store_log_whole _ _ _
  rw [h1, (force_write_shadow_fields 10000 _).1.2.2.2.2.1,
    (new_channel_stepdir_steplen 10000 12).1, default_delay_periods_10000,
    ns2periods_10000_100]

theorem zero_steplen_channel_tracking :
    zero_steplen_channel.param.steplen = 0 ∧ zero_steplen_channel.written_steplen = 0 := by
  have h := with_steplen_param forced_channel 0
  have h2 : forced_channel.written_steplen = 0 :=
    (force_write_shadow_written_steplen 10000 _).trans (new_channel_stepdir_steplen 10000 12).2
  exact ⟨h.1, h.2.trans h2⟩

/-- C29 at a failing input: a new step/dir channel (period 10000 ns) is force-written, which
stores `steplen = ns2periods(100) = 1` to shared memory and leaves `written_steplen` at
the 0 `export_stepgen` gave it; the `steplen` parameter is then set to 0. The next
`hpg_stepgen_update` finds the parameter equal to the remembered value and stores nothing
to `steplen`: shared memory still holds 1, while `ns2periods` of the current parameter
is 0. -/
theorem steplen_zero_before_first_update_not_published :
    (forced_memory 12).steplen = 1 ∧
    zero_steplen_channel.param.steplen = 0 ∧
    (hpg_stepgen_update_instance 10000 1000000 zero_steplen_channel).1.param.steplen = 0 ∧
    (store_log forced_memory 12
      (hpg_stepgen_update_instance 10000 1000000 zero_steplen_channel).2 12).steplen = 1 ∧
    ns2periods 10000
      (hpg_stepgen_update_instance 10000 1000000 zero_steplen_channel).1.param.steplen = 0 := by
  have ht := zero_steplen_channel_tracking
  have hp : (hpg_stepgen_update_instance 10000 1000000 zero_steplen_channel).1.param.steplen =
      0 := (update_instance_pending 10000 1000000 zero_steplen_channel).1.trans ht.1
  refine ⟨forced_memory_steplen, ht.1, hp, ?_, ?_⟩
  · rw [store_log_self, update_keeps_steplen 10000 1000000 zero_steplen_channel _
      (ht.1.trans ht.2.symm)]
    exact forced_memory_steplen
  · rw [hp]
    exact ns2periods_zero 10000

/-! ## Set-up: the state without the instance data, stage by stage -/

theorem map_modify_comm {α β : Type} (g : α → β) (f : α → α) (k : β → β)
    (h : ∀ s, g (f s) = k (g s)) (l : List α) (i : Nat) :
    (l.modify f i).map g = (l.map g).modify k i := by
  apply List.ext_getElem?
  intro j
  simp only [List.getElem?_map, List.getElem?_modify]
  cases l[j]? with
  | none => rfl
  | some a =>
    by_cases hj : i = j
    · simp [hj, h]
    · simp [hj]

theorem map_modify_same {α β : Type} (g : α → β) (f : α → α)
    (h : ∀ s, g (f s) = g s) (l : List α) (i : Nat) :
    (l.modify f i).map g = l.map g := by
  apply List.ext_getElem?
  intro j
  simp only [List.getElem?_map, List.getElem?_modify]
  cases l[j]? with
  | none => rfl
  | some a =>
    by_cases hj : i = j
    · simp [hj, h]
    · simp [hj]

theorem map_task_zipWith (l : List hpg_stepgen_instance_t) :
    ∀ ts : List pru_task_t, l.length ≤ ts.length →
      (List.zipWith (fun s t => ({ s with task := t } : hpg_stepgen_instance_t)) l ts).map
          (fun s => s.task) = ts.take l.length := by
  induction l with
  | nil =>
    intro ts _
    rfl
  | cons s l ih =>
    intro ts h
    cases ts with
    | nil => exact absurd h (by simp)
    | cons t ts =>
      have h1 : l.length ≤ ts.length := by simpa using h
      simp only [List.zipWith_cons_cons, List.map_cons, List.length_cons, List.take_succ_cons,
        ih ts h1]

theorem map_mode_zipWith (l : List hpg_stepgen_instance_t) :
    ∀ ts : List pru_task_t, l.length ≤ ts.length →
      (List.zipWith (fun s t => ({ s with task := t } : hpg_stepgen_instance_t)) l ts).map
          (fun s => s.pru.mode) = l.map fun s => s.pru.mode := by
  induction l with
  | nil =>
    intro ts _
    rfl
  | cons s l ih =>
    intro ts h
    cases ts with
    | nil => exact absurd h (by simp)
    | cons t ts =>
      have h1 : l.length ≤ ts.length := by simpa using h
      simp only [List.zipWith_cons_cons, List.map_cons, ih ts h1]

theorem export_stepgen_task (pru_period : Int) (s : hpg_stepgen_instance_t) :
    (export_stepgen pru_period s).task = s.task := by
  cases s with
  | mk pru task pin param cls o pa sc w1 w2 w3 w4 w5 w6 =>
    cases cls <;> rfl

theorem export_stepgen_mode (pru_period : Int) (s : hpg_stepgen_instance_t) :
    (export_stepgen pru_period s).pru.mode = s.pru.mode := by
  cases s with
  | mk pru task pin param cls o pa sc w1 w2 w3 w4 w5 w6 =>
    cases cls <;> rfl

/-- The address assignment of `hpg_stepgen_init`: the free pointer advances by the rounded
size of the descriptor and task `i` gets the old free pointer as its address. -/
theorem setup_view_init_addr (hpg : hpg_t) (i : Nat) :
    setup_view (hpg_stepgen_init_addr hpg i) =
      { setup_view hpg with
        pru_data_free :=
          (hpg.pru_data_free + len32 sizeof_PRU_task_stepgen_t) % 4294967296,
        tasks := (setup_view hpg).tasks.modify
          (fun t => { t with addr := hpg.pru_data_free }) i } := by
  have h1 := map_modify_comm (fun s : hpg_stepgen_instance_t => s.task)
    (fun s => { s with task := { s.task with addr := hpg.pru_data_free } })
    (fun t => { t with addr := hpg.pru_data_free }) (fun _ => rfl) hpg.stepgen i
  have h2 := map_modify_same (fun s : hpg_stepgen_instance_t => s.pru.mode)
    (fun s => { s with task := { s.task with addr := hpg.pru_data_free } })
    (fun _ => rfl) hpg.stepgen i
  simp only [setup_view, hpg_stepgen_init_addr, pru_malloc_hpg, pru_malloc]
  rw [h1, h2]

/-- The class assignment of `hpg_stepgen_init` sets the mode of descriptor `i`. -/
theorem setup_view_init_class (hpg : hpg_t) (i mode : Nat) (cls : updateclass_t) :
    setup_view (hpg_stepgen_init_class hpg i mode cls) =
      { setup_view hpg with modes := (setup_view hpg).modes.modify (fun _ => mode) i } := by
  have h1 := map_modify_same (fun s : hpg_stepgen_instance_t => s.task)
    (fun s => { s with pru := { s.pru with mode := mode }, stepgen_updateclass := cls })
    (fun _ => rfl) hpg.stepgen i
  have h2 := map_modify_comm (fun s : hpg_stepgen_instance_t => s.pru.mode)
    (fun s => { s with pru := { s.pru with mode := mode }, stepgen_updateclass := cls })
    (fun _ => mode) (fun _ => rfl) hpg.stepgen i
  simp only [setup_view, hpg_stepgen_init_class]
  rw [h1, h2]

/-- The call of `export_stepgen` changes neither the task list nor a mode. -/
theorem setup_view_init_export (hpg : hpg_t) (i : Nat) :
    setup_view (hpg_stepgen_init_export hpg i) = setup_view hpg := by
  have h1 := map_modify_same (fun s : hpg_stepgen_instance_t => s.task)
    (export_stepgen hpg.pru_period) (export_stepgen_task hpg.pru_period) hpg.stepgen i
  have h2 := map_modify_same (fun s : hpg_stepgen_instance_t => s.pru.mode)
    (export_stepgen hpg.pru_period) (export_stepgen_mode hpg.pru_period) hpg.stepgen i
  simp only [setup_view, hpg_stepgen_init_export]
  rw [h1, h2]

/-- `pru_task_add` on the whole state is `pru_task_add` on its task list. -/
theorem setup_view_task_add (hpg : hpg_t) (task : Nat) :
    setup_view (pru_task_add_hpg hpg task) =
      { setup_view hpg with
        head := (pru_task_add (task_list hpg) task).head,
        last_task := (pru_task_add (task_list hpg) task).last_task,
        tasks := (pru_task_add (task_list hpg) task).tasks.take hpg.stepgen.length,
        wait_task := (pru_task_add (task_list hpg) task).tasks.getD hpg.stepgen.length
          hpg.wait.task } := by
  have hlen : (pru_task_add (task_list hpg) task).tasks.length = hpg.stepgen.length + 1 := by
    rw [length_pru_task_add]
    simp [task_list, task_objects]
  have h1 := map_task_zipWith hpg.stepgen (pru_task_add (task_list hpg) task).tasks (by omega)
  have h2 := map_mode_zipWith hpg.stepgen (pru_task_add (task_list hpg) task).tasks (by omega)
  simp only [setup_view, pru_task_add_hpg, set_task_objects]
  rw [h1, h2]

theorem task_list_of_view (hpg : hpg_t) :
    task_list hpg =
      { head := (setup_view hpg).head, last_task := (setup_view hpg).last_task,
        tasks := (setup_view hpg).tasks ++ [(setup_view hpg).wait_task] } := rfl

theorem take_append_getD {α : Type} (l : List α) :
    ∀ (n : Nat) (d : α), l.length = n + 1 → l.take n ++ [l.getD n d] = l := by
  induction l with
  | nil =>
    intro n d h
    exact absurd h (by simp)
  | cons a l ih =>
    intro n d h
    cases n with
    | zero =>
      have hl : l = [] := List.length_eq_zero.1 (by simpa using h)
      simp [hl]
    | succ n =>
      have h1 : l.length = n + 1 := by simpa using h
      have h2 := ih n d h1
      simp only [List.take_succ_cons, List.cons_append, List.getD_cons_succ, h2]

theorem task_list_length (hpg : hpg_t) :
    (task_list hpg).tasks.length = hpg.stepgen.length + 1 := by
  simp [task_list, task_objects]

/-- `pru_task_add` on the whole state is `pru_task_add` on its task list. -/
theorem task_list_task_add (hpg : hpg_t) (task : Nat) :
    task_list (pru_task_add_hpg hpg task) = pru_task_add (task_list hpg) task := by
  have hlen : (pru_task_add (task_list hpg) task).tasks.length = hpg.stepgen.length + 1 := by
    rw [length_pru_task_add, task_list_length]
  rw [task_list_of_view, setup_view_task_add]
  simp only []
  rw [take_append_getD _ _ _ hlen]

theorem task_list_congr (a b : hpg_t) (h : setup_view a = setup_view b) :
    task_list a = task_list b := by
  rw [task_list_of_view, task_list_of_view, h]

theorem modes_of_view (hpg : hpg_t) :
    (setup_view hpg).modes = hpg.stepgen.map fun s => s.pru.mode := rfl

theorem length_of_view (hpg : hpg_t) : (setup_view hpg).modes.length = hpg.stepgen.length := by
  simp [setup_view]

theorem init_channel_of_class (hpg : hpg_t) (i : Nat) :
    (hpg.step_class.getD i eCLASS_NONE = eCLASS_STEP_DIR →
      hpg_stepgen_init_channel hpg i =
        (0, hpg_stepgen_init_export (pru_task_add_hpg
          (hpg_stepgen_init_class (hpg_stepgen_init_addr hpg i) i eMODE_STEP_DIR
            updateclass_t.stepdir) i) i)) ∧
    (hpg.step_class.getD i eCLASS_NONE = eCLASS_STEP_PHASE →
      hpg_stepgen_init_channel hpg i =
        (0, hpg_stepgen_init_export (pru_task_add_hpg
          (hpg_stepgen_init_class (hpg_stepgen_init_addr hpg i) i eMODE_STEP_PHASE
            updateclass_t.stepphase) i) i)) ∧
    (hpg.step_class.getD i eCLASS_NONE ≠ eCLASS_STEP_DIR →
      hpg.step_class.getD i eCLASS_NONE ≠ eCLASS_STEP_PHASE →
      hpg_stepgen_init_channel hpg i = (-1, hpg_stepgen_init_addr hpg i)) := by
  have hs : (hpg_stepgen_init_addr hpg i).step_class = hpg.step_class := rfl
  have hne : eCLASS_STEP_PHASE ≠ eCLASS_STEP_DIR := by decide
  refine ⟨?_, ?_, ?_⟩
  · intro h
    simp only [hpg_stepgen_init_channel, hs, h, if_true]
  · intro h
    simp only [hpg_stepgen_init_channel, hs, h, hne, if_true, if_false]
  · intro h1 h2
    simp only [hpg_stepgen_init_channel, hs, h1, h2, if_false]

/-- The state without the instance data after the loop body of `hpg_stepgen_init` for a
channel of a supported class, whose descriptor gets the mode `mode`. -/
theorem setup_view_init_supported (hpg : hpg_t) (i mode : Nat) (cls : updateclass_t) :
    setup_view (hpg_stepgen_init_export (pru_task_add_hpg
        (hpg_stepgen_init_class (hpg_stepgen_init_addr hpg i) i mode cls) i) i) =
      { setup_view hpg with
        pru_data_free :=
          ((setup_view hpg).pru_data_free + len32 sizeof_PRU_task_stepgen_t) % 4294967296,
        head := (pru_task_add
          { head := (setup_view hpg).head, last_task := (setup_view hpg).last_task,
            tasks := (setup_view hpg).tasks.modify
              (fun t => { t with addr := (setup_view hpg).pru_data_free }) i ++
                [(setup_view hpg).wait_task] } i).head,
        last_task := (pru_task_add
          { head := (setup_view hpg).head, last_task := (setup_view hpg).last_task,
            tasks := (setup_view hpg).tasks.modify
              (fun t => { t with addr := (setup_view hpg).pru_data_free }) i ++
                [(setup_view hpg).wait_task] } i).last_task,
        tasks := (pru_task_add
          { head := (setup_view hpg).head, last_task := (setup_view hpg).last_task,
            tasks := (setup_view hpg).tasks.modify
              (fun t => { t with addr := (setup_view hpg).pru_data_free }) i ++
                [(setup_view hpg).wait_task] } i).tasks.take (setup_view hpg).modes.length,
        wait_task := (pru_task_add
          { head := (setup_view hpg).head, last_task := (setup_view hpg).last_task,
            tasks := (setup_view hpg).tasks.modify
              (fun t => { t with addr := (setup_view hpg).pru_data_free }) i ++
                [(setup_view hpg).wait_task] } i).tasks.getD (setup_view hpg).modes.length
            (setup_view hpg).wait_task,
        modes := (setup_view hpg).modes.modify (fun _ => mode) i } := by
  have hl : (hpg_stepgen_init_class (hpg_stepgen_init_addr hpg i) i mode cls).stepgen.length =
      (setup_view hpg).modes.length := by
    simp [hpg_stepgen_init_class, hpg_stepgen_init_addr, pru_malloc_hpg, setup_view]
  have hw : (hpg_stepgen_init_class (hpg_stepgen_init_addr hpg i) i mode cls).wait.task =
      (setup_view hpg).wait_task := rfl
  rw [setup_view_init_export, setup_view_task_add, task_list_of_view, hl, hw,
    setup_view_init_class, setup_view_init_addr]
  rfl

theorem init_loop_succ (k i : Nat) (hpg : hpg_t) :
    hpg_stepgen_init_loop (k + 1) i hpg =
      if (hpg_stepgen_init_channel hpg i).1 ≠ 0 then hpg_stepgen_init_channel hpg i
      else hpg_stepgen_init_loop k (i + 1) (hpg_stepgen_init_channel hpg i).2 := rfl

theorem task_list_init_class (hpg : hpg_t) (i mode : Nat) (cls : updateclass_t) :
    task_list (hpg_stepgen_init_class hpg i mode cls) = task_list hpg := by
  rw [task_list_of_view, setup_view_init_class]
  rfl

theorem task_list_init_export (hpg : hpg_t) (i : Nat) :
    task_list (hpg_stepgen_init_export hpg i) = task_list hpg :=
  task_list_congr _ _ (setup_view_init_export hpg i)

theorem task_list_init_addr (hpg : hpg_t) (i : Nat) :
    (task_list (hpg_stepgen_init_addr hpg i)).head = (task_list hpg).head ∧
    (task_list (hpg_stepgen_init_addr hpg i)).last_task = (task_list hpg).last_task ∧
    (task_list (hpg_stepgen_init_addr hpg i)).tasks.map (fun t => t.next) =
      (task_list hpg).tasks.map (fun t => t.next) := by
  rw [task_list_of_view, setup_view_init_addr, task_list_of_view]
  refine ⟨rfl, rfl, ?_⟩
  simp only [List.map_append]
  rw [map_modify_same (fun t : pru_task_t => t.next)
    (fun t => { addr := hpg.pru_data_free, next := t.next }) (fun _ => rfl)]

theorem mode_after_init_supported (hpg : hpg_t) (i mode : Nat) (cls : updateclass_t)
    (hi : i < hpg.stepgen.length) :
    ((hpg_stepgen_init_export (pru_task_add_hpg
        (hpg_stepgen_init_class (hpg_stepgen_init_addr hpg i) i mode cls) i) i).stepgen[i]?).map
      (fun s => s.pru.mode) = some mode := by
  have h := congrArg setup_view_t.modes (setup_view_init_supported hpg i mode cls)
  have h2 : ((hpg_stepgen_init_export (pru_task_add_hpg
      (hpg_stepgen_init_class (hpg_stepgen_init_addr hpg i) i mode cls) i) i).stepgen.map
        fun s => s.pru.mode) = (hpg.stepgen.map fun s => s.pru.mode).modify (fun _ => mode) i := h
  have h3 := congrArg (fun l => l[i]?) h2
  simp only [List.getElem?_map, List.getElem?_modify_eq] at h3
  rw [h3]
  have h4 : hpg.stepgen[i]? = some (hpg.stepgen.get ⟨i, hi⟩) := List.getElem?_eq_getElem hi
  rw [h4]
  rfl

/-- The loop body of `hpg_stepgen_init` for channel `i` (an index of the instance
array), by the class configured for the channel. For `eCLASS_STEP_DIR` the descriptor gets
mode 4 (`eMODE_STEP_DIR`), for `eCLASS_STEP_PHASE` mode 9 (`eMODE_STEP_PHASE`); in both cases
the task of the channel is appended: the task list afterwards is `pru_task_add` of the task
list with the address of the channel assigned, and the loop goes on with the next channel.
For every other class the function returns -1 at this channel, after the address
assignment and before `pru_task_add`: the head pointer, `last_task` and the `next` link of
every task are as before the channel. -/
theorem init_channel_by_class (hpg : hpg_t) (i k : Nat)
    (hi : i < hpg.stepgen.length) :
    eMODE_STEP_DIR = 4 ∧ eMODE_STEP_PHASE = 9 ∧
    (hpg.step_class.getD i eCLASS_NONE = eCLASS_STEP_DIR →
      (hpg_stepgen_init_channel hpg i).1 = 0 ∧
      ((hpg_stepgen_init_channel hpg i).2.stepgen[i]?).map (fun s => s.pru.mode) = some 4 ∧
      task_list (hpg_stepgen_init_channel hpg i).2 =
        pru_task_add (task_list (hpg_stepgen_init_addr hpg i)) i ∧
      hpg_stepgen_init_loop (k + 1) i hpg =
        hpg_stepgen_init_loop k (i + 1) (hpg_stepgen_init_channel hpg i).2) ∧
    (hpg.step_class.getD i eCLASS_NONE = eCLASS_STEP_PHASE →
      (hpg_stepgen_init_channel hpg i).1 = 0 ∧
      ((hpg_stepgen_init_channel hpg i).2.stepgen[i]?).map (fun s => s.pru.mode) = some 9 ∧
      task_list (hpg_stepgen_init_channel hpg i).2 =
        pru_task_add (task_list (hpg_stepgen_init_addr hpg i)) i ∧
      hpg_stepgen_init_loop (k + 1) i hpg =
        hpg_stepgen_init_loop k (i + 1) (hpg_stepgen_init_channel hpg i).2) ∧
    (hpg.step_class.getD i eCLASS_NONE ≠ eCLASS_STEP_DIR →
      hpg.step_class.getD i eCLASS_NONE ≠ eCLASS_STEP_PHASE →
      (hpg_stepgen_init_channel hpg i).1 = -1 ∧
      hpg_stepgen_init_loop (k + 1) i hpg = (-1, (hpg_stepgen_init_channel hpg i).2) ∧
      (task_list (hpg_stepgen_init_channel hpg i).2).head = (task_list hpg).head ∧
      (task_list (hpg_stepgen_init_channel hpg i).2).last_task = (task_list hpg).last_task ∧
      (task_list (hpg_stepgen_init_channel hpg i).2).tasks.map (fun t => t.next) =
        (task_list hpg).tasks.map (fun t => t.next)) := by
  have hc := init_channel_of_class hpg i
  refine ⟨rfl, rfl, ?_, ?_, ?_⟩
  · intro h
    have e := hc.1 h
    refine ⟨by rw [e], ?_, ?_, ?_⟩
    · rw [e]
      exact mode_after_init_supported hpg i _ _ hi
    · rw [e]
      simp only []
      rw [task_list_init_export, task_list_task_add, task_list_init_class]
    · rw [init_loop_succ, e]
      rfl
  · intro h
    have e := hc.2.1 h
    refine ⟨by rw [e], ?_, ?_, ?_⟩
    · rw [e]
      exact mode_after_init_supported hpg i _ _ hi
    · rw [e]
      simp only []
      rw [task_list_init_export, task_list_task_add, task_list_init_class]
    · rw [init_loop_succ, e]
      rfl
  · intro h1 h2
    have e := hc.2.2 h1 h2
    have ha := task_list_init_addr hpg i
    refine ⟨by rw [e], ?_, ?_, ?_, ?_⟩
    · rw [init_loop_succ, e]
      rfl
    · rw [e]
      exact ha.1
    · rw [e]
      exact ha.2.1
    · rw [e]
      exact ha.2.2

/-- With an unknown class for the second of two channels `hpg_stepgen_init` returns -1 and
so does `rtapi_app_main`. -/
theorem rtapi_app_main_unknown_class (pru_period : Int) :
    (rtapi_app_main pru_period [eCLASS_STEP_DIR, eCLASS_NONE]).1 = -1 := rfl

/-! ## Set-up with two channels: the task list and the links in shared memory -/

/-- The loop body of `hpg_stepgen_init` for a channel of class step/dir or step/phase, on
the state without the instance data. -/
theorem setup_view_init_channel (hpg : hpg_t) (V : setup_view_t) (i mode : Nat)
    (hV : setup_view hpg = V)
    (hc : (V.step_class.getD i eCLASS_NONE = eCLASS_STEP_DIR ∧ mode = eMODE_STEP_DIR) ∨
      (V.step_class.getD i eCLASS_NONE = eCLASS_STEP_PHASE ∧ mode = eMODE_STEP_PHASE)) :
    (hpg_stepgen_init_channel hpg i).1 = 0 ∧
    setup_view (hpg_stepgen_init_channel hpg i).2 =
      { V with
        pru_data_free := (V.pru_data_free + len32 sizeof_PRU_task_stepgen_t) % 4294967296,
        head := (pru_task_add
          { head := V.head, last_task := V.last_task,
            tasks := V.tasks.modify (fun t => { t with addr := V.pru_data_free }) i ++
              [V.wait_task] } i).head,
        last_task := (pru_task_add
          { head := V.head, last_task := V.last_task,
            tasks := V.tasks.modify (fun t => { t with addr := V.pru_data_free }) i ++
              [V.wait_task] } i).last_task,
        tasks := (pru_task_add
          { head := V.head, last_task := V.last_task,
            tasks := V.tasks.modify (fun t => { t with addr := V.pru_data_free }) i ++
              [V.wait_task] } i).tasks.take V.modes.length,
        wait_task := (pru_task_add
          { head := V.head, last_task := V.last_task,
            tasks := V.tasks.modify (fun t => { t with addr := V.pru_data_free }) i ++
              [V.wait_task] } i).tasks.getD V.modes.length V.wait_task,
        modes := V.modes.modify (fun _ => mode) i } := by
  subst hV
  have hs : (setup_view hpg).step_class = hpg.step_class := rfl
  rw [hs] at hc
  rcases hc with ⟨h, rfl⟩ | ⟨h, rfl⟩
  · rw [(init_channel_of_class hpg i).1 h]
    exact ⟨rfl, setup_view_init_supported hpg i _ _⟩
  · rw [(init_channel_of_class hpg i).2.1 h]
    exact ⟨rfl, setup_view_init_supported hpg i _ _⟩

/-- `hpg_wait_init` on the state without the instance data: the wait task gets the next
free address and is appended to the task list. -/
theorem setup_view_wait_init (hpg : hpg_t) (V : setup_view_t) (hV : setup_view hpg = V) :
    (hpg_wait_init hpg).1 = 0 ∧
    setup_view (hpg_wait_init hpg).2 =
      { V with
        pru_data_free := (V.pru_data_free + len32 sizeof_PRU_task_wait_t) % 4294967296,
        head := (pru_task_add
          { head := V.head, last_task := V.last_task,
            tasks := V.tasks ++ [{ V.wait_task with addr := V.pru_data_free }] }
          V.modes.length).head,
        last_task := (pru_task_add
          { head := V.head, last_task := V.last_task,
            tasks := V.tasks ++ [{ V.wait_task with addr := V.pru_data_free }] }
          V.modes.length).last_task,
        tasks := (pru_task_add
          { head := V.head, last_task := V.last_task,
            tasks := V.tasks ++ [{ V.wait_task with addr := V.pru_data_free }] }
          V.modes.length).tasks.take V.modes.length,
        wait_task := (pru_task_add
          { head := V.head, last_task := V.last_task,
            tasks := V.tasks ++ [{ V.wait_task with addr := V.pru_data_free }] }
          V.modes.length).tasks.getD V.modes.length
            { V.wait_task with addr := V.pru_data_free } } := by
  subst hV
  refine ⟨rfl, ?_⟩
  have e : (hpg_wait_init hpg).2 =
      { pru_task_add_hpg
          { (pru_malloc_hpg hpg sizeof_PRU_task_wait_t).2 with
            wait := { hpg.wait with task := { hpg.wait.task with addr := hpg.pru_data_free } } }
          hpg.stepgen.length with pru_busy_pin := 0x80 } := rfl
  have e2 : ∀ h : hpg_t, setup_view { h with pru_busy_pin := 0x80 } = setup_view h :=
    fun _ => rfl
  rw [e, e2, setup_view_task_add, task_list_of_view]
  simp only [setup_view, pru_malloc_hpg, pru_malloc, List.length_map]

theorem store_stepgen_logs_cons (m : Nat → Option pru_object) (al : Nat × List pru_write)
    (logs : List (Nat × List pru_write)) :
    store_stepgen_logs m (al :: logs) =
      store_stepgen_logs
        (store_object m al.1 (.stepgen (al.2.foldl apply_write (stepgen_at m al.1)))) logs :=
  rfl

theorem store_object_same (m : Nat → Option pru_object) (a : Nat) (o : pru_object) :
    store_object m a o a = some o := by
  simp [store_object]

theorem store_object_other (m : Nat → Option pru_object) (a b : Nat) (o : pru_object)
    (h : b ≠ a) : store_object m a o b = m b := by
  simp [store_object, h]

/-- Stores to other descriptors leave the object at an address as it is. -/
theorem store_stepgen_logs_other (logs : List (Nat × List pru_write))
    (m : Nat → Option pru_object) (a : Nat) (h : a ∉ logs.map Prod.fst) :
    store_stepgen_logs m logs a = m a := by
  induction logs generalizing m with
  | nil => rfl
  | cons x xs ih =>
    have hx : a ≠ x.1 := fun e => h (by simp [e])
    have hxs : a ∉ xs.map Prod.fst := fun e =>
      h (by simp only [List.map_cons]; exact List.mem_cons_of_mem _ e)
    rw [store_stepgen_logs_cons, ih _ hxs, store_object_other _ _ _ _ hx]

theorem store_stepgen_logs_whole (g : hpg_stepgen_instance_t → PRU_task_stepgen_t)
    (l : List hpg_stepgen_instance_t) (m : Nat → Option pru_object)
    (hnd : (l.map fun s => s.task.addr).Nodup) (s : hpg_stepgen_instance_t) (hs : s ∈ l) :
    store_stepgen_logs m (l.map fun s => (s.task.addr, [pru_write.whole (g s)])) s.task.addr =
      some (.stepgen (g s)) := by
  induction l generalizing m with
  | nil => exact absurd hs (List.not_mem_nil s)
  | cons x xs ih =>
    rw [List.map_cons, List.nodup_cons] at hnd
    rw [List.map_cons, store_stepgen_logs_cons]
    by_cases hx : s.task.addr = x.task.addr
    · rw [store_stepgen_logs_other]
      · rw [hx, store_object_same]
        rcases List.mem_cons.1 hs with e | e
        · rw [e]
          rfl
        · exact absurd (List.mem_map.2 ⟨s, e, hx⟩) hnd.1
      · rw [List.map_map, hx]
        exact hnd.1
    · rcases List.mem_cons.1 hs with e | e
      · exact absurd (by rw [e]) hx
      · exact ih _ hnd.2 e

/-- Data memory after `hpg_stepgen_force_write` and `hpg_wait_force_write`, when the tasks
have pairwise different addresses, none of them the address of the statics block: the
statics block holds the statics shadow, the descriptor of the wait task holds mode
`eMODE_WAIT` and the `next` link of the wait task, and the descriptor of every step
generator holds its host shadow. -/
theorem pru_data_after_force_writes (hpg : hpg_t)
    (hnd : (hpg.stepgen.map fun s => s.task.addr).Nodup)
    (hw : hpg.wait.task.addr ∉ hpg.stepgen.map fun s => s.task.addr)
    (hs1 : hpg.pru_stat_addr ∉ hpg.stepgen.map fun s => s.task.addr)
    (hs2 : hpg.wait.task.addr ≠ hpg.pru_stat_addr) :
    (hpg_wait_force_write (hpg_stepgen_force_write_hpg hpg)).pru_data hpg.pru_stat_addr =
      some (.statics hpg.pru_stat) ∧
    (hpg_wait_force_write (hpg_stepgen_force_write_hpg hpg)).pru_data hpg.wait.task.addr =
      some (.wait { hpg.wait.pru with
        mode := eMODE_WAIT, dataX := hpg.pru_busy_pin % 256, dataY := 0,
        addr := hpg.wait.task.next }) ∧
    ∀ s ∈ hpg.stepgen,
      (hpg_wait_force_write (hpg_stepgen_force_write_hpg hpg)).pru_data s.task.addr =
        some (.stepgen (force_write_shadow hpg.pru_period s).pru) := by
  have e : (hpg_wait_force_write (hpg_stepgen_force_write_hpg hpg)).pru_data =
      store_object
        (store_object
          (store_stepgen_logs hpg.pru_data
            (hpg_stepgen_force_write { pru_period := hpg.pru_period, stepgen := hpg.stepgen }).2)
          hpg.wait.task.addr
          (.wait { hpg.wait.pru with
            mode := eMODE_WAIT, dataX := hpg.pru_busy_pin % 256, dataY := 0,
            addr := hpg.wait.task.next }))
        hpg.pru_stat_addr (.statics hpg.pru_stat) := rfl
  have el := force_write_logs { pru_period := hpg.pru_period, stepgen := hpg.stepgen }
  rw [e, el]
  refine ⟨store_object_same _ _ _, ?_, ?_⟩
  · rw [store_object_other _ _ _ _ hs2, store_object_same]
  · intro s hs
    have hm : s.task.addr ∈ hpg.stepgen.map fun s => s.task.addr := List.mem_map.2 ⟨s, hs, rfl⟩
    have h1 : s.task.addr ≠ hpg.pru_stat_addr := fun e1 => hs1 (e1 ▸ hm)
    have h2 : s.task.addr ≠ hpg.wait.task.addr := fun e1 => hw (e1 ▸ hm)
    rw [store_object_other _ _ _ _ h1, store_object_other _ _ _ _ h2]
    exact store_stepgen_logs_whole (fun s => (force_write_shadow hpg.pru_period s).pru)
      hpg.stepgen hpg.pru_data hnd s hs

theorem setup_view_config (pru_period : Int) (step_class : List Nat) :
    setup_view (rtapi_app_main_config pru_period step_class) =
      ⟨step_class, 12, 0, 0, none, [], ⟨0, 0⟩, []⟩ := rfl

theorem stepgen_init_two (pru_period : Int) (c0 c1 : Nat) :
    hpg_stepgen_init (rtapi_app_main_config pru_period [c0, c1]) =
      hpg_stepgen_init_loop 2 0
        { rtapi_app_main_config pru_period [c0, c1] with
          stepgen := [cleared_instance, cleared_instance] } := rfl

theorem setup_view_cleared_two (pru_period : Int) (c0 c1 : Nat) :
    setup_view
        { rtapi_app_main_config pru_period [c0, c1] with
          stepgen := [cleared_instance, cleared_instance] } =
      ⟨[c0, c1], 12, 0, 0, none, [⟨0, 0⟩, ⟨0, 0⟩], ⟨0, 0⟩, [0, 0]⟩ := rfl

/-- The state without the instance data after `hpg_stepgen_init` and `hpg_wait_init` for
the two channels step/dir and step/phase: the descriptors at 12, 48 and 84, linked in
append order, the free pointer at 92. -/
theorem setup_view_two_channels (pru_period : Int) :
    (hpg_stepgen_init
      (rtapi_app_main_config pru_period [eCLASS_STEP_DIR, eCLASS_STEP_PHASE])).1 = 0 ∧
    (hpg_wait_init (hpg_stepgen_init
      (rtapi_app_main_config pru_period [eCLASS_STEP_DIR, eCLASS_STEP_PHASE])).2).1 = 0 ∧
    setup_view (hpg_wait_init (hpg_stepgen_init
      (rtapi_app_main_config pru_period [eCLASS_STEP_DIR, eCLASS_STEP_PHASE])).2).2 =
      ⟨[eCLASS_STEP_DIR, eCLASS_STEP_PHASE], 92, 0, 12, some 2, [⟨12, 48⟩, ⟨48, 84⟩],
        ⟨84, 12⟩, [4, 9]⟩ := by
  rw [stepgen_init_two]
  have h0 := setup_view_cleared_two pru_period eCLASS_STEP_DIR eCLASS_STEP_PHASE
  generalize ({ rtapi_app_main_config pru_period [eCLASS_STEP_DIR, eCLASS_STEP_PHASE] with
    stepgen := [cleared_instance, cleared_instance] } : hpg_t) = x0 at h0 ⊢
  have h1 := setup_view_init_channel x0 _ 0 eMODE_STEP_DIR h0 (Or.inl ⟨rfl, rfl⟩)
  have l1 : hpg_stepgen_init_loop 2 0 x0 =
      hpg_stepgen_init_loop 1 1 (hpg_stepgen_init_channel x0 0).2 := by
    rw [init_loop_succ, h1.1]
    rfl
  rw [l1]
  have v1 : setup_view (hpg_stepgen_init_channel x0 0).2 =
      ⟨[eCLASS_STEP_DIR, eCLASS_STEP_PHASE], 48, 0, 12, some 0, [⟨12, 12⟩, ⟨0, 0⟩], ⟨0, 0⟩,
        [4, 0]⟩ := h1.2.trans (by decide)
  generalize (hpg_stepgen_init_channel x0 0).2 = x1 at v1 ⊢
  have h2 := setup_view_init_channel x1 _ 1 eMODE_STEP_PHASE v1 (Or.inr ⟨rfl, rfl⟩)
  have l2 : hpg_stepgen_init_loop 1 1 x1 = (0, (hpg_stepgen_init_channel x1 1).2) := by
    rw [init_loop_succ, h2.1]
    rfl
  rw [l2]
  have v2 : setup_view (hpg_stepgen_init_channel x1 1).2 =
      ⟨[eCLASS_STEP_DIR, eCLASS_STEP_PHASE], 84, 0, 12, some 1, [⟨12, 48⟩, ⟨48, 12⟩], ⟨0, 0⟩,
        [4, 9]⟩ := h2.2.trans (by decide)
  generalize (hpg_stepgen_init_channel x1 1).2 = x2 at v2 ⊢
  have h3 := setup_view_wait_init x2 _ v2
  exact ⟨rfl, h3.1, h3.2.trans (by decide)⟩

theorem rtapi_app_main_of_ok (pru_period : Int) (step_class : List Nat)
    (h1 : (hpg_stepgen_init (rtapi_app_main_config pru_period step_class)).1 = 0)
    (h2 : (hpg_wait_init
      (hpg_stepgen_init (rtapi_app_main_config pru_period step_class)).2).1 = 0) :
    rtapi_app_main pru_period step_class =
      (0, hpg_wait_force_write (hpg_stepgen_force_write_hpg
        (hpg_wait_init
          (hpg_stepgen_init (rtapi_app_main_config pru_period step_class)).2).2)) := by
  simp only [rtapi_app_main, h1, h2, ne_eq, not_true_eq_false, if_false]

theorem force_writes_tasks (hpg : hpg_t) :
    ((hpg_wait_force_write (hpg_stepgen_force_write_hpg hpg)).stepgen.map fun s => s.task) =
      (hpg.stepgen.map fun s => s.task) ∧
    (hpg_wait_force_write (hpg_stepgen_force_write_hpg hpg)).wait.task = hpg.wait.task ∧
    (hpg_wait_force_write (hpg_stepgen_force_write_hpg hpg)).pru_stat_addr =
      hpg.pru_stat_addr := by
  refine ⟨?_, rfl, rfl⟩
  have e : (hpg_wait_force_write (hpg_stepgen_force_write_hpg hpg)).stepgen =
      (hpg_stepgen_force_write { pru_period := hpg.pru_period, stepgen := hpg.stepgen }).1.stepgen :=
    rfl
  rw [e, force_write_stepgen, List.map_map]
  apply List.map_congr_left
  intro s _
  exact force_write_shadow_task hpg.pru_period s

theorem map_task_addr (l : List hpg_stepgen_instance_t) :
    (l.map fun s => s.task.addr) = (l.map fun s => s.task).map fun t => t.addr := by
  rw [List.map_map]
  rfl

/-- C21: `rtapi_app_main` with two step generator channels, channel 0 step/dir and channel 1
step/phase, no PWM generator and no encoder, for every coprocessor period. The set-up
succeeds; the statics block is at address 0 and the descriptors of channel 0, channel 1
and the wait task are at 12, 48 and 84 (12-byte statics block, 36-byte step generator
descriptors). In shared memory, after the force writes, the next-address fields are
0 -> 12 -> 48 -> 84 -> 12: from the head pointer in the statics block one hop reaches
channel 0 (mode 4), two hops channel 1 (mode 9), three hops the wait task (mode 1), and
the fourth hop is back at channel 0. -/
theorem two_channel_setup_links (pru_period : Int) :
    (rtapi_app_main pru_period [eCLASS_STEP_DIR, eCLASS_STEP_PHASE]).1 = 0 ∧
    sizeof_PRU_statics_t = 12 ∧ sizeof_PRU_task_stepgen_t = 36 ∧
    (rtapi_app_main pru_period [eCLASS_STEP_DIR, eCLASS_STEP_PHASE]).2.pru_stat_addr = 0 ∧
    ((rtapi_app_main pru_period [eCLASS_STEP_DIR, eCLASS_STEP_PHASE]).2.stepgen.map
      fun s => s.task.addr) = [12, 48] ∧
    (rtapi_app_main pru_period [eCLASS_STEP_DIR, eCLASS_STEP_PHASE]).2.wait.task.addr = 84 ∧
    (mem_next (rtapi_app_main pru_period [eCLASS_STEP_DIR, eCLASS_STEP_PHASE]).2.pru_data 0 =
        some 12 ∧
      mem_next (rtapi_app_main pru_period [eCLASS_STEP_DIR, eCLASS_STEP_PHASE]).2.pru_data 12 =
        some 48 ∧
      mem_next (rtapi_app_main pru_period [eCLASS_STEP_DIR, eCLASS_STEP_PHASE]).2.pru_data 48 =
        some 84 ∧
      mem_next (rtapi_app_main pru_period [eCLASS_STEP_DIR, eCLASS_STEP_PHASE]).2.pru_data 84 =
        some 12) ∧
    (((rtapi_app_main pru_period [eCLASS_STEP_DIR, eCLASS_STEP_PHASE]).2.pru_data 12).map
        object_mode = some 4 ∧
      ((rtapi_app_main pru_period [eCLASS_STEP_DIR, eCLASS_STEP_PHASE]).2.pru_data 48).map
        object_mode = some 9 ∧
      ((rtapi_app_main pru_period [eCLASS_STEP_DIR, eCLASS_STEP_PHASE]).2.pru_data 84).map
        object_mode = some 1) ∧
    (List.range 5).map
        (fun k => mem_hops
          (rtapi_app_main pru_period [eCLASS_STEP_DIR, eCLASS_STEP_PHASE]).2.pru_data k 0) =
      [some 0, some 12, some 48, some 84, some 12] := by
  obtain ⟨c1, c2, v⟩ := setup_view_two_channels pru_period
  rw [rtapi_app_main_of_ok pru_period _ c1 c2]
  generalize (hpg_wait_init (hpg_stepgen_init
    (rtapi_app_main_config pru_period [eCLASS_STEP_DIR, eCLASS_STEP_PHASE])).2).2 = H at v
  have ht : (H.stepgen.map fun s => s.task) = [⟨12, 48⟩, ⟨48, 84⟩] :=
    congrArg setup_view_t.tasks v
  have hm : (H.stepgen.map fun s => s.pru.mode) = [4, 9] := congrArg setup_view_t.modes v
  have hw : H.wait.task = ⟨84, 12⟩ := congrArg setup_view_t.wait_task v
  have hh : H.pru_stat.addr = 12 := congrArg setup_view_t.head v
  have hsa : H.pru_stat_addr = 0 := congrArg setup_view_t.pru_stat_addr v
  have ha : (H.stepgen.map fun s => s.task.addr) = [12, 48] := by
    rw [map_task_addr, ht]
    rfl
  have hwa : H.wait.task.addr = 84 := by rw [hw]
  have hwn : H.wait.task.next = 12 := by rw [hw]
  have M := pru_data_after_force_writes H (by rw [ha]; decide) (by rw [ha, hwa]; decide)
    (by rw [ha, hsa]; decide) (by rw [hwa, hsa]; decide)
  have T := force_writes_tasks H
  generalize hpg_wait_force_write (hpg_stepgen_force_write_hpg H) = F at M T ⊢
  obtain ⟨s0, s1, hl⟩ : ∃ s0 s1, H.stepgen = [s0, s1] := by
    rcases hl : H.stepgen with _ | ⟨s0, _ | ⟨s1, _ | ⟨s2, rest⟩⟩⟩
    · rw [hl] at ht
      exact absurd ht (by simp)
    · rw [hl] at ht
      exact absurd ht (by simp)
    · exact ⟨s0, s1, rfl⟩
    · rw [hl] at ht
      exact absurd ht (by simp)
  rw [hl] at ht hm
  simp only [List.map_cons, List.map_nil, List.cons.injEq, and_true] at ht hm
  have m0 := M.1
  have mw := M.2.1
  have ms0 := M.2.2 s0 (by rw [hl]; simp)
  have ms1 := M.2.2 s1 (by rw [hl]; simp)
  rw [hsa] at m0
  rw [hwa, hwn] at mw
  rw [ht.1] at ms0
  rw [ht.2] at ms1
  have f0 := force_write_shadow_fields H.pru_period s0
  have f1 := force_write_shadow_fields H.pru_period s1
  have a0 : (force_write_shadow H.pru_period s0).pru.addr = 48 := by
    rw [f0.1.2.2.1, ht.1]
  have a1 : (force_write_shadow H.pru_period s1).pru.addr = 84 := by
    rw [f1.1.2.2.1, ht.2]
  have d0 : (force_write_shadow H.pru_period s0).pru.mode = 4 := f0.1.1.trans hm.1
  have d1 : (force_write_shadow H.pru_period s1).pru.mode = 9 := f1.1.1.trans hm.2
  have n0 : mem_next F.pru_data 0 = some 12 := by
    simp only [mem_next, m0, Option.map_some', object_addr, hh]
  have n1 : mem_next F.pru_data 12 = some 48 := by
    simp only [mem_next, ms0, Option.map_some', object_addr, a0]
  have n2 : mem_next F.pru_data 48 = some 84 := by
    simp only [mem_next, ms1, Option.map_some', object_addr, a1]
  have n3 : mem_next F.pru_data 84 = some 12 := by
    simp only [mem_next, mw, Option.map_some', object_addr]
  refine ⟨rfl, rfl, rfl, T.2.2.trans hsa, ?_, ?_, ⟨n0, n1, n2, n3⟩, ⟨?_, ?_, ?_⟩, ?_⟩
  · rw [map_task_addr, T.1, ← map_task_addr, ha]
  · rw [T.2.1, hwa]
  · simp only [ms0, Option.map_some', object_mode, d0]
  · simp only [ms1, Option.map_some', object_mode, d1]
  · simp only [mw, Option.map_some', object_mode]
    rfl
  · simp [List.range_succ, mem_hops, n0, n1, n2, n3]

/-! ## `hpg_stepgen_update` on every channel -/

/-- The stores of `hpg_stepgen_update`: for every channel in order, the address of its
descriptor with the stores the loop body makes into it. -/
theorem update_logs (hpg : hal_pru_generic_t) (l_period_ns : Int) :
    (hpg_stepgen_update hpg l_period_ns).2 =
      hpg.stepgen.map fun s =>
        (s.task.addr, (hpg_stepgen_update_instance hpg.pru_period l_period_ns s).2) := by
  simp only [hpg_stepgen_update, zip_map_map]

theorem update_stepgen_list (hpg : hal_pru_generic_t) (l_period_ns : Int) :
    (hpg_stepgen_update hpg l_period_ns).1.stepgen =
      hpg.stepgen.map fun s =>
        (hpg_stepgen_update_instance hpg.pru_period l_period_ns s).1 := by
  simp only [hpg_stepgen_update, List.map_map]
  rfl

/-- Channel `i` and the stores to its descriptor after `hpg_stepgen_update`. -/
theorem update_getElem? (hpg : hal_pru_generic_t) (l_period_ns : Int) (i : Nat)
    (s : hpg_stepgen_instance_t) (h : hpg.stepgen[i]? = some s) :
    (hpg_stepgen_update hpg l_period_ns).1.stepgen[i]? =
      some (hpg_stepgen_update_instance hpg.pru_period l_period_ns s).1 ∧
    (hpg_stepgen_update hpg l_period_ns).2[i]? =
      some (s.task.addr, (hpg_stepgen_update_instance hpg.pru_period l_period_ns s).2) := by
  constructor
  · rw [update_stepgen_list, List.getElem?_map, h]
    rfl
  · rw [update_logs, List.getElem?_map, h]
    rfl

/-- Shared memory at the address of entry `i` of a pass whose addresses are pairwise
different: the stores of that entry, applied in order. -/
theorem store_logs_at (logs : List (Nat × List pru_write)) :
    ∀ (mem : Nat → PRU_task_stepgen_t) (i : Nat) (a : Nat) (log : List pru_write),
      logs[i]? = some (a, log) → (logs.map Prod.fst).Nodup →
      store_logs mem logs a = log.foldl apply_write (mem a) := by
  induction logs with
  | nil =>
    intro mem i a log h
    simp at h
  | cons x xs ih =>
    intro mem i a log h hnd
    rw [List.map_cons, List.nodup_cons] at hnd
    rw [store_logs_cons]
    cases i with
    | zero =>
      simp only [List.getElem?_cons_zero, Option.some.injEq] at h
      subst h
      rw [store_logs_other _ _ _ hnd.1]
      simp [store_log]
    | succ i =>
      simp only [List.getElem?_cons_succ] at h
      have hx : a ≠ x.1 := by
        intro e
        apply hnd.1
        rw [← e]
        exact List.mem_map.2 ⟨(a, log), List.getElem?_mem h, rfl⟩
      rw [ih _ i a log h hnd.2]
      simp only [store_log, if_neg hx]

theorem update_logs_addrs (hpg : hal_pru_generic_t) (l_period_ns : Int) :
    (hpg_stepgen_update hpg l_period_ns).2.map Prod.fst =
      hpg.stepgen.map fun s => s.task.addr := by
  rw [update_logs, List.map_map]
  rfl

/-- C10: change-tracked publish in `hpg_stepgen_update` for steplen, dirhold, the control
word and, for a step/dir channel, stepspace and dirsetup. `hpg` is the state at one update,
in which channel `i` is `s`, and `u` is that channel after the update; `hpg'` is the state
at the next update (same coprocessor period), in which channel `i` is `s'`: whatever
happened in between, its remembered values are those the first update left. `log1` and
`log2` are the stores the two updates make to the descriptor of the channel, `u2` is the
channel after the second update. The first update stores the pending value exactly when it
differs from the remembered one; when the second update sees the same pending value it
makes no store to that member; when the pending value has changed it makes one store, of
the new value (`ns2periods` of the new parameter for the timing members), and remembers
the new pending value. -/
theorem change_tracked_publish (hpg hpg' : hal_pru_generic_t) (t1 t2 : Int) (i : Nat)
    (s u s' : hpg_stepgen_instance_t)
    (hs : hpg.stepgen[i]? = some s)
    (hu : (hpg_stepgen_update hpg t1).1.stepgen[i]? = some u)
    (hs' : hpg'.stepgen[i]? = some s')
    (hP : hpg'.pru_period = hpg.pru_period)
    (h1 : s'.written_steplen = u.written_steplen)
    (h2 : s'.written_dirhold = u.written_dirhold)
    (h3 : s'.written_stepspace = u.written_stepspace)
    (h4 : s'.written_dirsetup = u.written_dirsetup)
    (h5 : s'.written_task = u.written_task) :
    ∃ log1 log2 u2,
      (hpg_stepgen_update hpg t1).2[i]? = some (s.task.addr, log1) ∧
      (hpg_stepgen_update hpg' t2).2[i]? = some (s'.task.addr, log2) ∧
      (hpg_stepgen_update hpg' t2).1.stepgen[i]? = some u2 ∧
      (writes_to pru_field.steplen log1 =
          (if s.param.steplen ≠ s.written_steplen then
            [ns2periods hpg.pru_period s.param.steplen] else []) ∧
        (s'.param.steplen = s.param.steplen → writes_to pru_field.steplen log2 = []) ∧
        (s'.param.steplen ≠ s.param.steplen →
          writes_to pru_field.steplen log2 = [ns2periods hpg.pru_period s'.param.steplen] ∧
          u2.written_steplen = s'.param.steplen)) ∧
      (writes_to pru_field.dirhold log1 =
          (if s.param.dirhold ≠ s.written_dirhold then
            [ns2periods hpg.pru_period s.param.dirhold] else []) ∧
        (s'.param.dirhold = s.param.dirhold → writes_to pru_field.dirhold log2 = []) ∧
        (s'.param.dirhold ≠ s.param.dirhold →
          writes_to pru_field.dirhold log2 = [ns2periods hpg.pru_period s'.param.dirhold] ∧
          u2.written_dirhold = s'.param.dirhold)) ∧
      (writes_to pru_field.dword0 log1 =
          (if task_dword0 u.pru ≠ s.written_task then [task_dword0 u.pru] else []) ∧
        (task_dword0 u2.pru = task_dword0 u.pru → writes_to pru_field.dword0 log2 = []) ∧
        (task_dword0 u2.pru ≠ task_dword0 u.pru →
          writes_to pru_field.dword0 log2 = [task_dword0 u2.pru] ∧
          u2.written_task = task_dword0 u2.pru)) ∧
      (s.stepgen_updateclass = updateclass_t.stepdir →
        s'.stepgen_updateclass = updateclass_t.stepdir →
        (writes_to pru_field.stepspace log1 =
            (if dir_stepspace s.param ≠ s.written_stepspace then
              [ns2periods hpg.pru_period (dir_stepspace s.param)] else []) ∧
          (dir_stepspace s'.param = dir_stepspace s.param →
            writes_to pru_field.stepspace log2 = []) ∧
          (dir_stepspace s'.param ≠ dir_stepspace s.param →
            writes_to pru_field.stepspace log2 =
              [ns2periods hpg.pru_period (dir_stepspace s'.param)] ∧
            u2.written_stepspace = dir_stepspace s'.param)) ∧
        (writes_to pru_field.dirsetup log1 =
            (if dir_dirsetup s.param ≠ s.written_dirsetup then
              [ns2periods hpg.pru_period (dir_dirsetup s.param)] else []) ∧
          (dir_dirsetup s'.param = dir_dirsetup s.param →
            writes_to pru_field.dirsetup log2 = []) ∧
          (dir_dirsetup s'.param ≠ dir_dirsetup s.param →
            writes_to pru_field.dirsetup log2 =
              [ns2periods hpg.pru_period (dir_dirsetup s'.param)] ∧
            u2.written_dirsetup = dir_dirsetup s'.param))) := by
  have g1 := update_getElem? hpg t1 i s hs
  have g2 := update_getElem? hpg' t2 i s' hs'
  rw [hP] at g2
  have eu : u = (hpg_stepgen_update_instance hpg.pru_period t1 s).1 :=
    (Option.some.inj (hu.symm.trans g1.1))
  subst eu
  exact ⟨_, _, _, g1.2, g2.2, g2.1,
    update_instance_change_tracked hpg.pru_period t1 t2 s s' h1 h2 h3 h4 h5⟩

theorem change_tracked_publish_witness :
    ∃ log1 log2,
      (hpg_stepgen_update ⟨10000, [idle_channel]⟩ 1000000).2[0]? =
        some (idle_channel.task.addr, log1) ∧
      (hpg_stepgen_update
        ⟨10000, [{ idle_channel with
          param := { idle_channel.param with steplen := 2000000 } }]⟩ 1000000).2[0]? =
        some (({ idle_channel with
          param := { idle_channel.param with steplen := 2000000 } } :
            hpg_stepgen_instance_t).task.addr, log2) ∧
      writes_to pru_field.steplen log1 = [] ∧
      writes_to pru_field.dirhold log2 = [] ∧
      writes_to pru_field.steplen log2 = [ns2periods 10000 2000000] := by
  obtain ⟨log1, log2, u2, a1, a2, _, b, c, _⟩ :=
    change_tracked_publish ⟨10000, [idle_channel]⟩
      ⟨10000, [{ idle_channel with
        param := { idle_channel.param with steplen := 2000000 } }]⟩
      1000000 1000000 0 idle_channel
      (hpg_stepgen_update_instance 10000 1000000 idle_channel).1
      { idle_channel with param := { idle_channel.param with steplen := 2000000 } }
      rfl (update_getElem? ⟨10000, [idle_channel]⟩ 1000000 0 idle_channel rfl).1 rfl rfl
      (by decide) (by decide) (by decide) (by decide) (by decide)
  exact ⟨log1, log2, a1, a2, b.1, c.2.1 rfl, (b.2.2 (by decide)).1⟩

theorem pin_c_lt (p : PRU_task_stepgen_t) : pin_c p < 256 := by
  unfold pin_c
  omega

theorem pin_d_lt (p : PRU_task_stepgen_t) : pin_d p < 256 := by
  unfold pin_d
  omega

/-- C11 (amended): the stores of `hpg_stepgen_update` to the descriptor of channel `i`, which
is `s` before the update and `u` after it; `log` is the list of the stores, all to the
address of the channel. The rate is stored in every period, whether or not it changed.
Every other member is stored only when its pending value differs from the remembered one,
and then with the pending value: `steplen` and `dirhold` against `written_steplen` and
`written_dirhold`; the control word against `written_task`; for a step/dir channel
`stepspace` and `dirsetup` against `written_stepspace` and `written_dirsetup`, and the
invert byte against the byte of the host shadow; for a step/phase channel the 32-bit
parameters of pin C and pin D against the bytes of the host shadow (the low byte of the
parameter is stored, so a parameter above 255 is stored again in every period) and the
pattern table against `written_phase`. A member of the other class is not stored, and every
store is a store to a single member. When none of these comparisons finds a difference the
stores are exactly one: the rate. -/
theorem update_stores_changed_members (hpg : hal_pru_generic_t) (l_period_ns : Int)
    (i : Nat) (s : hpg_stepgen_instance_t) (hs : hpg.stepgen[i]? = some s) :
    (hpg_stepgen_update hpg l_period_ns).2.map Prod.fst =
      (hpg.stepgen.map fun c => c.task.addr) ∧
    ∃ u log,
      (hpg_stepgen_update hpg l_period_ns).1.stepgen[i]? = some u ∧
      (hpg_stepgen_update hpg l_period_ns).2[i]? = some (s.task.addr, log) ∧
      writes_to pru_field.rate log = [toU32 u.pru.rate] ∧
      writes_to pru_field.steplen log =
        (if s.param.steplen ≠ s.written_steplen then
          [ns2periods hpg.pru_period s.param.steplen] else []) ∧
      writes_to pru_field.dirhold log =
        (if s.param.dirhold ≠ s.written_dirhold then
          [ns2periods hpg.pru_period s.param.dirhold] else []) ∧
      writes_to pru_field.dword0 log =
        (if task_dword0 u.pru ≠ s.written_task then [task_dword0 u.pru] else []) ∧
      (s.stepgen_updateclass = updateclass_t.stepdir →
        writes_to pru_field.stepspace log =
          (if dir_stepspace s.param ≠ s.written_stepspace then
            [ns2periods hpg.pru_period (dir_stepspace s.param)] else []) ∧
        writes_to pru_field.dirsetup log =
          (if dir_dirsetup s.param ≠ s.written_dirsetup then
            [ns2periods hpg.pru_period (dir_dirsetup s.param)] else []) ∧
        writes_to pru_field.step_inv log =
          (if step_inv s.pru ≠ dir_stepinv s.param then [dir_stepinv s.param] else []) ∧
        writes_to pru_field.pin_c log = [] ∧
        writes_to pru_field.pin_d log = [] ∧
        writes_to pru_field.lut log = []) ∧
      (s.stepgen_updateclass = updateclass_t.stepphase →
        writes_to pru_field.pin_c log =
          (if phase_pin_c s.param ≠ pin_c s.pru then [phase_pin_c s.param % 256] else []) ∧
        writes_to pru_field.pin_d log =
          (if phase_pin_d s.param ≠ pin_d s.pru then [phase_pin_d s.param % 256] else []) ∧
        (256 ≤ phase_pin_c s.param →
          writes_to pru_field.pin_c log = [phase_pin_c s.param % 256]) ∧
        (256 ≤ phase_pin_d s.param →
          writes_to pru_field.pin_d log = [phase_pin_d s.param % 256]) ∧
        writes_to pru_field.lut log =
          (if phase_type s.param ≠ s.written_phase then [create_lut s] else []) ∧
        writes_to pru_field.stepspace log = [] ∧
        writes_to pru_field.dirsetup log = [] ∧
        writes_to pru_field.step_inv log = []) ∧
      (∀ w ∈ log, ∃ f v, w = pru_write.field f v) ∧
      (s.param.steplen = s.written_steplen →
        s.param.dirhold = s.written_dirhold →
        task_dword0 u.pru = s.written_task →
        (s.stepgen_updateclass = updateclass_t.stepdir →
          dir_stepspace s.param = s.written_stepspace ∧
          dir_dirsetup s.param = s.written_dirsetup ∧
          step_inv s.pru = dir_stepinv s.param) →
        (s.stepgen_updateclass = updateclass_t.stepphase →
          phase_pin_c s.param = pin_c s.pru ∧
          phase_pin_d s.param = pin_d s.pru ∧
          phase_type s.param = s.written_phase) →
        log = [pru_write.field pru_field.rate (toU32 u.pru.rate)]) := by
  have g := update_getElem? hpg l_period_ns i s hs
  obtain ⟨a1, a2, a3, a4, a5, a6, a7, a8⟩ :=
    update_instance_stores hpg.pru_period l_period_ns s
  refine ⟨update_logs_addrs hpg l_period_ns, _, _, g.1, g.2, a1, a2, a3, a4, a5, ?_, a7, a8⟩
  intro hc
  obtain ⟨b1, b2, b3, b4, b5, b6⟩ := a6 hc
  refine ⟨b1, b2, ?_, ?_, b3, b4, b5, b6⟩
  · intro h
    have hlt := pin_c_lt s.pru
    rw [b1, if_pos (by omega)]
  · intro h
    have hlt := pin_d_lt s.pru
    rw [b2, if_pos (by omega)]

theorem update_stores_changed_members_witness :
    ∃ u log,
      (hpg_stepgen_update ⟨10000, [idle_channel]⟩ 1000000).1.stepgen[0]? = some u ∧
      (hpg_stepgen_update ⟨10000, [idle_channel]⟩ 1000000).2[0]? =
        some (idle_channel.task.addr, log) ∧
      log = [pru_write.field pru_field.rate (toU32 u.pru.rate)] := by
  obtain ⟨u, log, a, b, _, _, _, _, _, _, _, c⟩ :=
    (update_stores_changed_members ⟨10000, [idle_channel]⟩ 1000000 0 idle_channel rfl).2
  have eu : u = (hpg_stepgen_update_instance 10000 1000000 idle_channel).1 :=
    Option.some.inj
      (a.symm.trans (update_getElem? ⟨10000, [idle_channel]⟩ 1000000 0 idle_channel rfl).1)
  refine ⟨u, log, a, b, c (by decide) (by decide) ?_ (by decide) (by decide)⟩
  rw [eu]
  decide

/-- C15: `hpg_stepgen_update` for a channel `i` whose `enable` input is 0; `s` is the channel
before the update, `u` the channel after it and `log` the stores to its descriptor. The rate
of the host shadow is 0, the one store to `rate` carries 0 and, the descriptors of the
channels being at pairwise different addresses, shared memory holds rate 0 at the address
of the channel afterwards; `velocity_fb` is 0 and every other pin is untouched (no debug pin
of the position controller is written), `old_position_cmd` is the current `position_cmd`,
and `maxvel` and `maxaccel` are not sanitised. Hence for any later update in which the
channel (`s2`) starts with this `old_position_cmd`, is enabled and in position mode, the
feed-forward velocity is `(position_cmd now - position_cmd at the disabled period) / T`. -/
theorem disabled_channel_update (hpg hpg2 : hal_pru_generic_t)
    (l_period_ns l_period_ns2 : Int) (i : Nat) (s u s2 : hpg_stepgen_instance_t)
    (hs : hpg.stepgen[i]? = some s) (he : s.pin.enable = 0)
    (hu : (hpg_stepgen_update hpg l_period_ns).1.stepgen[i]? = some u)
    (hs2 : hpg2.stepgen[i]? = some s2)
    (hold : s2.old_position_cmd = u.old_position_cmd)
    (he2 : s2.pin.enable ≠ 0) (hc2 : s2.pin.control_type = 0) :
    u.pru.rate = 0 ∧
    (∃ log, (hpg_stepgen_update hpg l_period_ns).2[i]? = some (s.task.addr, log) ∧
      writes_to pru_field.rate log = [0]) ∧
    ((hpg.stepgen.map fun c => c.task.addr).Nodup →
      ∀ mem : Nat → PRU_task_stepgen_t,
        (store_logs mem (hpg_stepgen_update hpg l_period_ns).2 s.task.addr).rate = 0) ∧
    u.pin = { s.pin with velocity_fb := 0 } ∧
    u.old_position_cmd = s.pin.position_cmd ∧
    u.param.maxvel = s.param.maxvel ∧
    u.param.maxaccel = s.param.maxaccel ∧
    (∃ u2, (hpg_stepgen_update hpg2 l_period_ns2).1.stepgen[i]? = some u2 ∧
      u2.pin.dbg_ff_vel =
        (s2.pin.position_cmd - s.pin.position_cmd) / f_period_s l_period_ns2) := by
  have g := update_getElem? hpg l_period_ns i s hs
  have g2 := update_getElem? hpg2 l_period_ns2 i s2 hs2
  have eu : u = (hpg_stepgen_update_instance hpg.pru_period l_period_ns s).1 :=
    (Option.some.inj (hu.symm.trans g.1))
  subst eu
  have e := (control_view_update_instance hpg.pru_period l_period_ns s).trans
    (update_enable_disabled hpg.pru_period l_period_ns s he)
  have hr : (hpg_stepgen_update_instance hpg.pru_period l_period_ns s).1.pru.rate = 0 :=
    congrArg control_view_t.rate e
  have ho : (hpg_stepgen_update_instance hpg.pru_period l_period_ns s).1.old_position_cmd =
      s.pin.position_cmd := congrArg control_view_t.old_position_cmd e
  refine ⟨hr, ⟨_, g.2, ?_⟩, ?_, congrArg control_view_t.pin e, ho,
    congrArg control_view_t.maxvel e, congrArg control_view_t.maxaccel e, ⟨_, g2.1, ?_⟩⟩
  · rw [writes_rate_update_instance, hr]
    rfl
  · intro hnd mem
    rw [store_logs_at _ mem i _ _ g.2 (by rw [update_logs_addrs]; exact hnd),
      rate_after_update_instance, hr]
    rfl
  · rw [update_instance_ff_vel hpg2.pru_period l_period_ns2 s2 he2 hc2, hold, ho]

theorem update_instance_disabled_old (pru_period l_period_ns : Int)
    (s : hpg_stepgen_instance_t) (he : s.pin.enable = 0) :
    (hpg_stepgen_update_instance pru_period l_period_ns s).1.old_position_cmd =
      s.pin.position_cmd :=
  congrArg control_view_t.old_position_cmd
    ((control_view_update_instance pru_period l_period_ns s).trans
      (update_enable_disabled pru_period l_period_ns s he))

theorem disabled_channel_update_witness :
    (∃ log, (hpg_stepgen_update ⟨10000, [idle_channel]⟩ 1000000).2[0]? =
        some (idle_channel.task.addr, log) ∧
      writes_to pru_field.rate log = [0]) ∧
    (∃ u2, (hpg_stepgen_update ⟨10000, [reenabled_channel]⟩ 1000000).1.stepgen[0]? = some u2 ∧
      u2.pin.dbg_ff_vel =
        (reenabled_channel.pin.position_cmd - idle_channel.pin.position_cmd) /
          f_period_s 1000000) :=
  have h := disabled_channel_update ⟨10000, [idle_channel]⟩ ⟨10000, [reenabled_channel]⟩
    1000000 1000000 0 idle_channel
    (hpg_stepgen_update_instance 10000 1000000 idle_channel).1 reenabled_channel
    rfl rfl (update_getElem? ⟨10000, [idle_channel]⟩ 1000000 0 idle_channel rfl).1 rfl
    ((update_instance_disabled_old 10000 1000000 idle_channel rfl).trans rfl).symm
    (by decide) rfl
  ⟨h.2.1, h.2.2.2.2.2.2.2⟩

/-! ## `update_stepgen` when the `int` product of the pulse timing overflows -/

theorem min_ns_per_step_overflow_stepdir :
    min_ns_per_step 20000 overflow_stepdir_channel = -1673567296 := by
  simp [min_ns_per_step, overflow_stepdir_channel, zero_pru, eMODE_STEP_DIR, toS32]

theorem physical_maxvel_overflow_stepdir :
    physical_maxvel 20000 overflow_stepdir_channel =
      xdouble.fin (-(1000000000 / 1673567296)) := by
  simp only [physical_maxvel, max_steps_per_s, min_ns_per_step_overflow_stepdir]
  norm_num [overflow_stepdir_channel, zero_param]

theorem min_ns_per_step_overflow_stepphase :
    min_ns_per_step 65537 overflow_stepphase_channel = -1 := by
  simp [min_ns_per_step, overflow_stepphase_channel, zero_pru, eMODE_STEP_DIR,
    eMODE_STEP_PHASE, toS32]

theorem physical_maxvel_overflow_stepphase :
    physical_maxvel 65537 overflow_stepphase_channel = xdouble.fin (-1000000000) := by
  simp only [physical_maxvel, max_steps_per_s, min_ns_per_step_overflow_stepphase]
  norm_num [overflow_stepphase_channel, zero_param]

/-- C17, where the code leaves it: the step/dir channel `overflow_stepdir_channel`
(`steplen = stepspace = 65535` periods, coprocessor period 20000 ns, `position_scale` 1,
`maxvel` 0, velocity mode, commanded velocity 0). The `int` product
`(steplen + stepspace) * pru_period = 2621400000` wraps to -1673567296, so
`physical_maxvel` is negative: `update_stepgen` replaces the `maxvel` parameter by
`-1e9 / 1673567296` where `min(|maxvel|, phys)` is 0, and publishes
`velocity_fb = -1e9 / 1673567296`, which is below `-M` for
`M = phys = 1e9 / (131070 * 20000) / |position_scale|`. -/
theorem update_stepgen_maxvel_negative_on_int_overflow :
    overflow_stepdir_channel.pru.mode = eMODE_STEP_DIR ∧
    overflow_stepdir_channel.pru.steplen + overflow_stepdir_channel.pru.stepspace = 131070 ∧
    overflow_stepdir_channel.param.position_scale = 1 ∧
    overflow_stepdir_channel.param.maxvel = 0 ∧
    min_ns_per_step 20000 overflow_stepdir_channel = -1673567296 ∧
    (update_stepgen 20000 1000000 overflow_stepdir_channel).param.maxvel =
      -(1000000000 / 1673567296) ∧
    min |overflow_stepdir_channel.param.maxvel|
      (1000000000 / (((131070 : Nat) : Rat) * ((20000 : Int) : Rat)) /
        |overflow_stepdir_channel.param.position_scale|) = 0 ∧
    (update_stepgen 20000 1000000 overflow_stepdir_channel).pin.velocity_fb =
      -(1000000000 / 1673567296) ∧
    (update_stepgen 20000 1000000 overflow_stepdir_channel).pin.velocity_fb <
      -(1000000000 / (((131070 : Nat) : Rat) * ((20000 : Int) : Rat)) /
        |overflow_stepdir_channel.param.position_scale|) := by
  have hs : overflow_stepdir_channel.param.position_scale = 1 := rfl
  have hm : overflow_stepdir_channel.param.maxvel = 0 := rfl
  have hp : (update_stepgen 20000 1000000 overflow_stepdir_channel).param.maxvel =
      -(1000000000 / 1673567296) := by
    rw [update_stepgen_maxvel_param, physical_maxvel_overflow_stepdir, sanitize_maxvel_eq_min,
      hm]
    norm_num
  have hlim : update_stepgen_maxvel 20000 overflow_stepdir_channel =
      xdouble.fin (-(1000000000 / 1673567296)) := by
    rw [update_stepgen_maxvel_fin _ _ _ physical_maxvel_overflow_stepdir, hm]
    norm_num
  have hv : (update_stepgen 20000 1000000 overflow_stepdir_channel).pin.velocity_fb =
      -(1000000000 / 1673567296) := by
    rw [update_stepgen_velocity_mode 20000 1000000 overflow_stepdir_channel (by decide), hlim]
    norm_num [clip_velocity, velocity_control, update_stepgen_sanitize,
      overflow_stepdir_channel, zero_pin, zero_param, sanitize_maxaccel, f_period_s]
  refine ⟨rfl, rfl, hs, hm, min_ns_per_step_overflow_stepdir, hp, ?_, hv, ?_⟩
  · rw [hm, hs]
    norm_num
  · rw [hv, hs]
    norm_num

/-- C30, where the code leaves it: the step/phase channel `overflow_stepphase_channel`
(`steplen = 65535` periods, coprocessor period 65537 ns, `position_scale` 1, `maxvel` 0,
velocity mode, commanded velocity 0). The `int` product `steplen * pru_period = 4294967295`
wraps to -1, `physical_maxvel` is `-1e9` and the velocity is clipped to it, so the value
converted to the rate is `-1e9 * 2^27 * 65537 * 1e-9 = -8796227239936`: its magnitude is
above `2^27 / n = 2^27 / 65535` and it is outside the 32-bit range; the conversion
saturates at -2147483648 and the rate clamp stores `0xFC000001`. -/
theorem update_stepgen_rate_unbounded_on_int_overflow :
    overflow_stepphase_channel.pru.mode = eMODE_STEP_PHASE ∧
    overflow_stepphase_channel.pru.steplen = 65535 ∧
    overflow_stepphase_channel.param.position_scale = 1 ∧
    min_ns_per_step 65537 overflow_stepphase_channel = -1 ∧
    (update_stepgen 65537 1000000 overflow_stepphase_channel).pin.velocity_fb *
        (update_stepgen 65537 1000000 overflow_stepphase_channel).param.position_scale *
        134217728 * ((65537 : Int) : Rat) * (1 / 1000000000) = -8796227239936 ∧
    134217728 / ((65535 : Nat) : Rat) <
      |(update_stepgen 65537 1000000 overflow_stepphase_channel).pin.velocity_fb *
        (update_stepgen 65537 1000000 overflow_stepphase_channel).param.position_scale *
        134217728 * ((65537 : Int) : Rat) * (1 / 1000000000)| ∧
    (update_stepgen 65537 1000000 overflow_stepphase_channel).pin.velocity_fb *
        (update_stepgen 65537 1000000 overflow_stepphase_channel).param.position_scale *
        134217728 * ((65537 : Int) : Rat) * (1 / 1000000000) < -2147483648 ∧
    rate_of_steps_per_sec 65537
        ((update_stepgen 65537 1000000 overflow_stepphase_channel).pin.velocity_fb *
          (update_stepgen 65537 1000000 overflow_stepphase_channel).param.position_scale) =
      -2147483648 ∧
    (update_stepgen 65537 1000000 overflow_stepphase_channel).pru.rate = toS32 0xFC000001 := by
  have hs : overflow_stepphase_channel.param.position_scale = 1 := rfl
  have hm : overflow_stepphase_channel.param.maxvel = 0 := rfl
  have hlim : update_stepgen_maxvel 65537 overflow_stepphase_channel =
      xdouble.fin (-1000000000) := by
    rw [update_stepgen_maxvel_fin _ _ _ physical_maxvel_overflow_stepphase, hm]
    norm_num
  have hv : (update_stepgen 65537 1000000 overflow_stepphase_channel).pin.velocity_fb =
      -1000000000 := by
    rw [update_stepgen_velocity_mode 65537 1000000 overflow_stepphase_channel (by decide),
      hlim]
    norm_num [clip_velocity, velocity_control, update_stepgen_sanitize,
      overflow_stepphase_channel, zero_pin, zero_param, sanitize_maxaccel, f_period_s]
  have hsc := update_stepgen_position_scale 65537 1000000 overflow_stepphase_channel
  have hr := update_stepgen_rate 65537 1000000 overflow_stepphase_channel
  have hval : (update_stepgen 65537 1000000 overflow_stepphase_channel).pin.velocity_fb *
      (update_stepgen 65537 1000000 overflow_stepphase_channel).param.position_scale *
      134217728 * ((65537 : Int) : Rat) * (1 / 1000000000) = -8796227239936 := by
    rw [hv, hsc, hs]
    norm_num
  have hconv : rate_of_steps_per_sec 65537
      ((update_stepgen 65537 1000000 overflow_stepphase_channel).pin.velocity_fb *
        (update_stepgen 65537 1000000 overflow_stepphase_channel).param.position_scale) =
      -2147483648 := by
    unfold rate_of_steps_per_sec
    rw [hval]
    have ht : truncQ (-8796227239936 : Rat) = -8796227239936 := by
      have e : (-8796227239936 : Rat) = ((-8796227239936 : Int) : Rat) := by norm_num
      rw [e, truncQ_intCast]
    simp only [double_to_s32, ht]
    decide
  refine ⟨rfl, rfl, hs, min_ns_per_step_overflow_stepphase, hval, ?_, ?_, hconv, ?_⟩
  · rw [hval]
    norm_num
  · rw [hval]
    norm_num
  · rw [hr, hconv]
    decide

/-! ## `update_stepgen` without a pulse timing: no physical limit -/

/-- With `min_ns_per_step == 0` (`steplen` and `stepspace` both 0) the division
`1.0e9 / min_ns_per_step` gives plus infinity: `maxvel` is only folded to its absolute
value, and with `maxvel == 0` the velocity is not clipped at all. -/
theorem update_stepgen_zero_timing (pru_period l_period_ns : Int)
    (s : hpg_stepgen_instance_t) (h : min_ns_per_step pru_period s = 0) :
    physical_maxvel pru_period s = xdouble.pos_inf ∧
    (update_stepgen pru_period l_period_ns s).param.maxvel = |s.param.maxvel| ∧
    (s.param.maxvel = 0 →
      update_stepgen_maxvel pru_period s = xdouble.pos_inf ∧
      ∀ v, clip_velocity v (update_stepgen_maxvel pru_period s) = v) := by
  have hp : physical_maxvel pru_period s = xdouble.pos_inf := by
    simp only [physical_maxvel, max_steps_per_s, h, if_true]
  have hs : sanitize_maxvel s.param.maxvel xdouble.pos_inf = |s.param.maxvel| := by
    simp only [sanitize_maxvel]
    split_ifs with h0
    · rfl
    · exact (abs_of_nonneg (not_lt.1 h0)).symm
  refine ⟨hp, ?_, ?_⟩
  · rw [update_stepgen_maxvel_param, hp, hs]
  · intro h0
    have hm : update_stepgen_maxvel pru_period s = xdouble.pos_inf := by
      unfold update_stepgen_maxvel
      rw [hp, hs, h0, abs_zero, if_pos rfl]
    refine ⟨hm, ?_⟩
    intro v
    rw [hm]
    rfl

/-! ## `hpg_stepgen_init` over all channels -/

theorem modes_after_init_supported (hpg : hpg_t) (i mode : Nat) (cls : updateclass_t) :
    ((hpg_stepgen_init_export (pru_task_add_hpg
        (hpg_stepgen_init_class (hpg_stepgen_init_addr hpg i) i mode cls) i) i).stepgen.map
      fun s => s.pru.mode) = (hpg.stepgen.map fun s => s.pru.mode).modify (fun _ => mode) i := by
  have h := congrArg setup_view_t.modes (setup_view_init_supported hpg i mode cls)
  exact h

theorem step_class_after_init_supported (hpg : hpg_t) (i mode : Nat) (cls : updateclass_t) :
    (hpg_stepgen_init_export (pru_task_add_hpg
        (hpg_stepgen_init_class (hpg_stepgen_init_addr hpg i) i mode cls) i) i).step_class =
      hpg.step_class := by
  have h := congrArg setup_view_t.step_class (setup_view_init_supported hpg i mode cls)
  exact h

theorem last_task_after_init_supported (hpg : hpg_t) (i mode : Nat) (cls : updateclass_t) :
    (task_list (hpg_stepgen_init_export (pru_task_add_hpg
      (hpg_stepgen_init_class (hpg_stepgen_init_addr hpg i) i mode cls) i) i)).last_task =
      some i := by
  rw [task_list_init_export, task_list_task_add]
  unfold pru_task_add
  cases (task_list (hpg_stepgen_init_class (hpg_stepgen_init_addr hpg i) i mode
    cls)).last_task <;> rfl

/-- The loop body of `hpg_stepgen_init` for a channel of a supported class: it does not
return, leaves the configured classes and the number of instances alone and sets the mode
of the channel. -/
theorem init_channel_supported (hpg : hpg_t) (i : Nat)
    (h : hpg.step_class.getD i eCLASS_NONE = eCLASS_STEP_DIR ∨
      hpg.step_class.getD i eCLASS_NONE = eCLASS_STEP_PHASE) :
    (hpg_stepgen_init_channel hpg i).1 = 0 ∧
    (hpg_stepgen_init_channel hpg i).2.step_class = hpg.step_class ∧
    ((hpg_stepgen_init_channel hpg i).2.stepgen.map fun s => s.pru.mode) =
      (hpg.stepgen.map fun s => s.pru.mode).modify
        (fun _ => if hpg.step_class.getD i eCLASS_NONE = eCLASS_STEP_DIR then eMODE_STEP_DIR
          else eMODE_STEP_PHASE) i ∧
    (task_list (hpg_stepgen_init_channel hpg i).2).last_task = some i := by
  have hc := init_channel_of_class hpg i
  have hne : eCLASS_STEP_PHASE ≠ eCLASS_STEP_DIR := by decide
  rcases h with h | h
  · have e := hc.1 h
    rw [e, if_pos h]
    exact ⟨rfl, step_class_after_init_supported hpg i _ _,
      modes_after_init_supported hpg i _ _, last_task_after_init_supported hpg i _ _⟩
  · have e := hc.2.1 h
    rw [e, if_neg (by rw [h]; exact hne)]
    exact ⟨rfl, step_class_after_init_supported hpg i _ _,
      modes_after_init_supported hpg i _ _, last_task_after_init_supported hpg i _ _⟩

/-- The loop of `hpg_stepgen_init` over a run of channels of supported classes: it goes on
with the channel after the run. -/
theorem init_loop_supported (j : Nat) :
    ∀ (i : Nat) (X : hpg_t),
      (∀ m, m < j → X.step_class.getD (i + m) eCLASS_NONE = eCLASS_STEP_DIR ∨
        X.step_class.getD (i + m) eCLASS_NONE = eCLASS_STEP_PHASE) →
      (hpg_stepgen_init_loop j i X).1 = 0 ∧
      (hpg_stepgen_init_loop j i X).2.step_class = X.step_class ∧
      ∀ k, hpg_stepgen_init_loop (j + k) i X =
        hpg_stepgen_init_loop k (i + j) (hpg_stepgen_init_loop j i X).2 := by
  induction j with
  | zero =>
    intro i X _
    refine ⟨rfl, rfl, ?_⟩
    intro k
    rw [Nat.zero_add]
    rfl
  | succ j ih =>
    intro i X h
    have h0 := h 0 (Nat.succ_pos j)
    rw [Nat.add_zero] at h0
    obtain ⟨c1, c2, _, _⟩ := init_channel_supported X i h0
    have hstep : ∀ k, hpg_stepgen_init_loop (k + 1) i X =
        hpg_stepgen_init_loop k (i + 1) (hpg_stepgen_init_channel X i).2 := by
      intro k
      rw [init_loop_succ, c1]
      rfl
    obtain ⟨a1, a2, a3⟩ := ih (i + 1) (hpg_stepgen_init_channel X i).2 (by
      intro m hm
      rw [c2]
      have := h (m + 1) (by omega)
      rwa [show i + (m + 1) = i + 1 + m from by omega] at this)
    rw [hstep j]
    refine ⟨a1, a2.trans c2, ?_⟩
    intro k
    rw [show j + 1 + k = (j + k) + 1 from by omega, hstep (j + k), a3 k,
      show i + 1 + j = i + (j + 1) from by omega]

/-- The state of `hpg_stepgen_init` after the loop body has run for channel `j`, for a run
of supported classes before it: the loop over `j + 1` channels is the loop over `j`
channels followed by the loop body for channel `j`. -/
theorem init_loop_snoc (j : Nat) (X : hpg_t)
    (h : ∀ m, m < j → X.step_class.getD m eCLASS_NONE = eCLASS_STEP_DIR ∨
      X.step_class.getD m eCLASS_NONE = eCLASS_STEP_PHASE) (k : Nat) :
    hpg_stepgen_init_loop (j + (k + 1)) 0 X =
      if (hpg_stepgen_init_channel (hpg_stepgen_init_loop j 0 X).2 j).1 ≠ 0 then
        hpg_stepgen_init_channel (hpg_stepgen_init_loop j 0 X).2 j
      else hpg_stepgen_init_loop k (j + 1)
        (hpg_stepgen_init_channel (hpg_stepgen_init_loop j 0 X).2 j).2 := by
  obtain ⟨_, _, a3⟩ := init_loop_supported j 0 X (by
    intro m hm
    rw [Nat.zero_add]
    exact h m hm)
  rw [a3 (k + 1), Nat.zero_add, init_loop_succ]

theorem init_addr_modes (hpg : hpg_t) (i : Nat) :
    ((hpg_stepgen_init_addr hpg i).stepgen.map fun s => s.pru.mode) =
      hpg.stepgen.map fun s => s.pru.mode :=
  congrArg setup_view_t.modes (setup_view_init_addr hpg i)

/-- After the loop of `hpg_stepgen_init` over the first `j` channels, all of a supported
class: the number of instances is unchanged, every one of these channels has the mode of
its class, and the last task of the list is channel `j - 1`. -/
theorem init_loop_prefix (X : hpg_t) (j : Nat) :
    (∀ m, m < j → X.step_class.getD m eCLASS_NONE = eCLASS_STEP_DIR ∨
      X.step_class.getD m eCLASS_NONE = eCLASS_STEP_PHASE) →
    j ≤ X.stepgen.length →
    (hpg_stepgen_init_loop j 0 X).1 = 0 ∧
    (hpg_stepgen_init_loop j 0 X).2.step_class = X.step_class ∧
    (hpg_stepgen_init_loop j 0 X).2.stepgen.length = X.stepgen.length ∧
    (∀ m, m < j →
      ((hpg_stepgen_init_loop j 0 X).2.stepgen[m]?).map (fun s => s.pru.mode) =
        some (if X.step_class.getD m eCLASS_NONE = eCLASS_STEP_DIR then eMODE_STEP_DIR
          else eMODE_STEP_PHASE)) ∧
    (task_list (hpg_stepgen_init_loop j 0 X).2).last_task =
      (if j = 0 then X.last_task else some (j - 1)) := by
  induction j with
  | zero =>
    intro _ _
    refine ⟨rfl, rfl, rfl, ?_, rfl⟩
    intro m hm
    exact absurd hm (Nat.not_lt_zero m)
  | succ j ih =>
    intro h hj
    obtain ⟨b1, b2, b3, b4, _⟩ := ih (fun m hm => h m (by omega)) (by omega)
    have hsn := init_loop_snoc j X (fun m hm => h m (by omega)) 0
    have hj0 := h j (Nat.lt_succ_self j)
    rw [← b2] at hj0
    obtain ⟨c1, c2, c3, c4⟩ := init_channel_supported (hpg_stepgen_init_loop j 0 X).2 j hj0
    have e : hpg_stepgen_init_loop (j + 1) 0 X =
        (0, (hpg_stepgen_init_channel (hpg_stepgen_init_loop j 0 X).2 j).2) := by
      rw [show j + 1 = j + (0 + 1) from rfl, hsn, c1]
      rfl
    rw [e]
    have hlen : (hpg_stepgen_init_channel (hpg_stepgen_init_loop j 0 X).2 j).2.stepgen.length =
        X.stepgen.length := by
      have := congrArg List.length c3
      simp only [List.length_map, List.length_modify] at this
      rw [this, b3]
    refine ⟨rfl, c2.trans b2, hlen, ?_, ?_⟩
    · intro m hm
      have hg := congrArg (fun l => l[m]?) c3
      simp only [List.getElem?_map] at hg
      rw [hg, b2]
      by_cases hmj : m = j
      · subst hmj
        rw [List.getElem?_modify_eq, List.getElem?_map]
        have hlt : m < (hpg_stepgen_init_loop m 0 X).2.stepgen.length := by omega
        rw [List.getElem?_eq_getElem hlt]
        rfl
      · rw [List.getElem?_modify_ne _ _ (fun e => hmj e.symm), List.getElem?_map]
        exact b4 m (by omega)
    · simp only [c4, Nat.succ_ne_zero, if_false, Nat.add_sub_cancel]

/-- C22: `hpg_stepgen_init` for `n = num_stepgens > 0` channels of which the first `j` are of
a supported class and either `j = n` or channel `j` is of another class. In the state the
function leaves, every channel `m < j` of class step/dir has the mode code 4
(`eMODE_STEP_DIR`) and every channel `m < j` of class step/phase the mode code 9
(`eMODE_STEP_PHASE`), and each of them has been appended to the task list: the state after
the loop body for channel `m` has the task list `pru_task_add` gives for task `m` (on the
list with the descriptor address assigned), and the last task is then `m`. With `j = n` the
function returns 0. Otherwise it returns -1 at channel `j` without appending it: the state
is the one before channel `j` with only the descriptor address of channel `j` assigned, so
the head pointer, `last_task` (channel `j - 1`, or the one on entry for `j = 0`) and the
`next` link of every task are as before channel `j`. -/
theorem stepgen_init_by_class (hpg : hpg_t) (j : Nat)
    (hn : 0 < hpg.num_stepgens) (hj : j ≤ hpg.num_stepgens.toNat)
    (hsup : ∀ m, m < j → hpg.step_class.getD m eCLASS_NONE = eCLASS_STEP_DIR ∨
      hpg.step_class.getD m eCLASS_NONE = eCLASS_STEP_PHASE)
    (hend : j = hpg.num_stepgens.toNat ∨
      (hpg.step_class.getD j eCLASS_NONE ≠ eCLASS_STEP_DIR ∧
        hpg.step_class.getD j eCLASS_NONE ≠ eCLASS_STEP_PHASE)) :
    eMODE_STEP_DIR = 4 ∧ eMODE_STEP_PHASE = 9 ∧
    (∀ m, m < j →
      ((hpg_stepgen_init hpg).2.stepgen[m]?).map (fun s => s.pru.mode) =
        some (if hpg.step_class.getD m eCLASS_NONE = eCLASS_STEP_DIR then 4 else 9)) ∧
    (∀ m, m < j →
      task_list (hpg_stepgen_init_loop (m + 1) 0
          { hpg with stepgen :=
            List.replicate hpg.num_stepgens.toNat cleared_instance }).2 =
        pru_task_add (task_list (hpg_stepgen_init_addr (hpg_stepgen_init_loop m 0
          { hpg with stepgen :=
            List.replicate hpg.num_stepgens.toNat cleared_instance }).2 m)) m ∧
      (task_list (hpg_stepgen_init_loop (m + 1) 0
          { hpg with stepgen :=
            List.replicate hpg.num_stepgens.toNat cleared_instance }).2).last_task =
        some m) ∧
    (task_list (hpg_stepgen_init hpg).2).last_task =
      (if j = 0 then hpg.last_task else some (j - 1)) ∧
    (j = hpg.num_stepgens.toNat →
      hpg_stepgen_init hpg = (0, (hpg_stepgen_init_loop j 0
        { hpg with stepgen :=
          List.replicate hpg.num_stepgens.toNat cleared_instance }).2)) ∧
    (j < hpg.num_stepgens.toNat →
      (hpg_stepgen_init hpg).1 = -1 ∧
      (hpg_stepgen_init hpg).2 = hpg_stepgen_init_addr (hpg_stepgen_init_loop j 0
        { hpg with stepgen :=
          List.replicate hpg.num_stepgens.toNat cleared_instance }).2 j ∧
      (task_list (hpg_stepgen_init hpg).2).head = (task_list (hpg_stepgen_init_loop j 0
        { hpg with stepgen :=
          List.replicate hpg.num_stepgens.toNat cleared_instance }).2).head ∧
      (task_list (hpg_stepgen_init hpg).2).last_task =
        (task_list (hpg_stepgen_init_loop j 0
          { hpg with stepgen :=
            List.replicate hpg.num_stepgens.toNat cleared_instance }).2).last_task ∧
      (task_list (hpg_stepgen_init hpg).2).tasks.map (fun t => t.next) =
        (task_list (hpg_stepgen_init_loop j 0
          { hpg with stepgen :=
            List.replicate hpg.num_stepgens.toNat cleared_instance }).2).tasks.map
          (fun t => t.next)) := by
  have hinit : hpg_stepgen_init hpg = hpg_stepgen_init_loop hpg.num_stepgens.toNat 0
      { hpg with stepgen := List.replicate hpg.num_stepgens.toNat cleared_instance } := by
    unfold hpg_stepgen_init
    rw [if_neg (not_le.2 hn)]
  generalize hX : ({ hpg with
    stepgen := List.replicate hpg.num_stepgens.toNat cleared_instance } : hpg_t) = X at hinit ⊢
  have hXc : X.step_class = hpg.step_class := by rw [← hX]
  have hXl : X.stepgen.length = hpg.num_stepgens.toNat := by
    rw [← hX]
    exact List.length_replicate _ _
  have hXt : X.last_task = hpg.last_task := by rw [← hX]
  generalize hpg.num_stepgens.toNat = n at hj hend hinit hXl ⊢
  rw [← hXc] at hsup hend ⊢
  rw [← hXt]
  obtain ⟨p1, p2, p3, p4, p5⟩ := init_loop_prefix X j hsup (by omega)
  have hk1 : eMODE_STEP_DIR = 4 := rfl
  have hk2 : eMODE_STEP_PHASE = 9 := rfl
  -- the state the function leaves
  have hfinal : (j = n → hpg_stepgen_init hpg = (0, (hpg_stepgen_init_loop j 0 X).2)) ∧
      (j < n → hpg_stepgen_init hpg =
        (-1, hpg_stepgen_init_addr (hpg_stepgen_init_loop j 0 X).2 j)) := by
    constructor
    · intro e
      rw [hinit, ← e]
      exact Prod.ext p1 rfl
    · intro hlt
      have hu : X.step_class.getD j eCLASS_NONE ≠ eCLASS_STEP_DIR ∧
          X.step_class.getD j eCLASS_NONE ≠ eCLASS_STEP_PHASE := by
        rcases hend with e | e
        · omega
        · exact e
      rw [← p2] at hu
      have hch := (init_channel_of_class (hpg_stepgen_init_loop j 0 X).2 j).2.2 hu.1 hu.2
      obtain ⟨k, hk⟩ : ∃ k, n = j + (k + 1) := ⟨n - j - 1, by omega⟩
      rw [hinit, hk, init_loop_snoc j X hsup k, hch]
      rfl
  refine ⟨rfl, rfl, ?_, ?_, ?_, hfinal.1, ?_⟩
  · intro m hm
    rw [← hk1, ← hk2]
    rcases Nat.lt_or_ge j n with hlt | hge
    · rw [hfinal.2 hlt]
      have hg := congrArg (fun l => l[m]?)
        (init_addr_modes (hpg_stepgen_init_loop j 0 X).2 j)
      simp only [List.getElem?_map] at hg
      rw [hg]
      exact p4 m hm
    · rw [hfinal.1 (by omega)]
      exact p4 m hm
  · intro m hm
    obtain ⟨q1, q2, q3, _, _⟩ := init_loop_prefix X m (fun a ha => hsup a (by omega))
      (by omega)
    have hsn := init_loop_snoc m X (fun a ha => hsup a (by omega)) 0
    have hm0 := hsup m hm
    rw [← q2] at hm0
    obtain ⟨c1, _, _, c4⟩ := init_channel_supported (hpg_stepgen_init_loop m 0 X).2 m hm0
    have e : hpg_stepgen_init_loop (m + 1) 0 X =
        (0, (hpg_stepgen_init_channel (hpg_stepgen_init_loop m 0 X).2 m).2) := by
      rw [show m + 1 = m + (0 + 1) from rfl, hsn, c1]
      rfl
    rw [e]
    refine ⟨?_, c4⟩
    have hb := init_channel_by_class (hpg_stepgen_init_loop m 0 X).2 m 0 (by omega)
    rcases hm0 with h | h
    · exact (hb.2.2.1 h).2.2.1
    · exact (hb.2.2.2.1 h).2.2.1
  · rcases Nat.lt_or_ge j n with hlt | hge
    · rw [hfinal.2 hlt]
      rw [(task_list_init_addr (hpg_stepgen_init_loop j 0 X).2 j).2.1]
      exact p5
    · rw [hfinal.1 (by omega)]
      exact p5
  · intro hlt
    rw [hfinal.2 hlt]
    have ha := task_list_init_addr (hpg_stepgen_init_loop j 0 X).2 j
    exact ⟨rfl, rfl, ha.1, ha.2.1, ha.2.2⟩

theorem stepgen_init_by_class_witness :
    ((hpg_stepgen_init
      { cleared_hpg with
        step_class := [eCLASS_STEP_DIR, eCLASS_NONE], num_stepgens := 2,
        pru_data_free := 12 }).2.stepgen[0]?).map (fun s => s.pru.mode) = some 4 ∧
    (hpg_stepgen_init
      { cleared_hpg with
        step_class := [eCLASS_STEP_DIR, eCLASS_NONE], num_stepgens := 2,
        pru_data_free := 12 }).1 = -1 ∧
    (task_list (hpg_stepgen_init
      { cleared_hpg with
        step_class := [eCLASS_STEP_DIR, eCLASS_NONE], num_stepgens := 2,
        pru_data_free := 12 }).2).last_task = some 0 :=
  have h := stepgen_init_by_class
    { cleared_hpg with
      step_class := [eCLASS_STEP_DIR, eCLASS_NONE], num_stepgens := 2, pru_data_free := 12 }
    1 (by decide) (by decide) (by decide) (Or.inr (by decide))
  ⟨h.2.2.1 0 (by decide), (h.2.2.2.2.2.2 (by decide)).1, h.2.2.2.2.1⟩

/-! ## Position scale: the read of every channel -/

/-- C18: `hpg_stepgen_read` sanitises the `position_scale` of every channel before using it
(`s` is channel `i` before the read, `r` after it): a value of magnitude below `1e-6` (the
`double` constant of the comparison, `4722366482869645 / 2^72`) is replaced by 1.0 when it
is >= 0 and by -1.0 when it is negative, any other value is kept; so the value that divides
the position feedback has magnitude >= `1e-6` and the sign of the configured value (the
positive sign for zero). -/
theorem position_scale_sanitised (hpg : hal_pru_generic_t) (reads : Nat → Int) (i : Nat)
    (s : hpg_stepgen_instance_t) (hs : hpg.stepgen[i]? = some s) :
    double_1e_6 = 4722366482869645 / 2 ^ 72 ∧
    ∃ r, (hpg_stepgen_read hpg reads).stepgen[i]? = some r ∧
      r.param.position_scale =
        (if |s.param.position_scale| < double_1e_6 then
          (if s.param.position_scale ≥ 0 then 1 else -1)
         else s.param.position_scale) ∧
      double_1e_6 ≤ |r.param.position_scale| ∧
      (0 ≤ s.param.position_scale → 0 < r.param.position_scale) ∧
      (s.param.position_scale < 0 → r.param.position_scale < 0) ∧
      r.pin.position_fb = ((r.subcounts : Rat) / 65536) / r.param.position_scale := by
  refine ⟨?_, _, read_getElem? hpg reads i s hs,
    read_instance_position_scale (reads i) s⟩
  unfold double_1e_6
  norm_num

theorem position_scale_sanitised_witness :
    ∃ r, (hpg_stepgen_read ⟨10000, [new_channel 10000 updateclass_t.stepdir 12]⟩
        (fun _ => 0x8000)).stepgen[0]? = some r ∧
      double_1e_6 ≤ |r.param.position_scale| ∧
      0 < r.param.position_scale := by
  obtain ⟨r, a, _, b, c, _⟩ :=
    (position_scale_sanitised ⟨10000, [new_channel 10000 updateclass_t.stepdir 12]⟩
      (fun _ => 0x8000) 0 (new_channel 10000 updateclass_t.stepdir 12) rfl).2
  exact ⟨r, a, b, c (by
    simp [new_channel, export_stepgen, hpg_stepgen_init_instance, export_stepdir])⟩

end HalPruGeneric
